import Mathlib

/-!
# Ecosystem simulation (`src/simulation.js`): shallow embedding and verified properties

Modelling conventions.

* JavaScript numbers are modelled by exact rationals `ℚ`; rounding, `NaN` and the
  infinities are outside the model, so a division is faithful only where the divisor
  is non-zero.
* The library functions `Math.sqrt`, `Math.cos`, `Math.sin`, `Math.atan2` and the
  constant `Math.PI` are not code of the repository: they are the fields of a
  parameter `MathEnv`.  `Math.pow(d, 2)` is `d ^ 2`.
* `Math.random()` reads the next element of an explicit stream (`Rng`).
* Objects are mutable and shared by reference.  Animals and vegetation stored in the
  world live in a heap (`Sim.animalAt`, `Sim.vegAt`) and are referred to by their
  identifier; `a !== b` on objects is inequality of identifiers.  Methods that only
  read and write the fields of `this` are functions on the record, methods that
  touch other objects are functions on the whole program state `Sim`.
* `x instanceof Vegetation` / `x instanceof Animal` is the constructor of `Target`.
-/

namespace Ecosystem

/-! ## Library functions and random numbers -/

/-- The functions of the JavaScript `Math` object the simulation calls. -/
structure MathEnv where
  sqrt : ℚ → ℚ
  cos : ℚ → ℚ
  sin : ℚ → ℚ
  atan2 : ℚ → ℚ → ℚ
  PI : ℚ

/-- The stream of results of `Math.random()` together with the read position. -/
structure Rng where
  stream : Nat → ℚ
  pos : Nat

/-- One call of `Math.random()`: the drawn value and the advanced generator. -/
def Rng.next (r : Rng) : ℚ × Rng :=
  (r.stream r.pos, { r with pos := r.pos + 1 })

/-- Every value of the stream lies in `[0, 1)`, as `Math.random()` guarantees. -/
def Rng.InUnit (r : Rng) : Prop :=
  ∀ n, 0 ≤ r.stream n ∧ r.stream n < 1

/-! ## Vector2D -/

/-- A point or direction of the plane (class `Vector2D`). -/
structure Vector2D where
  x : ℚ
  y : ℚ
deriving DecidableEq

namespace Vector2D

/-- Method `add`. -/
def add (self v : Vector2D) : Vector2D :=
  ⟨self.x + v.x, self.y + v.y⟩

/-- Method `subtract`. -/
def subtract (self v : Vector2D) : Vector2D :=
  ⟨self.x - v.x, self.y - v.y⟩

/-- Method `multiply`. -/
def multiply (self : Vector2D) (scalar : ℚ) : Vector2D :=
  ⟨self.x * scalar, self.y * scalar⟩

/-- Method `magnitude`. -/
def magnitude (M : MathEnv) (self : Vector2D) : ℚ :=
  M.sqrt (self.x * self.x + self.y * self.y)

/-- Method `normalize`. -/
def normalize (M : MathEnv) (self : Vector2D) : Vector2D :=
  let mag := self.magnitude M
  if mag = 0 then ⟨0, 0⟩ else ⟨self.x / mag, self.y / mag⟩

/-- Method `distance`. -/
def distance (M : MathEnv) (self v : Vector2D) : ℚ :=
  M.sqrt ((self.x - v.x) ^ 2 + (self.y - v.y) ^ 2)

end Vector2D

/-! ## Vegetation -/

/-- Class `Vegetation`. -/
structure Vegetation where
  position : Vector2D
  energy : ℚ
  maxEnergy : ℚ
  size : ℚ
  growthRate : ℚ
deriving DecidableEq

namespace Vegetation

/-- The constructor `new Vegetation(x, y)`; it draws the initial energy. -/
def new (x y : ℚ) (r : Rng) : Vegetation × Rng :=
  let (u, r) := r.next
  let energy := 20 + u * 30
  let maxEnergy : ℚ := 50
  ({ position := ⟨x, y⟩, energy := energy, maxEnergy := maxEnergy,
     size := 3 + (energy / maxEnergy) * 3, growthRate := 0.05 }, r)

/-- Method `grow`. -/
def grow (self : Vegetation) : Vegetation :=
  if self.energy < self.maxEnergy then
    let energy := self.energy + self.growthRate
    { self with energy := energy, size := 3 + (energy / self.maxEnergy) * 3 }
  else self

/-- Method `consume`: the vegetation after the call and the returned amount. -/
def consume (self : Vegetation) (amount : ℚ) : Vegetation × ℚ :=
  let consumed := min self.energy amount
  let energy := self.energy - consumed
  ({ self with energy := energy, size := 3 + (energy / self.maxEnergy) * 3 }, consumed)

/-- Method `isDepleted`. -/
def isDepleted (self : Vegetation) : Bool :=
  decide (self.energy ≤ 0)

end Vegetation

/-! ## Species catalog -/

/-- An entry of the table `SPECIES`.  The source omits `canEat` for herbivores,
which is `none` here (`this.species.canEat || []`). -/
structure Species where
  name : String
  emoji : String
  color : String
  baseSpeed : ℚ
  baseSize : ℚ
  baseVision : ℚ
  baseReproductionRate : ℚ
  lifespan : ℚ
  reproductionAge : ℚ
  diet : List String
  canEat : Option (List String)
  trophicLevel : Nat
deriving DecidableEq

namespace SPECIES

/-- Entry `SPECIES.RABBIT`. -/
def RABBIT : Species :=
  { name := "rabbit", emoji := "🐰", color := "#D2691E", baseSpeed := 60, baseSize := 8,
    baseVision := 100, baseReproductionRate := 1.5, lifespan := 80, reproductionAge := 15,
    diet := ["vegetation"], canEat := none, trophicLevel := 1 }

/-- Entry `SPECIES.DEER`. -/
def DEER : Species :=
  { name := "deer", emoji := "🦌", color := "#8B4513", baseSpeed := 50, baseSize := 14,
    baseVision := 150, baseReproductionRate := 0.8, lifespan := 120, reproductionAge := 25,
    diet := ["vegetation"], canEat := none, trophicLevel := 1 }

/-- Entry `SPECIES.FOX`. -/
def FOX : Species :=
  { name := "fox", emoji := "🦊", color := "#FF6347", baseSpeed := 70, baseSize := 10,
    baseVision := 120, baseReproductionRate := 1.0, lifespan := 100, reproductionAge := 20,
    diet := ["animals"], canEat := some ["rabbit"], trophicLevel := 2 }

/-- Entry `SPECIES.WOLF`. -/
def WOLF : Species :=
  { name := "wolf", emoji := "🐺", color := "#708090", baseSpeed := 65, baseSize := 13,
    baseVision := 140, baseReproductionRate := 0.7, lifespan := 110, reproductionAge := 25,
    diet := ["animals"], canEat := some ["rabbit", "deer"], trophicLevel := 2 }

/-- Entry `SPECIES.BEAR`. -/
def BEAR : Species :=
  { name := "bear", emoji := "🐻", color := "#654321", baseSpeed := 55, baseSize := 18,
    baseVision := 130, baseReproductionRate := 0.5, lifespan := 140, reproductionAge := 30,
    diet := ["animals"], canEat := some ["rabbit", "deer", "fox", "wolf"], trophicLevel := 3 }

/-- The entries in the order of `Object.values(SPECIES)`. -/
def values : List Species :=
  [RABBIT, DEER, FOX, WOLF, BEAR]

end SPECIES

/-! ## Animal: data -/

/-- The object `traits` of an animal. -/
structure Traits where
  speed : ℚ
  size : ℚ
  vision : ℚ
  reproductionRate : ℚ
deriving DecidableEq

/-- The values of `currentBehavior`. -/
inductive Behavior where
  | wandering
  | hunting
  | eating
  | seeking_mate
deriving DecidableEq

/-- A non-null `currentTarget`: a reference to a vegetation or to an animal object. -/
inductive Target where
  | vegetation (id : Nat)
  | animal (id : Nat)
deriving DecidableEq

/-- Class `Animal`. -/
structure Animal where
  species : Species
  position : Vector2D
  velocity : Vector2D
  gender : String
  traits : Traits
  health : ℚ
  maxHealth : ℚ
  age : ℚ
  maxAge : ℚ
  hunger : ℚ
  maxHunger : ℚ
  reproductionCooldown : ℚ
  reproductionReady : ℚ
  size : ℚ
  angle : ℚ
  trail : List Vector2D
  currentBehavior : Behavior
  currentTarget : Option Target
deriving DecidableEq

/-! ## World and program state -/

/-- The object `enabledSpecies` of the world. -/
structure EnabledSpecies where
  rabbit : Bool
  deer : Bool
  fox : Bool
  wolf : Bool
  bear : Bool
deriving DecidableEq

/-- Class `World`; the two collections hold references. -/
structure World where
  width : ℚ
  height : ℚ
  animals : List Nat
  vegetation : List Nat
  time : ℚ
  speed : ℚ
  paused : Bool
  enabledSpecies : EnabledSpecies
deriving DecidableEq

/-- The program state: the world, the objects the references stand for, the next
unused identifier and the random generator. -/
structure Sim where
  world : World
  animalAt : Nat → Animal
  vegAt : Nat → Vegetation
  nextId : Nat
  rng : Rng

namespace Sim

/-- Store `a` as the animal object `id`. -/
def setAnimal (s : Sim) (id : Nat) (a : Animal) : Sim :=
  { s with animalAt := fun j => if j = id then a else s.animalAt j }

/-- Store `v` as the vegetation object `id`. -/
def setVeg (s : Sim) (id : Nat) (v : Vegetation) : Sim :=
  { s with vegAt := fun j => if j = id then v else s.vegAt j }

/-- The field `position` of the object a target refers to. -/
def targetPosition (s : Sim) : Target → Vector2D
  | .vegetation v => (s.vegAt v).position
  | .animal a => (s.animalAt a).position

end Sim

/-- Well-formed states: no object occurs twice in the animal collection and the
identifiers in it are below `nextId`, so that an object created later is new. -/
def Sim.WF (s : Sim) : Prop :=
  s.world.animals.Nodup ∧ ∀ id ∈ s.world.animals, id < s.nextId

/-! ## Animal: methods on the record -/

namespace Animal

/-- Method `initializeTraits` (lines 95-102): four draws, in the order of the literal. -/
def initializeTraits (species : Species) (r : Rng) : Traits × Rng :=
  let (u1, r) := r.next
  let (u2, r) := r.next
  let (u3, r) := r.next
  let (u4, r) := r.next
  ({ speed := species.baseSpeed * (0.8 + u1 * 0.4),
     size := species.baseSize * (0.9 + u2 * 0.2),
     vision := species.baseVision * (0.85 + u3 * 0.3),
     reproductionRate := species.baseReproductionRate * (0.9 + u4 * 0.2) }, r)

/-- The constructor `new Animal(x, y, species, gender)` (lines 66-93).  A missing or
empty `gender` is falsy and is drawn at random. -/
def new (M : MathEnv) (x y : ℚ) (species : Species) (gender : Option String) (r : Rng) :
    Animal × Rng :=
  let (gender, r) :=
    match gender with
    | some g => if g = "" then (if r.next.1 > 0.5 then "male" else "female", r.next.2) else (g, r)
    | none => (if r.next.1 > 0.5 then "male" else "female", r.next.2)
  let (traits, r) := initializeTraits species r
  let (u, r) := r.next
  ({ species := species, position := ⟨x, y⟩, velocity := ⟨0, 0⟩, gender := gender,
     traits := traits, health := 100, maxHealth := 100, age := 0, maxAge := species.lifespan,
     hunger := 0, maxHunger := 100, reproductionCooldown := 0,
     reproductionReady := species.reproductionAge, size := traits.size,
     angle := u * M.PI * 2, trail := [], currentBehavior := Behavior.wandering,
     currentTarget := none }, r)

/-- Method `mutate` (lines 115-117). -/
def mutate (value mutationRate : ℚ) (r : Rng) : ℚ × Rng :=
  let (u, r) := r.next
  (value * (1 + (u - 0.5) * mutationRate), r)

/-- Method `inheritTraits` (lines 104-113). -/
def inheritTraits (self parent1 parent2 : Animal) (r : Rng) : Animal × Rng :=
  let (speed, r) := mutate ((parent1.traits.speed + parent2.traits.speed) / 2) 0.1 r
  let (size, r) := mutate ((parent1.traits.size + parent2.traits.size) / 2) 0.1 r
  let (vision, r) := mutate ((parent1.traits.vision + parent2.traits.vision) / 2) 0.1 r
  let (reproductionRate, r) :=
    mutate ((parent1.traits.reproductionRate + parent2.traits.reproductionRate) / 2) 0.1 r
  let traits : Traits :=
    { speed := speed, size := size, vision := vision, reproductionRate := reproductionRate }
  ({ self with traits := traits, size := traits.size }, r)

/-- Method `canEat` (lines 243-246). -/
def canEat (self animal : Animal) : Bool :=
  (self.species.canEat.getD []).contains animal.species.name

/-- Method `canReproduce` (lines 305-322): the answer and the generator, which has
advanced only if the random draw of line 318 was made. -/
def canReproduce (self : Animal) (r : Rng) : Bool × Rng :=
  if self.age ≤ self.reproductionReady ∨ self.reproductionCooldown > 0 ∨
      self.health < 50 ∨ self.hunger > 60 then
    (false, r)
  else
    let ageRatio := self.age / self.maxAge
    if ageRatio > 0.7 then
      let (u, r) := r.next
      (decide (u < 0.3), r)
    else
      (true, r)

/-- Method `isDead` (lines 339-341). -/
def isDead (self : Animal) : Bool :=
  decide (self.health ≤ 0)

end Animal

/-! ## Animal: methods on the program state

`self` is the identifier of `this`. -/

namespace Animal

/-- One step of the scan of `findFood`/`findMate`: a candidate strictly nearer than
the best so far replaces it (`closestFood`, `closestDistance`). -/
def closer {α : Type} (candidate : α) (distance : ℚ) (best : Option α × ℚ) :
    Option α × ℚ :=
  if distance < best.2 then (some candidate, distance) else best

/-- Method `findFood` (lines 213-241). -/
def findFood (M : MathEnv) (s : Sim) (self : Nat) : Option Target :=
  let this := s.animalAt self
  let preyTypes := this.species.diet
  let best : Option Target × ℚ := (none, this.traits.vision)
  let best :=
    if preyTypes.contains "vegetation" then
      s.world.vegetation.foldl
        (fun best veg =>
          closer (Target.vegetation veg)
            (this.position.distance M (s.vegAt veg).position) best)
        best
    else best
  let best :=
    if preyTypes.contains "animals" then
      s.world.animals.foldl
        (fun best animal =>
          if animal ≠ self ∧ this.canEat (s.animalAt animal) = true then
            closer (Target.animal animal)
              (this.position.distance M (s.animalAt animal).position) best
          else best)
        best
    else best
  best.1

/-- Method `findMate` (lines 248-266).  The candidates' `canReproduce()` may draw
random numbers, so the generator is threaded through the scan. -/
def findMate (M : MathEnv) (s : Sim) (self : Nat) : Option Nat × Sim :=
  let this := s.animalAt self
  let best : Option Nat × ℚ := (none, this.traits.vision)
  let scan :=
    s.world.animals.foldl
      (fun (acc : (Option Nat × ℚ) × Rng) animal =>
        if animal ≠ self ∧ (s.animalAt animal).species.name = this.species.name ∧
            (s.animalAt animal).gender ≠ this.gender then
          let (ok, r) := (s.animalAt animal).canReproduce acc.2
          if ok = true then
            (closer animal (this.position.distance M (s.animalAt animal).position) acc.1, r)
          else (acc.1, r)
        else acc)
      (best, s.rng)
  (scan.1.1, { s with rng := scan.2 })

/-- Method `findTarget` (lines 203-211). -/
def findTarget (M : MathEnv) (s : Sim) (self : Nat) : Option Target × Sim :=
  let this := s.animalAt self
  if this.hunger > 50 then
    (findFood M s self, s)
  else
    let (ok, r) := this.canReproduce s.rng
    if ok = true then
      let (u, r) := r.next
      if u < 0.3 then
        let (mate, s) := findMate M { s with rng := r } self
        (mate.map Target.animal, s)
      else (none, { s with rng := r })
    else (none, { s with rng := r })

/-- Method `moveTowards` (lines 268-271). -/
def moveTowards (M : MathEnv) (s : Sim) (self : Nat) (target : Target) : Sim :=
  let this := s.animalAt self
  let direction := ((s.targetPosition target).subtract this.position).normalize M
  s.setAnimal self { this with velocity := direction.multiply this.traits.speed }

/-- Method `wander` (lines 273-282). -/
def wander (M : MathEnv) (s : Sim) (self : Nat) : Sim :=
  let (u, r) := s.rng.next
  let s := { s with rng := r }
  if u < 0.02 then
    let (v, r) := s.rng.next
    let s := { s with rng := r }
    let angle := v * M.PI * 2
    let this := s.animalAt self
    s.setAnimal self
      { this with velocity := ⟨M.cos angle * this.traits.speed * 0.5,
                               M.sin angle * this.traits.speed * 0.5⟩ }
  else s

/-- Method `tryEat` (lines 284-303). -/
def tryEat (M : MathEnv) (s : Sim) (self : Nat) (target : Target) : Sim × Bool :=
  let this := s.animalAt self
  let distance := this.position.distance M (s.targetPosition target)
  if distance < this.size + 5 then
    let s := s.setAnimal self
      { this with currentBehavior := Behavior.eating, currentTarget := some target }
    match target with
    | Target.vegetation veg =>
      let (eaten, energy) := (s.vegAt veg).consume 30
      let s := s.setVeg veg eaten
      let this := s.animalAt self
      let this := { this with hunger := max 0 (this.hunger - energy) }
      let this := { this with health := min this.maxHealth (this.health + energy * 0.5) }
      (s.setAnimal self this, (s.vegAt veg).isDepleted)
    | Target.animal prey =>
      let s := s.setAnimal prey { s.animalAt prey with health := 0 }
      let this := s.animalAt self
      let this := { this with hunger := max 0 (this.hunger - 40) }
      let this := { this with health := min this.maxHealth (this.health + 20) }
      (s.setAnimal self this, true)
  else (s, false)

/-- Method `reproduce` (lines 324-337).  The new animal is returned as a record; it
becomes an object of the heap when the caller stores it. -/
def reproduce (M : MathEnv) (s : Sim) (self partner : Nat) : Option Animal × Sim :=
  let (ok1, r) := (s.animalAt self).canReproduce s.rng
  let s := { s with rng := r }
  if ok1 = true then
    let (ok2, r) := (s.animalAt partner).canReproduce s.rng
    let s := { s with rng := r }
    if ok2 = true then
      let this := s.animalAt self
      let s := s.setAnimal self
        { this with reproductionCooldown := 100 / this.traits.reproductionRate }
      let other := s.animalAt partner
      let s := s.setAnimal partner
        { other with reproductionCooldown := 100 / other.traits.reproductionRate }
      let midPoint : Vector2D :=
        ⟨((s.animalAt self).position.x + (s.animalAt partner).position.x) / 2,
         ((s.animalAt self).position.y + (s.animalAt partner).position.y) / 2⟩
      let (child, r) := Animal.new M midPoint.x midPoint.y (s.animalAt self).species none s.rng
      (some child, { s with rng := r })
    else (none, s)
  else (none, s)

/-- First part of method `update` (lines 120-148): ageing, hunger, cooldown and
health decay, all on the fields of `this`. -/
def updateMetabolism (this : Animal) (deltaTime : ℚ) : Animal :=
  let this := { this with age := this.age + deltaTime }
  let ageRatio := this.age / this.maxAge
  let hungerMultiplier : ℚ := if ageRatio < 0.3 then 1.5 else (if ageRatio < 0.7 then 1.0 else 0.7)
  let this := { this with hunger := this.hunger + deltaTime * 0.5 * hungerMultiplier }
  let this := { this with reproductionCooldown := max 0 (this.reproductionCooldown - deltaTime) }
  let sizeBasedDecay := 0.3 / (this.traits.size / 10)
  let ageMultiplier : ℚ := if ageRatio < 0.3 then 0.5 else (if ageRatio > 0.7 then 2.0 else 1.0)
  let this := { this with health := this.health - deltaTime * sizeBasedDecay * ageMultiplier }
  if this.hunger > 80 then { this with health := this.health - deltaTime * 2 } else this

/-- Second part of method `update` (lines 150-168): the decision, skipped while the
animal is eating.  A target is a `Vegetation` or an `Animal`, so the behaviour set
for a target is always `hunting`; the branch `seeking_mate` of line 161 is for a
target that is neither and cannot be taken. -/
def updateDecision (M : MathEnv) (s : Sim) (self : Nat) : Sim :=
  if (s.animalAt self).currentBehavior ≠ Behavior.eating then
    let (target, s) := findTarget M s self
    let s := s.setAnimal self { s.animalAt self with currentTarget := target }
    match target with
    | some t =>
      let behavior :=
        match t with
        | Target.animal _ => Behavior.hunting
        | Target.vegetation _ => Behavior.hunting
      let s := s.setAnimal self { s.animalAt self with currentBehavior := behavior }
      moveTowards M s self t
    | none =>
      let s := s.setAnimal self { s.animalAt self with currentBehavior := Behavior.wandering }
      wander M s self
  else s

/-- Third part of method `update` (lines 170-200): integration of the position,
wrapping at the borders of the world, trail and facing angle. -/
def updatePosition (M : MathEnv) (width height : ℚ) (this : Animal) (deltaTime : ℚ) : Animal :=
  let position := this.position.add (this.velocity.multiply deltaTime)
  let wrapped := false
  let (position, wrapped) :=
    if position.x < 0 then ({ position with x := width }, true) else (position, wrapped)
  let (position, wrapped) :=
    if position.x > width then ({ position with x := 0 }, true) else (position, wrapped)
  let (position, wrapped) :=
    if position.y < 0 then ({ position with y := height }, true) else (position, wrapped)
  let (position, wrapped) :=
    if position.y > height then ({ position with y := 0 }, true) else (position, wrapped)
  let trail := if wrapped = true then [] else this.trail
  let trail := trail ++ [(⟨position.x, position.y⟩ : Vector2D)]
  let trail := if trail.length > 10 then trail.tail else trail
  { this with position := position, trail := trail,
              angle := M.atan2 this.velocity.y this.velocity.x }

/-- Method `update` (lines 119-201). -/
def update (M : MathEnv) (s : Sim) (self : Nat) (deltaTime : ℚ) : Sim :=
  let s := s.setAnimal self (updateMetabolism (s.animalAt self) deltaTime)
  let s := updateDecision M s self
  s.setAnimal self (updatePosition M s.world.width s.world.height (s.animalAt self) deltaTime)

end Animal

/-! ## World: the tick -/

namespace World

/-- The block "Check for feeding" of `update` (lines 478-496) for the animal `animal`. -/
def checkFeeding (M : MathEnv) (s : Sim) (animal : Nat) : Sim :=
  match (s.animalAt animal).currentTarget with
  | none => s
  | some target =>
    if (s.animalAt animal).hunger > 50 then
      let isValidFoodTarget : Bool :=
        match target with
        | Target.vegetation _ => true
        | Target.animal prey => (s.animalAt animal).canEat (s.animalAt prey)
      if isValidFoodTarget = true then
        let (s, ate) := Animal.tryEat M s animal target
        if ate = true then
          let s :=
            match (s.animalAt animal).currentTarget with
            | some (Target.vegetation veg) =>
              { s with world :=
                  { s.world with vegetation := s.world.vegetation.filter (fun v => v ≠ veg) } }
            | some (Target.animal prey) =>
              { s with world :=
                  { s.world with animals := s.world.animals.filter (fun a => a ≠ prey) } }
            | none => s
          s.setAnimal animal
            { s.animalAt animal with
                currentBehavior := Behavior.wandering, currentTarget := none }
        else s
      else s
    else s

/-- Lines 504-505 of `update`: the offspring inherits the traits of its parents and
is pushed; it becomes a new object of the heap. -/
def addOffspring (s : Sim) (animal mate : Nat) (offspring : Animal) : Sim :=
  let (offspring, r) := offspring.inheritTraits (s.animalAt animal) (s.animalAt mate) s.rng
  let id := s.nextId
  { s with world := { s.world with animals := s.world.animals ++ [id] },
           animalAt := fun j => if j = id then offspring else s.animalAt j,
           nextId := id + 1, rng := r }

/-- Lines 500-507 of `update`: the body of the reproduction check. -/
def mateAndReproduce (M : MathEnv) (s : Sim) (animal : Nat) : Sim :=
  let (mate, s) := Animal.findMate M s animal
  match mate with
  | some m =>
    if (s.animalAt animal).position.distance M (s.animalAt m).position < 20 then
      let (offspring, s) := Animal.reproduce M s animal m
      match offspring with
      | some child => addOffspring s animal m child
      | none => s
    else s
  | none => s

/-- The block "Check for reproduction" of `update` (lines 498-508). -/
def checkReproduction (M : MathEnv) (s : Sim) (animal : Nat) : Sim :=
  let (ok, r) := (s.animalAt animal).canReproduce s.rng
  let s := { s with rng := r }
  if ok = true then
    let (u, r) := s.rng.next
    let s := { s with rng := r }
    if u < 0.001 then mateAndReproduce M s animal else s
  else s

/-- The block "Remove dead animals" of `update` (lines 510-513): `splice(i, 1)`. -/
def removeDead (s : Sim) (animal i : Nat) : Sim :=
  if (s.animalAt animal).isDead = true then
    { s with world := { s.world with animals := s.world.animals.eraseIdx i } }
  else s

/-- The body of the loop of `update` (lines 475-513) at index `i`.  Reading
`this.animals[i]` beyond the end gives `undefined` and the call of its method
throws: the result is `none`. -/
def updateAnimal (M : MathEnv) (adjustedDelta : ℚ) (i : Nat) (s : Sim) : Option Sim :=
  match s.world.animals[i]? with
  | none => none
  | some animal =>
    let s := Animal.update M s animal adjustedDelta
    let s := checkFeeding M s animal
    let s := checkReproduction M s animal
    some (removeDead s animal i)

/-- The loop of `update` (line 474): `updateAnimals M d n s` runs the body for
`i = n - 1, ..., 0`. -/
def updateAnimals (M : MathEnv) (adjustedDelta : ℚ) : Nat → Sim → Option Sim
  | 0, s => some s
  | i + 1, s => (updateAnimal M adjustedDelta i s).bind (updateAnimals M adjustedDelta i)

/-- The statement "Grow vegetation" of `update` (line 517). -/
def growVegetation (s : Sim) : Sim :=
  s.world.vegetation.foldl (fun s veg => s.setVeg veg (s.vegAt veg).grow) s

/-- The statement "Spawn new vegetation occasionally" of `update` (lines 519-525). -/
def spawnVegetation (s : Sim) : Sim :=
  if s.world.vegetation.length < 200 then
    let (u, r) := s.rng.next
    let s := { s with rng := r }
    if u < 0.05 then
      let (ux, r) := s.rng.next
      let (uy, r) := r.next
      let (veg, r) := Vegetation.new (ux * s.world.width) (uy * s.world.height) r
      let id := s.nextId
      let s := { s.setVeg id veg with nextId := id + 1, rng := r }
      { s with world := { s.world with vegetation := s.world.vegetation ++ [id] } }
    else s
  else s

/-- Method `update` of the world (lines 467-526); `none` when the loop throws. -/
def update (M : MathEnv) (s : Sim) (deltaTime : ℚ) : Option Sim :=
  if s.world.paused = true then some s
  else
    let adjustedDelta := deltaTime * s.world.speed
    let s := { s with world := { s.world with time := s.world.time + adjustedDelta } }
    (updateAnimals M adjustedDelta s.world.animals.length s).map
      (fun s => spawnVegetation (growVegetation s))

end World

/-! ## Concrete states used to evaluate the model -/

/-- The integer square root, rounded down. -/
def isqrt (n : Nat) : Nat :=
  Nat.findGreatest (fun k => k * k ≤ n) n

/-- A square root on the rationals that is exact on the squares of rationals. -/
def refSqrt (q : ℚ) : ℚ :=
  (isqrt q.num.toNat : ℚ) / (isqrt q.den : ℚ)

/-- A `MathEnv` for evaluating the model on concrete states.  `sqrt` is exact on
squares of rationals (`refSqrt_mul_self`).  The other functions are exact at the
only arguments the scenarios below reach: `atan2 0 x = 0` for `x ≥ 0`, `cos 0 = 1`,
`sin 0 = 0`; `PI` is a rational approximation that no scenario reads. -/
def refMath : MathEnv :=
  { sqrt := refSqrt, cos := fun _ => 1, sin := fun _ => 0, atan2 := fun _ _ => 0,
    PI := 355 / 113 }

/-- An animal of the given species with the base values of the species as traits,
at rest, wandering, without target and with an empty trail. -/
def mkAnimal (species : Species) (x y : ℚ) (gender : String) (health age hunger : ℚ) : Animal :=
  { species := species, position := ⟨x, y⟩, velocity := ⟨0, 0⟩, gender := gender,
    traits := { speed := species.baseSpeed, size := species.baseSize,
                vision := species.baseVision,
                reproductionRate := species.baseReproductionRate },
    health := health, maxHealth := 100, age := age, maxAge := species.lifespan,
    hunger := hunger, maxHunger := 100, reproductionCooldown := 0,
    reproductionReady := species.reproductionAge, size := species.baseSize, angle := 0,
    trail := [], currentBehavior := Behavior.wandering, currentTarget := none }

/-- A vegetation with the given position and energy. -/
def mkVegetation (x y energy : ℚ) : Vegetation :=
  { position := ⟨x, y⟩, energy := energy, maxEnergy := 50,
    size := 3 + (energy / 50) * 3, growthRate := 0.05 }

/-- A generator whose every draw is `1/2`. -/
def rngHalf : Rng :=
  { stream := fun _ => 1 / 2, pos := 0 }

/-- A world of 800 by 600 with the given collections, running at speed 1. -/
def mkWorld (animals vegetation : List Nat) : World :=
  { width := 800, height := 600, animals := animals, vegetation := vegetation, time := 0,
    speed := 1, paused := false, enabledSpecies := ⟨true, true, true, true, true⟩ }

/-- A hungry fox (object 1, index 1) three units to the left of a rabbit
(object 0, index 0); no vegetation. -/
def foxRabbitSim : Sim :=
  { world := mkWorld [0, 1] [],
    animalAt := fun j =>
      if j = 0 then mkAnimal SPECIES.RABBIT 103 100 "female" 100 10 0
      else mkAnimal SPECIES.FOX 100 100 "male" 100 30 60,
    vegAt := fun _ => mkVegetation 0 0 0,
    nextId := 2,
    rng := rngHalf }

/-- A starving fox with health 1 (object 1, index 1) on the same spot as a rabbit
(object 0, index 0), and a healthy deer (object 2, index 2) elsewhere. -/
def starvingFoxSim : Sim :=
  { world := mkWorld [0, 1, 2] [],
    animalAt := fun j =>
      if j = 0 then mkAnimal SPECIES.RABBIT 100 100 "female" 100 10 0
      else if j = 1 then mkAnimal SPECIES.FOX 100 100 "male" 1 30 90
      else mkAnimal SPECIES.DEER 400 300 "female" 100 10 0,
    vegAt := fun _ => mkVegetation 0 0 0,
    nextId := 3,
    rng := rngHalf }

/-- A hungry rabbit (object 0) next to a vegetation of energy 20 (object 0), a
second vegetation out of reach (object 1), and a male rabbit (object 1) nearby; both
rabbits are of reproduction age. -/
def meadowSim : Sim :=
  { world := mkWorld [0, 1] [0, 1],
    animalAt := fun j =>
      if j = 0 then mkAnimal SPECIES.RABBIT 100 100 "female" 100 20 55
      else mkAnimal SPECIES.RABBIT 104 100 "male" 100 20 0,
    vegAt := fun j => if j = 0 then mkVegetation 103 104 20 else mkVegetation 112 116 40,
    nextId := 2,
    rng := rngHalf }

/-! ## Auxiliary definitions for the statements about `Animal.update` -/

/-- The animal `b` is `a` up to target, behavior and velocity. -/
def Animal.SameBody (a b : Animal) : Prop :=
  { b with currentTarget := a.currentTarget, currentBehavior := a.currentBehavior,
           velocity := a.velocity } = a

/-- The animal `this` after the first two parts of `update` (lines 120-168), before
its position is integrated. -/
def Animal.beforeMove (M : MathEnv) (s : Sim) (self : Nat) (deltaTime : ℚ) : Animal :=
  (Animal.updateDecision M
    (s.setAnimal self ((s.animalAt self).updateMetabolism deltaTime)) self).animalAt self

/-- A rabbit alone in the world, of age 55 out of a lifespan of 80: one time unit
later its age ratio is exactly 0.7. -/
def boundarySim : Sim :=
  { world := mkWorld [0] [],
    animalAt := fun _ => mkAnimal SPECIES.RABBIT 100 100 "male" 100 55 0,
    vegAt := fun _ => mkVegetation 0 0 0,
    nextId := 1,
    rng := rngHalf }

/-- A generator whose every draw is `1/10`. -/
def rngTenth : Rng :=
  { stream := fun _ => 1 / 10, pos := 0 }

/-- Two rabbits of reproduction age, neither hungry: a female (object 0) and a male
(object 1) four units to her right; no vegetation; every draw is 1/10. -/
def courtshipSim : Sim :=
  { world := mkWorld [0, 1] [],
    animalAt := fun j =>
      if j = 0 then mkAnimal SPECIES.RABBIT 100 100 "female" 100 20 0
      else mkAnimal SPECIES.RABBIT 104 100 "male" 100 20 0,
    vegAt := fun _ => mkVegetation 0 0 0,
    nextId := 2,
    rng := rngTenth }

/-- The position of `this` after integration and before wrapping (line 171). -/
def Animal.integrated (M : MathEnv) (s : Sim) (self : Nat) (deltaTime : ℚ) : Vector2D :=
  (Animal.beforeMove M s self deltaTime).position.add
    ((Animal.beforeMove M s self deltaTime).velocity.multiply deltaTime)

/-! ## Auxiliary definitions for the statements about the scans -/

/-- The scan shared by `findFood` and `findMate`, over candidates given with their
distances: `closer` is applied to each candidate in order. -/
def Animal.scan {α : Type} (l : List (α × ℚ)) (best : Option α × ℚ) : Option α × ℚ :=
  l.foldl (fun best c => Animal.closer c.1 c.2 best) best

/-- The candidates of `findFood` in scan order, each with its distance: all
vegetation if the diet includes `vegetation`, then all other animals whose species
name is in the `canEat` list if the diet includes `animals`. -/
def Animal.foodCandidates (M : MathEnv) (s : Sim) (self : Nat) : List (Target × ℚ) :=
  (if (s.animalAt self).species.diet.contains "vegetation" then
      s.world.vegetation.map (fun veg =>
        (Target.vegetation veg, (s.animalAt self).position.distance M (s.vegAt veg).position))
    else []) ++
  (if (s.animalAt self).species.diet.contains "animals" then
      (s.world.animals.filter (fun animal =>
        decide (animal ≠ self ∧ (s.animalAt self).canEat (s.animalAt animal) = true))).map
        (fun animal =>
          (Target.animal animal,
            (s.animalAt self).position.distance M (s.animalAt animal).position))
    else [])

/-- The scan of `findMate` over the animals `l`, started with the generator `r`: the
animals that pass the test of lines 253-256 at their turn (another animal, same
species name, different gender, `canReproduce()` true), in scan order and with their
distances, and the generator after the scan. -/
def Animal.mateCandidates (M : MathEnv) (s : Sim) (self : Nat) :
    List Nat → Rng → List (Nat × ℚ) × Rng
  | [], r => ([], r)
  | animal :: rest, r =>
    if animal ≠ self ∧ (s.animalAt animal).species.name = (s.animalAt self).species.name ∧
        (s.animalAt animal).gender ≠ (s.animalAt self).gender then
      if ((s.animalAt animal).canReproduce r).1 = true then
        ((animal, (s.animalAt self).position.distance M (s.animalAt animal).position) ::
            (Animal.mateCandidates M s self rest ((s.animalAt animal).canReproduce r).2).1,
          (Animal.mateCandidates M s self rest ((s.animalAt animal).canReproduce r).2).2)
      else Animal.mateCandidates M s self rest ((s.animalAt animal).canReproduce r).2
    else Animal.mateCandidates M s self rest r

/-! ## Auxiliary definitions for the statements about the tick of the world -/

/-- The argument of the call of `tryEat` in the feeding check (line 486), if the call
is made: the current target of an animal with hunger above 50, when it is a
vegetation or an animal of a species that the animal eats (lines 480-486). -/
def World.feedingTarget (s : Sim) (animal : Nat) : Option Target :=
  match (s.animalAt animal).currentTarget with
  | none => none
  | some target =>
    if (s.animalAt animal).hunger > 50 then
      match target with
      | Target.vegetation _ => some target
      | Target.animal prey =>
        if (s.animalAt animal).canEat (s.animalAt prey) = true then some target else none
    else none

/-- Lines 487-494 of `update`, after a `tryEat` that returned true: the target is
filtered out of its collection and the animal is reset. -/
def World.afterMeal (s : Sim) (animal : Nat) : Sim :=
  let s :=
    match (s.animalAt animal).currentTarget with
    | some (Target.vegetation veg) =>
      { s with world :=
          { s.world with vegetation := s.world.vegetation.filter (fun v => v ≠ veg) } }
    | some (Target.animal prey) =>
      { s with world :=
          { s.world with animals := s.world.animals.filter (fun a => a ≠ prey) } }
    | none => s
  s.setAnimal animal
    { s.animalAt animal with currentBehavior := Behavior.wandering, currentTarget := none }

/-- The state `s'` has the vegetation (objects and collection) and the clock of `s`. -/
def Sim.SameVegClock (s s' : Sim) : Prop :=
  s'.vegAt = s.vegAt ∧ s'.world.vegetation = s.world.vegetation ∧
    s'.world.time = s.world.time

/-- Every vegetation of the collection has positive energy and a growth rate that is
not negative. -/
def Sim.VegetationAlive (s : Sim) : Prop :=
  ∀ v ∈ s.world.vegetation, 0 < (s.vegAt v).energy ∧ 0 ≤ (s.vegAt v).growthRate

/-- One iteration of the loop of `addAnimals` (lines 458-463): two draws for the
position, the constructor, and the push of the new object. -/
def World.addAnimal (M : MathEnv) (s : Sim) (species : Species) : Sim :=
  let (ux, r) := s.rng.next
  let (uy, r) := r.next
  let (animal, r) := Animal.new M (ux * s.world.width) (uy * s.world.height) species none r
  let id := s.nextId
  { s with world := { s.world with animals := s.world.animals ++ [id] },
           animalAt := fun j => if j = id then animal else s.animalAt j,
           nextId := id + 1, rng := r }

/-- Method `addAnimals` (lines 456-465), by recursion on `count`. -/
def World.addAnimals (M : MathEnv) (species : Species) : Nat → Sim → Sim
  | 0, s => s
  | count + 1, s => World.addAnimals M species count (World.addAnimal M s species)

/-- One iteration of the vegetation loop of `initialize` (lines 442-445). -/
def World.addVegetation (s : Sim) : Sim :=
  let (ux, r) := s.rng.next
  let (uy, r) := r.next
  let (veg, r) := Vegetation.new (ux * s.world.width) (uy * s.world.height) r
  let id := s.nextId
  { s with world := { s.world with vegetation := s.world.vegetation ++ [id] },
           vegAt := fun j => if j = id then veg else s.vegAt j,
           nextId := id + 1, rng := r }

/-- The vegetation loop of `initialize` (lines 441-446) run `count` times. -/
def World.addVegetations : Nat → Sim → Sim
  | 0, s => s
  | count + 1, s => World.addVegetations count (World.addVegetation s)

/-- Method `initialize` of the world (lines 439-454). -/
def World.initialize (M : MathEnv) (s : Sim) : Sim :=
  let s := World.addVegetations 150 s
  let s := if s.world.enabledSpecies.rabbit = true
    then World.addAnimals M SPECIES.RABBIT 20 s else s
  let s := if s.world.enabledSpecies.deer = true
    then World.addAnimals M SPECIES.DEER 12 s else s
  let s := if s.world.enabledSpecies.fox = true
    then World.addAnimals M SPECIES.FOX 8 s else s
  let s := if s.world.enabledSpecies.wolf = true
    then World.addAnimals M SPECIES.WOLF 6 s else s
  if s.world.enabledSpecies.bear = true
    then World.addAnimals M SPECIES.BEAR 4 s else s

/-- Method `reset` of the world (lines 549-554). -/
def World.reset (M : MathEnv) (s : Sim) : Sim :=
  World.initialize M
    { s with world := { s.world with animals := [], vegetation := [], time := 0 } }

/-- The state in which the loop of an unpaused `update` starts: the clock has
advanced (lines 470-471). -/
def World.tickStart (s : Sim) (deltaTime : ℚ) : Sim :=
  { s with world := { s.world with time := s.world.time + deltaTime * s.world.speed } }

/-- A paused copy of `meadowSim`. -/
def pausedSim : Sim :=
  { meadowSim with world := { meadowSim.world with paused := true } }

/-- Two old, hungry deer share one vegetation of energy 50 (object 0) at (110, 100):
deer 0 at (104, 100) with hunger 60 and deer 1 at (100, 100) with hunger 81, both of age
110 (so that `hunger ≤ 0.75 * age`, the most an animal can have accumulated) and with
health 100; every draw is 1/2. -/
def sharedMealSim : Sim :=
  { world := mkWorld [0, 1] [0],
    animalAt := fun j =>
      if j = 0 then mkAnimal SPECIES.DEER 104 100 "female" 100 110 60
      else mkAnimal SPECIES.DEER 100 100 "male" 100 110 81,
    vegAt := fun _ => mkVegetation 110 100 50,
    nextId := 2,
    rng := rngHalf }

/-! ## Auxiliary definitions for the statements about `reset` and `getStatistics` -/

/-- The number of entries of the animal collection whose species is `species`. -/
def Sim.speciesCount (s : Sim) (species : Species) : Nat :=
  (s.world.animals.filter (fun a => decide ((s.animalAt a).species = species))).length

/-- An entry of the object that `getStatistics` returns (lines 537-543). -/
structure SpeciesStats where
  total : Nat
  males : Nat
  females : Nat
  emoji : String
  color : String
deriving DecidableEq

/-- The assignment `stats[key] = value` on an object held as the list of its
properties in insertion order: an existing property is overwritten in place. -/
def Stats.set (stats : List (String × SpeciesStats)) (key : String) (value : SpeciesStats) :
    List (String × SpeciesStats) :=
  if stats.any (fun e => decide (e.1 = key)) = true then
    stats.map (fun e => if e.1 = key then (key, value) else e)
  else stats ++ [(key, value)]

/-- The read `stats[key]`; `none` is `undefined`. -/
def Stats.get? (stats : List (String × SpeciesStats)) (key : String) : Option SpeciesStats :=
  (stats.find? (fun e => decide (e.1 = key))).map (fun e => e.2)

/-- Method `getStatistics` of the world (lines 528-547).  The method assigns to no
field of the world or of its objects, so the state is returned as it was, next to the
object `stats`. -/
def World.getStatistics (s : Sim) : List (String × SpeciesStats) × Sim :=
  let stats := SPECIES.values.foldl
    (fun stats species =>
      let animals := s.world.animals.filter
        (fun a => decide ((s.animalAt a).species.name = species.name))
      let males := (animals.filter (fun a => decide ((s.animalAt a).gender = "male"))).length
      let females := (animals.filter (fun a => decide ((s.animalAt a).gender = "female"))).length
      Stats.set stats species.name
        { total := animals.length, males := males, females := females,
          emoji := species.emoji, color := species.color })
    []
  (stats, s)

/-- The entry that `getStatistics` computes for one species. -/
def World.statsEntry (s : Sim) (species : Species) : SpeciesStats :=
  { total := (s.world.animals.filter
      (fun a => decide ((s.animalAt a).species.name = species.name))).length,
    males := ((s.world.animals.filter
      (fun a => decide ((s.animalAt a).species.name = species.name))).filter
        (fun a => decide ((s.animalAt a).gender = "male"))).length,
    females := ((s.world.animals.filter
      (fun a => decide ((s.animalAt a).species.name = species.name))).filter
        (fun a => decide ((s.animalAt a).gender = "female"))).length,
    emoji := species.emoji, color := species.color }

/-- The value of `Math.sqrt` at `q` is the exact square root of `q`. -/
def MathEnv.SqrtExactAt (M : MathEnv) (q : ℚ) : Prop :=
  0 ≤ M.sqrt q ∧ M.sqrt q * M.sqrt q = q

/-- A rabbit (object 0) that stands on a vegetation (object 0). -/
def overlapSim : Sim :=
  { world := mkWorld [0] [0],
    animalAt := fun _ => mkAnimal SPECIES.RABBIT 100 100 "female" 100 20 60,
    vegAt := fun _ => mkVegetation 100 100 20,
    nextId := 1,
    rng := rngHalf }

/-! ## Auxiliary definitions for the statement about eating animals -/

/-- The behavior, the target and the velocity of an animal. -/
def Animal.course (a : Animal) : Behavior × Option Target × Vector2D :=
  (a.currentBehavior, a.currentTarget, a.velocity)

/-- The condition of C24 on an animal after its step `update`: its hunger is at most 50,
or its target, if it has one, is not within eating range. -/
def Animal.cannotEat (M : MathEnv) (s : Sim) (self : Nat) : Prop :=
  (s.animalAt self).hunger ≤ 50 ∨
  ∀ t ∈ (s.animalAt self).currentTarget,
    (s.animalAt self).size + 5 ≤ (s.animalAt self).position.distance M (s.targetPosition t)

/-- The feeding check of `animal` in state `s` makes no call of `tryEat` that returns
true. -/
def World.mealFails (M : MathEnv) (s : Sim) (animal : Nat) : Prop :=
  ∀ t ∈ World.feedingTarget s animal, (Animal.tryEat M s animal t).2 = false

/-- `Q` holds of the state right after the step `update` of `animal`, in every iteration
of the loop of `World.update` (from index `n - 1` down to 0) that steps `animal`. -/
def World.ownSteps (M : MathEnv) (adjustedDelta : ℚ) (animal : Nat) (Q : Sim → Prop) :
    Nat → Sim → Prop
  | 0, _ => True
  | i + 1, s =>
    (s.world.animals[i]? = some animal → Q (Animal.update M s animal adjustedDelta)) ∧
    ∀ s1 ∈ World.updateAnimal M adjustedDelta i s,
      World.ownSteps M adjustedDelta animal Q i s1

/-- A rabbit (object 0) that is eating from vegetation 0 with hunger 30, coasting to the
right at speed 60, and a resting rabbit (object 1); every draw is 1/2. -/
def coastingSim : Sim :=
  { world := mkWorld [0, 1] [0],
    animalAt := fun j =>
      if j = 0 then
        { mkAnimal SPECIES.RABBIT 100 100 "female" 100 20 30 with
            velocity := ⟨60, 0⟩, currentBehavior := Behavior.eating,
            currentTarget := some (Target.vegetation 0) }
      else mkAnimal SPECIES.RABBIT 300 300 "male" 100 20 0,
    vegAt := fun _ => mkVegetation 104 100 20,
    nextId := 2,
    rng := rngHalf }

/-- From `s` to `s2` no identifier is taken back and the animal `e` keeps its behavior,
target and velocity. -/
def Sim.KeepsCourse (s s2 : Sim) (e : Nat) : Prop :=
  s.nextId ≤ s2.nextId ∧ (s2.animalAt e).course = (s.animalAt e).course

/-- The condition `cannotEat` can be evaluated. -/
instance Animal.cannotEat.instDecidable (M : MathEnv) (s : Sim) (self : Nat) :
    Decidable (Animal.cannotEat M s self) :=
  inferInstanceAs (Decidable ((s.animalAt self).hunger ≤ 50 ∨
    ∀ t ∈ (s.animalAt self).currentTarget,
      (s.animalAt self).size + 5 ≤ (s.animalAt self).position.distance M (s.targetPosition t)))

/-- The condition `ownSteps` can be evaluated when `Q` can, by running the loop. -/
instance World.ownSteps.instDecidable (M : MathEnv) (adjustedDelta : ℚ) (animal : Nat)
    (Q : Sim → Prop) [DecidablePred Q] :
    (n : Nat) → (s : Sim) → Decidable (World.ownSteps M adjustedDelta animal Q n s)
  | 0, _ => isTrue trivial
  | i + 1, s =>
    have : DecidablePred (World.ownSteps M adjustedDelta animal Q i) :=
      World.ownSteps.instDecidable M adjustedDelta animal Q i
    inferInstanceAs (Decidable
      ((s.world.animals[i]? = some animal → Q (Animal.update M s animal adjustedDelta)) ∧
        ∀ s1 ∈ World.updateAnimal M adjustedDelta i s,
          World.ownSteps M adjustedDelta animal Q i s1))

/-- A hungry fox (object 0) with a deer (object 1) at distance 3, a rabbit (object 2)
at distance 5 and a vegetation (object 0) at distance 1: of the three only the rabbit
is food for a fox. -/
def foxDenSim : Sim :=
  { world := mkWorld [0, 1, 2] [0],
    animalAt := fun j =>
      if j = 0 then mkAnimal SPECIES.FOX 100 100 "male" 100 80 60
      else if j = 1 then mkAnimal SPECIES.DEER 103 100 "female" 100 40 0
      else mkAnimal SPECIES.RABBIT 100 105 "female" 100 40 0,
    vegAt := fun _ => mkVegetation 100 101 30,
    nextId := 3,
    rng := rngHalf }

/-- A rabbit (object 0) one unit from the right border of the world of 800 by 600,
moving to the right at speed 60, with a trail of two points; every draw is 1/2, so the
rabbit neither turns nor finds a target. -/
def edgeSim : Sim :=
  { world := mkWorld [0] [],
    animalAt := fun _ =>
      { mkAnimal SPECIES.RABBIT 799 100 "female" 100 20 0 with
          velocity := ⟨60, 0⟩, trail := [⟨796, 100⟩, ⟨799, 100⟩] },
    vegAt := fun _ => mkVegetation 0 0 0,
    nextId := 1,
    rng := rngHalf }

/-- A rabbit (object 0) of speed 60 at (100, 100) and a vegetation (object 0) at
(101, 101), at the offset (1, 1). -/
def obliqueSim : Sim :=
  { world := mkWorld [0] [0],
    animalAt := fun _ => mkAnimal SPECIES.RABBIT 100 100 "female" 100 20 60,
    vegAt := fun _ => mkVegetation 101 101 20,
    nextId := 1,
    rng := rngHalf }

/-! ## Auxiliary definitions for the statement about the removal of the dead -/

/-- The fields of an animal that decide about its death and its meals. -/
def Animal.vitals (a : Animal) : ℚ × ℚ × Traits × Option Target :=
  (a.health, a.maxHealth, a.traits, a.currentTarget)

/-- From `s` to `s2` no identifier is taken back and every existing animal object keeps
its vitals. -/
def Sim.KeepsVitals (s s2 : Sim) : Prop :=
  s.nextId ≤ s2.nextId ∧ ∀ j, j < s.nextId → (s2.animalAt j).vitals = (s.animalAt j).vitals

/-- The invariant of the loop of `World.update` for the removal of the dead, at the point
where the indices below `n` are still to be visited; `s0` is the state in which the loop
started.  The state is well formed, every animal of the collection is alive, every animal
of the start that has left the collection is dead, the animals still to be visited were
there at the start, and the animals of the start keep `maxHealth` and `traits` and are
not their own target. -/
def World.SweepInv (s0 : Sim) (n : Nat) (st : Sim) : Prop :=
  st.WF ∧ n ≤ st.world.animals.length ∧ s0.nextId ≤ st.nextId ∧
  (∀ a ∈ st.world.animals, 0 < (st.animalAt a).health) ∧
  (∀ a ∈ s0.world.animals, a ∉ st.world.animals → (st.animalAt a).health ≤ 0) ∧
  (∀ (k a : Nat), k < n → st.world.animals[k]? = some a → a ∈ s0.world.animals) ∧
  (∀ a ∈ s0.world.animals,
    (st.animalAt a).maxHealth = (s0.animalAt a).maxHealth ∧
    (st.animalAt a).traits = (s0.animalAt a).traits ∧
    (st.animalAt a).currentTarget ≠ some (Target.animal a))

/-! ## Lemmas on the reference square root -/

theorem isqrt_mul_self (n : Nat) : isqrt (n * n) = n := by
  unfold isqrt
  rw [Nat.findGreatest_eq_iff]
  refine ⟨Nat.le_mul_self n, fun _ => le_refl _, ?_⟩
  intro j hj _
  exact not_le.mpr (Nat.mul_self_lt_mul_self hj)

/-- The reference square root is exact on squares of rationals. -/
theorem refSqrt_mul_self (r : ℚ) : refSqrt (r * r) = |r| := by
  unfold refSqrt
  rw [Rat.mul_self_num, Rat.mul_self_den]
  have h : (r.num * r.num).toNat = r.num.natAbs * r.num.natAbs := by
    have : r.num * r.num = ((r.num.natAbs * r.num.natAbs : Nat) : ℤ) := by
      push_cast
      exact (abs_mul_abs_self r.num).symm
    rw [this, Int.toNat_natCast]
  rw [h, isqrt_mul_self, isqrt_mul_self]
  rw [Rat.abs_def, Rat.divInt_eq_div]
  push_cast
  rw [Nat.cast_natAbs, Int.cast_abs]

/-! ## Vegetation energy -/

/-- `consume` keeps the energy within `0 .. maxEnergy`. -/
theorem Vegetation.consume_energy_bounds (v : Vegetation) (a : ℚ) (h0 : 0 ≤ v.energy)
    (h1 : v.energy ≤ v.maxEnergy) (ha : 0 ≤ a) :
    0 ≤ (v.consume a).1.energy ∧ (v.consume a).1.energy ≤ (v.consume a).1.maxEnergy := by
  simp only [Vegetation.consume]
  have := min_le_left v.energy a
  have : 0 ≤ min v.energy a := le_min h0 ha
  constructor <;> linarith

/-- `grow` keeps the energy non-negative and below `maxEnergy + growthRate`. -/
theorem Vegetation.grow_energy_bounds (v : Vegetation) (h0 : 0 ≤ v.energy)
    (h1 : v.energy ≤ v.maxEnergy) (hg : 0 ≤ v.growthRate) :
    0 ≤ v.grow.energy ∧ v.grow.energy ≤ v.grow.maxEnergy + v.grow.growthRate := by
  unfold Vegetation.grow
  split
  · constructor <;> simp only <;> linarith
  · constructor <;> linarith

/-! ## A target is another object -/

/-- The result of `findFood` is never the animal itself. -/
theorem Animal.findFood_ne_self (M : MathEnv) (s : Sim) (self : Nat) :
    Animal.findFood M s self ≠ some (Target.animal self) := by
  unfold Animal.findFood
  simp only
  have hveg : ∀ (l : List Nat) (best : Option Target × ℚ),
      best.1 ≠ some (Target.animal self) →
      (l.foldl (fun best veg => Animal.closer (Target.vegetation veg)
          ((s.animalAt self).position.distance M (s.vegAt veg).position) best) best).1
        ≠ some (Target.animal self) := by
    intro l
    induction l with
    | nil => intro best h; simpa using h
    | cons v l ih =>
      intro best h
      simp only [List.foldl_cons]
      apply ih
      unfold Animal.closer
      split
      · simp
      · exact h
  have hani : ∀ (l : List Nat) (best : Option Target × ℚ),
      best.1 ≠ some (Target.animal self) →
      (l.foldl (fun best animal =>
          if animal ≠ self ∧ (s.animalAt self).canEat (s.animalAt animal) = true then
            Animal.closer (Target.animal animal)
              ((s.animalAt self).position.distance M (s.animalAt animal).position) best
          else best) best).1
        ≠ some (Target.animal self) := by
    intro l
    induction l with
    | nil => intro best h; simpa using h
    | cons a l ih =>
      intro best h
      simp only [List.foldl_cons]
      apply ih
      split
      · rename_i hc
        unfold Animal.closer
        split
        · simp [hc.1]
        · exact h
      · exact h
  split <;> split
  · exact hani _ _ (hveg _ _ (by simp))
  · exact hani _ _ (by simp)
  · exact hveg _ _ (by simp)
  · simp

/-- The result of `findMate` is never the animal itself. -/
theorem Animal.findMate_ne_self (M : MathEnv) (s : Sim) (self : Nat) :
    (Animal.findMate M s self).1 ≠ some self := by
  unfold Animal.findMate
  simp only
  have h : ∀ (l : List Nat) (acc : (Option Nat × ℚ) × Rng), acc.1.1 ≠ some self →
      (l.foldl
        (fun (acc : (Option Nat × ℚ) × Rng) animal =>
          if animal ≠ self ∧ (s.animalAt animal).species.name = (s.animalAt self).species.name ∧
              (s.animalAt animal).gender ≠ (s.animalAt self).gender then
            if ((s.animalAt animal).canReproduce acc.2).1 = true then
              (Animal.closer animal
                ((s.animalAt self).position.distance M (s.animalAt animal).position) acc.1,
                ((s.animalAt animal).canReproduce acc.2).2)
            else (acc.1, ((s.animalAt animal).canReproduce acc.2).2)
          else acc) acc).1.1 ≠ some self := by
    intro l
    induction l with
    | nil => intro acc h; simpa using h
    | cons a l ih =>
      intro acc h
      simp only [List.foldl_cons]
      apply ih
      split
      · rename_i hc
        split
        · unfold Animal.closer
          split
          · simp [hc.1]
          · exact h
        · exact h
      · exact h
  exact h _ _ (by simp)

/-! ## What the steps of a tick leave unchanged -/

theorem Animal.findMate_frame (M : MathEnv) (s : Sim) (self : Nat) :
    (Animal.findMate M s self).2.world = s.world ∧
    (Animal.findMate M s self).2.nextId = s.nextId := by
  simp [Animal.findMate]

theorem Animal.findTarget_frame (M : MathEnv) (s : Sim) (self : Nat) :
    (Animal.findTarget M s self).2.world = s.world ∧
    (Animal.findTarget M s self).2.nextId = s.nextId := by
  unfold Animal.findTarget
  simp only
  split
  · simp
  · split
    · split
      · simp [Animal.findMate]
      · simp
    · simp

theorem Animal.update_frame (M : MathEnv) (s : Sim) (self : Nat) (dt : ℚ) :
    (Animal.update M s self dt).world = s.world ∧
    (Animal.update M s self dt).nextId = s.nextId := by
  have hd : ∀ s : Sim, (Animal.updateDecision M s self).world = s.world ∧
      (Animal.updateDecision M s self).nextId = s.nextId := by
    intro s
    unfold Animal.updateDecision
    split
    · have h := Animal.findTarget_frame M s self
      generalize Animal.findTarget M s self = ft at h
      obtain ⟨target, s'⟩ := ft
      cases target with
      | none =>
        simp only [Animal.wander, Sim.setAnimal, Rng.next]
        split <;> exact h
      | some t => simpa [Animal.moveTowards, Sim.setAnimal] using h
    · simp
  simp only [Animal.update]
  have := hd (s.setAnimal self (Animal.updateMetabolism (s.animalAt self) dt))
  simpa [Sim.setAnimal] using this

theorem Animal.tryEat_frame (M : MathEnv) (s : Sim) (self : Nat) (t : Target) :
    (Animal.tryEat M s self t).1.world = s.world ∧
    (Animal.tryEat M s self t).1.nextId = s.nextId := by
  unfold Animal.tryEat
  simp only
  split
  · cases t <;> simp [Sim.setAnimal, Sim.setVeg]
  · simp

theorem Animal.reproduce_frame (M : MathEnv) (s : Sim) (self partner : Nat) :
    (Animal.reproduce M s self partner).2.world = s.world ∧
    (Animal.reproduce M s self partner).2.nextId = s.nextId := by
  unfold Animal.reproduce
  simp only
  split
  · split
    · simp [Sim.setAnimal]
    · simp
  · simp

theorem length_filter_ne_of_nodup (l : List Nat) (p : Nat) (h : l.Nodup) :
    l.length ≤ (l.filter (fun a => decide (a ≠ p))).length + 1 := by
  have e : l.filter (fun a => decide (a ≠ p)) = l.erase p := by
    rw [h.erase_eq_filter p]
    congr 1
    funext a
    simp [bne, Nat.beq_eq_true_eq]
    rfl
  rw [e, List.length_erase]
  split <;> omega

theorem World.checkFeeding_spec (M : MathEnv) (s : Sim) (animal : Nat) :
    (World.checkFeeding M s animal).nextId = s.nextId ∧
    ((World.checkFeeding M s animal).world.animals = s.world.animals ∨
      ∃ p, (World.checkFeeding M s animal).world.animals
        = s.world.animals.filter (fun a => decide (a ≠ p))) := by
  unfold World.checkFeeding
  split
  · simp
  · split
    · simp only
      split
      · have h := Animal.tryEat_frame M s animal ‹Target›
        generalize Animal.tryEat M s animal ‹Target› = te at h
        obtain ⟨s', ate⟩ := te
        simp only at h ⊢
        split
        · split
          · simp [Sim.setAnimal, h.1, h.2]
          · rename_i prey _
            refine ⟨by simp [Sim.setAnimal, h.2], Or.inr ⟨prey, ?_⟩⟩
            simp only [Sim.setAnimal, h.1]
          · simp [Sim.setAnimal, h.1, h.2]
        · simp [h.1, h.2]
      · simp
    · simp

theorem World.addOffspring_spec (s : Sim) (animal mate : Nat) (child : Animal) :
    (World.addOffspring s animal mate child).world.animals = s.world.animals ++ [s.nextId] ∧
    (World.addOffspring s animal mate child).nextId = s.nextId + 1 :=
  ⟨rfl, rfl⟩

theorem World.mateAndReproduce_cases (M : MathEnv) (s : Sim) (animal : Nat) (P : Sim → Prop)
    (h1 : ∀ s' : Sim, s'.world = s.world → s'.nextId = s.nextId → P s')
    (h2 : ∀ s' : Sim, s'.world.animals = s.world.animals ++ [s.nextId] →
      s'.nextId = s.nextId + 1 → P s') :
    P (World.mateAndReproduce M s animal) := by
  unfold World.mateAndReproduce
  have hm := Animal.findMate_frame M s animal
  generalize Animal.findMate M s animal = fm at hm ⊢
  obtain ⟨mate, s2⟩ := fm
  cases mate with
  | none => exact h1 _ hm.1 hm.2
  | some m =>
    show P (if _ then _ else _)
    split
    · have hr := Animal.reproduce_frame M s2 animal m
      generalize Animal.reproduce M s2 animal m = rp at hr ⊢
      obtain ⟨offspring, s3⟩ := rp
      cases offspring with
      | none => exact h1 _ (hr.1.trans hm.1) (hr.2.trans hm.2)
      | some child =>
        have ha := World.addOffspring_spec s3 animal m child
        apply h2
        · rw [← hm.1, ← hm.2, ← hr.1, ← hr.2]; exact ha.1
        · rw [← hm.2, ← hr.2]; exact ha.2
    · exact h1 _ hm.1 hm.2

theorem World.checkReproduction_cases (M : MathEnv) (s : Sim) (animal : Nat) (P : Sim → Prop)
    (h1 : ∀ s' : Sim, s'.world = s.world → s'.nextId = s.nextId → P s')
    (h2 : ∀ s' : Sim, s'.world.animals = s.world.animals ++ [s.nextId] →
      s'.nextId = s.nextId + 1 → P s') :
    P (World.checkReproduction M s animal) := by
  unfold World.checkReproduction
  generalize (s.animalAt animal).canReproduce s.rng = cr
  obtain ⟨ok, r⟩ := cr
  show P (if _ then _ else _)
  split
  · show P (if _ then _ else _)
    split
    · exact World.mateAndReproduce_cases M _ animal P h1 h2
    · exact h1 _ rfl rfl
  · exact h1 _ rfl rfl

/-! ## The loop of `World.update` never reads beyond the end -/

theorem Sim.WF.filter {s s' : Sim} (h : s.WF) (p : Nat) (hn : s'.nextId = s.nextId)
    (ha : s'.world.animals = s.world.animals.filter (fun a => decide (a ≠ p))) : s'.WF := by
  refine ⟨?_, ?_⟩
  · rw [ha]; exact h.1.filter _
  · intro id hid
    rw [ha] at hid
    rw [hn]
    exact h.2 id (List.mem_of_mem_filter hid)

theorem Sim.WF.push {s s' : Sim} (h : s.WF) (hn : s'.nextId = s.nextId + 1)
    (ha : s'.world.animals = s.world.animals ++ [s.nextId]) : s'.WF := by
  refine ⟨?_, ?_⟩
  · rw [ha]
    refine List.Nodup.append h.1 (List.nodup_singleton _) ?_
    intro a ha1 ha2
    have := h.2 a ha1
    simp only [List.mem_singleton] at ha2
    omega
  · intro id hid
    rw [ha] at hid
    rw [hn]
    rcases List.mem_append.mp hid with h1 | h1
    · have := h.2 id h1; omega
    · simp only [List.mem_singleton] at h1; omega

/-- The body of the loop at a valid index keeps the state well formed, does not
throw, and leaves at least `i` animals in the collection, so that the next index
`i - 1` is valid again. -/
theorem World.updateAnimal_spec (M : MathEnv) (dt : ℚ) (i : Nat) (s : Sim) (h : s.WF)
    (hi : i < s.world.animals.length) :
    ∃ s', World.updateAnimal M dt i s = some s' ∧ s'.WF ∧ i ≤ s'.world.animals.length := by
  unfold World.updateAnimal
  rw [List.getElem?_eq_getElem hi]
  refine ⟨_, rfl, ?_⟩
  generalize s.world.animals[i] = animal
  -- after `Animal.update`
  have hu := Animal.update_frame M s animal dt
  generalize Animal.update M s animal dt = s1 at hu ⊢
  have h1 : s1.WF := ⟨by rw [hu.1]; exact h.1, by rw [hu.1, hu.2]; exact h.2⟩
  have l1 : i + 1 ≤ s1.world.animals.length := by rw [hu.1]; exact hi
  -- after the feeding check
  have hf := World.checkFeeding_spec M s1 animal
  generalize World.checkFeeding M s1 animal = s2 at hf ⊢
  have h2 : s2.WF ∧ i ≤ s2.world.animals.length := by
    rcases hf.2 with e | ⟨p, e⟩
    · exact ⟨⟨by rw [e]; exact h1.1, by rw [e, hf.1]; exact h1.2⟩, by rw [e]; omega⟩
    · refine ⟨h1.filter p hf.1 e, ?_⟩
      have := length_filter_ne_of_nodup s1.world.animals p h1.1
      rw [e]; omega
  -- after the reproduction check
  have h3 : (World.checkReproduction M s2 animal).WF ∧
      s2.world.animals.length ≤ (World.checkReproduction M s2 animal).world.animals.length := by
    refine World.checkReproduction_cases M s2 animal
      (fun s' => s'.WF ∧ s2.world.animals.length ≤ s'.world.animals.length) ?_ ?_
    · intro s' hw hn
      exact ⟨⟨by rw [hw]; exact h2.1.1, by rw [hw, hn]; exact h2.1.2⟩, by rw [hw]⟩
    · intro s' ha hn
      exact ⟨h2.1.push hn ha, by rw [ha]; simp⟩
  generalize World.checkReproduction M s2 animal = s3 at h3 ⊢
  -- after the removal of the dead
  unfold World.removeDead
  split
  · refine ⟨⟨h3.1.1.eraseIdx i, ?_⟩, ?_⟩
    · intro id hid
      exact h3.1.2 id ((List.eraseIdx_sublist _ _).subset hid)
    · show i ≤ (s3.world.animals.eraseIdx i).length
      rw [List.length_eraseIdx]
      split <;> omega
  · exact ⟨h3.1, by omega⟩

/-- The loop started at an index within the collection does not throw. -/
theorem World.updateAnimals_total (M : MathEnv) (dt : ℚ) (n : Nat) (s : Sim) (h : s.WF)
    (hn : n ≤ s.world.animals.length) :
    ∃ s', World.updateAnimals M dt n s = some s' ∧ s'.WF := by
  induction n generalizing s with
  | zero => exact ⟨s, rfl, h⟩
  | succ i ih =>
    obtain ⟨s1, e1, w1, l1⟩ := World.updateAnimal_spec M dt i s h hn
    obtain ⟨s2, e2, w2⟩ := ih s1 w1 l1
    exact ⟨s2, by simp [World.updateAnimals, e1, e2], w2⟩

theorem World.growVegetation_frame (s : Sim) :
    (World.growVegetation s).world = s.world ∧ (World.growVegetation s).nextId = s.nextId := by
  unfold World.growVegetation
  generalize s.world.vegetation = l
  induction l generalizing s with
  | nil => exact ⟨rfl, rfl⟩
  | cons v l ih =>
    rw [List.foldl_cons]
    exact ih (s.setVeg v (s.vegAt v).grow)

theorem World.spawnVegetation_animals (s : Sim) :
    (World.spawnVegetation s).world.animals = s.world.animals ∧
    s.nextId ≤ (World.spawnVegetation s).nextId := by
  unfold World.spawnVegetation
  split
  · show (if _ then _ else _ : Sim).world.animals = _ ∧ _ ≤ (if _ then _ else _ : Sim).nextId
    split
    · exact ⟨rfl, Nat.le_succ _⟩
    · exact ⟨rfl, le_refl _⟩
  · exact ⟨rfl, le_refl _⟩

/-- On a well-formed state `update` does not throw, and the state after the tick is
well formed again. -/
theorem World.update_total (M : MathEnv) (s : Sim) (deltaTime : ℚ) (h : s.WF) :
    ∃ s', World.update M s deltaTime = some s' ∧ s'.WF := by
  unfold World.update
  split
  · exact ⟨s, rfl, h⟩
  · obtain ⟨s1, e1, w1⟩ := World.updateAnimals_total M (deltaTime * s.world.speed)
      s.world.animals.length
      { s with world := { s.world with time := s.world.time + deltaTime * s.world.speed } }
      h (le_refl _)
    refine ⟨World.spawnVegetation (World.growVegetation s1),
      by simp only [e1, Option.map_some'], ?_⟩
    have hg := World.growVegetation_frame s1
    have hs := World.spawnVegetation_animals (World.growVegetation s1)
    refine ⟨by rw [hs.1, hg.1]; exact w1.1, ?_⟩
    intro id hid
    rw [hs.1, hg.1] at hid
    have := w1.2 id hid
    have := hs.2
    rw [hg.2] at this
    omega

/-! ## C1: the reverse sweep of `World.update` -/

/-- Claim C1, evaluated on the code: an animal present before and after an unpaused
tick is not always stepped exactly once.  In `foxRabbitSim` the fox (index 1) eats
the rabbit at index 0; the `filter` of line 490 moves the fox to index 0, where the
loop steps it a second time.  The fox is in the collection before and after the tick
and its age grows by twice `deltaTime * speed` (from 30 to 30.1 for `deltaTime = 0.05`).
The run calls `sqrt` at 9 and 1/4 and `atan2` at `(0, 70)`, where `refMath` is exact. -/
theorem C1_predator_stepped_twice :
    foxRabbitSim.world.paused = false ∧
    1 ∈ foxRabbitSim.world.animals ∧
    (foxRabbitSim.animalAt 1).age = 30 ∧
    (World.update refMath foxRabbitSim (1 / 20)).map
        (fun s => (s.world.animals, (s.animalAt 1).age))
      = some ([1], 30 + 2 * (1 / 20 * foxRabbitSim.world.speed)) := by
  decide!

/-- A step far larger than the steps the driver passes (`deltaTime < 0.1` at speed at
most 5): in `starvingFoxSim` with `deltaTime = 10` the fox (index 1) loses more than 20 of
health, eats the rabbit at index 0 and is still dead after the meal (health -2); the
`filter` of line 490 has shifted the collection, so `splice(1, 1)` of line 512 removes the
deer, which was at index 2 and has health 1385/14 > 0.  The fox is then stepped again at
index 0 and removed.  It is the stale index of C1 again; the bound on the loss of health in
the statement of C2 excludes it.
The run calls `sqrt` at 0 and `atan2` at `(0, 0)` only, where `refMath` is exact. -/
theorem World.update_large_step_removes_live :
    starvingFoxSim.world.paused = false ∧
    2 ∈ starvingFoxSim.world.animals ∧
    (World.update refMath starvingFoxSim 10).map
        (fun s => (s.world.animals, (s.animalAt 2).health, (s.animalAt 1).health))
      = some ([], 1385 / 14, -5) := by
  decide!

/-! ## C3, C7: vegetation -/

/-- Claim C3, evaluated on the code: `grow` does not keep the ceiling.  A vegetation
built by the constructor with the draw 2999/3000 has energy 49.99, within
`0 ≤ energy ≤ maxEnergy = 50`; one call of `grow` passes the guard `energy < maxEnergy`
and adds the whole growth rate, which gives 50.04 > 50. -/
theorem C3_grow_exceeds_maxEnergy :
    (Vegetation.new 0 0 ⟨fun _ => 2999 / 3000, 0⟩).1.maxEnergy = 50 ∧
    (Vegetation.new 0 0 ⟨fun _ => 2999 / 3000, 0⟩).1.energy = 4999 / 100 ∧
    (Vegetation.new 0 0 ⟨fun _ => 2999 / 3000, 0⟩).1.grow.energy = 5004 / 100 ∧
    ¬ ((Vegetation.new 0 0 ⟨fun _ => 2999 / 3000, 0⟩).1.grow.energy
        ≤ (Vegetation.new 0 0 ⟨fun _ => 2999 / 3000, 0⟩).1.grow.maxEnergy) := by
  decide!

/-- Claim C7: for every vegetation and every amount `a` (in particular for energy
`e ≥ 0` and `a ≥ 0`), `consume(a)` returns `min(e, a)`, leaves the energy equal to `e`
minus the returned value and the size equal to `3 + (energy / maxEnergy) * 3` for the
new energy, and `isDepleted()` holds afterwards exactly when `a ≥ e`. -/
theorem C7_consume (v : Vegetation) (a : ℚ) :
    (v.consume a).2 = min v.energy a ∧
    (v.consume a).1.energy = v.energy - (v.consume a).2 ∧
    (v.consume a).1.size = 3 + ((v.consume a).1.energy / (v.consume a).1.maxEnergy) * 3 ∧
    ((v.consume a).1.isDepleted = true ↔ a ≥ v.energy) := by
  refine ⟨rfl, rfl, rfl, ?_⟩
  simp only [Vegetation.consume, Vegetation.isDepleted, decide_eq_true_eq]
  rcases le_total v.energy a with h | h
  · rw [min_eq_left h]; simp [h]
  · rw [min_eq_right h]; constructor <;> intro h' <;> linarith

/-! ## C4, C5, C6: `tryEat` -/

/-- Claim C4: for an animal and a vegetation target within eating range
(`distance < size + 5`), `tryEat` removes exactly `c = min(e, 30)` from the energy `e`
of the vegetation, leaving `e - c ≥ 0`, sets the hunger to `max(0, hunger - c)` and
the health to `min(maxHealth, health + c / 2)`, and returns true exactly when the
resulting energy is `≤ 0`, that is exactly when `e ≤ 30`. -/
theorem C4_tryEat_vegetation (M : MathEnv) (s : Sim) (self veg : Nat)
    (hd : (s.animalAt self).position.distance M (s.vegAt veg).position
            < (s.animalAt self).size + 5) :
    ((Animal.tryEat M s self (Target.vegetation veg)).1.vegAt veg).energy
        = (s.vegAt veg).energy - min (s.vegAt veg).energy 30 ∧
    0 ≤ (s.vegAt veg).energy - min (s.vegAt veg).energy 30 ∧
    ((Animal.tryEat M s self (Target.vegetation veg)).1.animalAt self).hunger
        = max 0 ((s.animalAt self).hunger - min (s.vegAt veg).energy 30) ∧
    ((Animal.tryEat M s self (Target.vegetation veg)).1.animalAt self).health
        = min (s.animalAt self).maxHealth
            ((s.animalAt self).health + min (s.vegAt veg).energy 30 / 2) ∧
    ((Animal.tryEat M s self (Target.vegetation veg)).2 = true ↔
        ((Animal.tryEat M s self (Target.vegetation veg)).1.vegAt veg).energy ≤ 0) ∧
    ((Animal.tryEat M s self (Target.vegetation veg)).2 = true ↔ (s.vegAt veg).energy ≤ 30) := by
  have hd' : (s.animalAt self).position.distance M (s.targetPosition (Target.vegetation veg))
      < (s.animalAt self).size + 5 := hd
  simp only [Animal.tryEat, hd', if_true, Sim.setAnimal, Sim.setVeg, Vegetation.consume,
    Vegetation.isDepleted, if_pos, decide_eq_true_eq]
  refine ⟨trivial, ?_, trivial, ?_, trivial, ?_⟩
  · have := min_le_left (s.vegAt veg).energy 30; linarith
  · norm_num
    ring_nf
  · rcases le_total (s.vegAt veg).energy 30 with h | h
    · rw [min_eq_left h]; simp [h]
    · rw [min_eq_right h]; constructor <;> intro h' <;> linarith

/-- Witness of C4: the hungry rabbit of `meadowSim` is at distance 5 of a vegetation
of energy 20 and eats all of it. -/
theorem C4_tryEat_vegetation_witness :
    (meadowSim.animalAt 0).position.distance refMath (meadowSim.vegAt 0).position
        < (meadowSim.animalAt 0).size + 5 ∧
    ((Animal.tryEat refMath meadowSim 0 (Target.vegetation 0)).1.vegAt 0).energy
        = (meadowSim.vegAt 0).energy - min (meadowSim.vegAt 0).energy 30 :=
  ⟨by decide!, (C4_tryEat_vegetation refMath meadowSim 0 0 (by decide!)).1⟩

/-- Claim C5: for an animal and another animal as target within eating range
(`distance < size + 5`), `tryEat` sets the health of the target to 0, so that
`isDead()` holds for it, sets the hunger of the eater to `max(0, hunger - 40)` and its
health to `min(maxHealth, health + 20)`, and returns true; the health of the eater
after the call does not exceed `maxHealth`.  The target is an object other than the
eater (`findFood` and `findMate` skip `this`). -/
theorem C5_tryEat_animal (M : MathEnv) (s : Sim) (self prey : Nat) (hne : prey ≠ self)
    (hd : (s.animalAt self).position.distance M (s.animalAt prey).position
            < (s.animalAt self).size + 5) :
    ((Animal.tryEat M s self (Target.animal prey)).1.animalAt prey).health = 0 ∧
    ((Animal.tryEat M s self (Target.animal prey)).1.animalAt prey).isDead = true ∧
    ((Animal.tryEat M s self (Target.animal prey)).1.animalAt self).hunger
        = max 0 ((s.animalAt self).hunger - 40) ∧
    ((Animal.tryEat M s self (Target.animal prey)).1.animalAt self).health
        = min (s.animalAt self).maxHealth ((s.animalAt self).health + 20) ∧
    (Animal.tryEat M s self (Target.animal prey)).2 = true ∧
    ((Animal.tryEat M s self (Target.animal prey)).1.animalAt self).health
        ≤ ((Animal.tryEat M s self (Target.animal prey)).1.animalAt self).maxHealth := by
  have hd' : (s.animalAt self).position.distance M (s.targetPosition (Target.animal prey))
      < (s.animalAt self).size + 5 := hd
  have hne' : self ≠ prey := fun h => hne h.symm
  simp [Animal.tryEat, hd', Sim.setAnimal, Animal.isDead, hne, hne']

/-- Witness of C5: the fox of `foxRabbitSim` is at distance 3 of the rabbit. -/
theorem C5_tryEat_animal_witness :
    (0 : Nat) ≠ 1 ∧
    (foxRabbitSim.animalAt 1).position.distance refMath (foxRabbitSim.animalAt 0).position
        < (foxRabbitSim.animalAt 1).size + 5 ∧
    ((Animal.tryEat refMath foxRabbitSim 1 (Target.animal 0)).1.animalAt 0).health = 0 :=
  ⟨by decide, by decide!,
    (C5_tryEat_animal refMath foxRabbitSim 1 0 (by decide) (by decide!)).1⟩

/-- Claim C6: for an animal and a target (vegetation or animal) at a distance of at
least `size + 5`, `tryEat` returns false and changes nothing: the whole program state,
hence hunger, health, behavior and current target of the animal and the energy or
health of the target, is as before. -/
theorem C6_tryEat_out_of_range (M : MathEnv) (s : Sim) (self : Nat) (target : Target)
    (hd : (s.animalAt self).size + 5
            ≤ (s.animalAt self).position.distance M (s.targetPosition target)) :
    Animal.tryEat M s self target = (s, false) := by
  simp [Animal.tryEat, not_lt.mpr hd]

/-- Witness of C6: the second vegetation of `meadowSim` is at distance 20 of the
rabbit, whose reach is 13. -/
theorem C6_tryEat_out_of_range_witness :
    (meadowSim.animalAt 0).size + 5
        ≤ (meadowSim.animalAt 0).position.distance refMath
            (meadowSim.targetPosition (Target.vegetation 1)) ∧
    Animal.tryEat refMath meadowSim 0 (Target.vegetation 1) = (meadowSim, false) :=
  ⟨by decide!, C6_tryEat_out_of_range refMath meadowSim 0 (Target.vegetation 1) (by decide!)⟩

/-! ## C8, C9, C10: reproduction -/

/-- Claim C8: `canReproduce()` returns false, without a random draw, whenever
`age ≤ reproductionReady` (equality included), or `reproductionCooldown > 0`, or
`health < 50`, or `hunger > 60`, whatever the rest of the state and the generator;
when none of these holds and `age / maxAge ≤ 0.7` it returns true without consulting
the generator; when none holds and `age / maxAge > 0.7` it makes one draw and returns
true exactly when the draw is `< 0.3`. -/
theorem C8_canReproduce (a : Animal) (r : Rng) :
    ((a.age ≤ a.reproductionReady ∨ a.reproductionCooldown > 0 ∨ a.health < 50 ∨
        a.hunger > 60) → a.canReproduce r = (false, r)) ∧
    (¬ (a.age ≤ a.reproductionReady ∨ a.reproductionCooldown > 0 ∨ a.health < 50 ∨
        a.hunger > 60) → a.age / a.maxAge ≤ 0.7 → a.canReproduce r = (true, r)) ∧
    (¬ (a.age ≤ a.reproductionReady ∨ a.reproductionCooldown > 0 ∨ a.health < 50 ∨
        a.hunger > 60) → a.age / a.maxAge > 0.7 →
        a.canReproduce r = (decide (r.stream r.pos < 0.3), { r with pos := r.pos + 1 })) := by
  refine ⟨?_, ?_, ?_⟩
  · intro h
    simp only [Animal.canReproduce, if_pos h]
  · intro h hr
    simp only [Animal.canReproduce, if_neg h, if_neg (not_lt.mpr hr)]
  · intro h hr
    simp only [Animal.canReproduce, if_neg h, if_pos hr, Rng.next]

/-- Witness of C8: a rabbit of age exactly 15 (the reproduction age) is refused, a
rabbit of age 20 is accepted without a draw, and for a rabbit of age 60 (ratio 0.75)
the draw decides. -/
theorem C8_canReproduce_witness :
    (mkAnimal SPECIES.RABBIT 0 0 "male" 100 15 0).canReproduce rngHalf = (false, rngHalf) ∧
    (mkAnimal SPECIES.RABBIT 0 0 "male" 100 20 0).canReproduce rngHalf = (true, rngHalf) ∧
    (mkAnimal SPECIES.RABBIT 0 0 "male" 100 60 0).canReproduce rngHalf
      = (decide (rngHalf.stream rngHalf.pos < 0.3), { rngHalf with pos := rngHalf.pos + 1 }) :=
  ⟨(C8_canReproduce (mkAnimal SPECIES.RABBIT 0 0 "male" 100 15 0) rngHalf).1 (by decide!),
   (C8_canReproduce (mkAnimal SPECIES.RABBIT 0 0 "male" 100 20 0) rngHalf).2.1
      (by decide!) (by decide!),
   (C8_canReproduce (mkAnimal SPECIES.RABBIT 0 0 "male" 100 60 0) rngHalf).2.2
      (by decide!) (by decide!)⟩

/-- Claim C9: if `this` and then the partner pass `canReproduce()`, `reproduce` sets
the cooldown of each to `100 /` its own `traits.reproductionRate` and returns a new
animal of the species of `this`, at the midpoint of the two positions, with age 0,
health 100 and hunger 0; if either fails, it returns null and no field of any animal
(nor the world or the vegetation) changes. -/
theorem C9_reproduce (M : MathEnv) (s : Sim) (self partner : Nat) :
    ((((s.animalAt self).canReproduce s.rng).1 = true ∧
      ((s.animalAt partner).canReproduce ((s.animalAt self).canReproduce s.rng).2).1 = true) →
        ∃ child,
          (Animal.reproduce M s self partner).1 = some child ∧
          ((Animal.reproduce M s self partner).2.animalAt self).reproductionCooldown
            = 100 / (s.animalAt self).traits.reproductionRate ∧
          ((Animal.reproduce M s self partner).2.animalAt partner).reproductionCooldown
            = 100 / (s.animalAt partner).traits.reproductionRate ∧
          child.species = (s.animalAt self).species ∧
          child.position =
            ⟨((s.animalAt self).position.x + (s.animalAt partner).position.x) / 2,
             ((s.animalAt self).position.y + (s.animalAt partner).position.y) / 2⟩ ∧
          child.age = 0 ∧ child.health = 100 ∧ child.hunger = 0) ∧
    (¬ (((s.animalAt self).canReproduce s.rng).1 = true ∧
        ((s.animalAt partner).canReproduce ((s.animalAt self).canReproduce s.rng).2).1 = true) →
        (Animal.reproduce M s self partner).1 = none ∧
        (Animal.reproduce M s self partner).2.animalAt = s.animalAt ∧
        (Animal.reproduce M s self partner).2.vegAt = s.vegAt ∧
        (Animal.reproduce M s self partner).2.world = s.world) := by
  constructor
  · rintro ⟨h1, h2⟩
    by_cases hsp : self = partner
    · subst hsp
      simp [Animal.reproduce, h1, h2, Sim.setAnimal, Animal.new]
    · have hps : partner ≠ self := fun h => hsp h.symm
      simp [Animal.reproduce, h1, h2, Sim.setAnimal, Animal.new, hsp, hps]
  · intro h
    by_cases h1 : ((s.animalAt self).canReproduce s.rng).1 = true
    · have h2 : ¬ ((s.animalAt partner).canReproduce ((s.animalAt self).canReproduce s.rng).2).1
          = true := fun h2 => h ⟨h1, h2⟩
      simp [Animal.reproduce, h1, h2]
    · simp [Animal.reproduce, h1]

/-- Witness of C9: the two rabbits of `meadowSim` both pass `canReproduce()` and get
an offspring; the fox and the rabbit of `foxRabbitSim` do not (the rabbit is too
young) and nothing changes. -/
theorem C9_reproduce_witness :
    (∃ child, (Animal.reproduce refMath meadowSim 0 1).1 = some child ∧
        ((Animal.reproduce refMath meadowSim 0 1).2.animalAt 0).reproductionCooldown
          = 100 / (meadowSim.animalAt 0).traits.reproductionRate ∧
        ((Animal.reproduce refMath meadowSim 0 1).2.animalAt 1).reproductionCooldown
          = 100 / (meadowSim.animalAt 1).traits.reproductionRate ∧
        child.species = (meadowSim.animalAt 0).species ∧
        child.position =
          ⟨((meadowSim.animalAt 0).position.x + (meadowSim.animalAt 1).position.x) / 2,
           ((meadowSim.animalAt 0).position.y + (meadowSim.animalAt 1).position.y) / 2⟩ ∧
        child.age = 0 ∧ child.health = 100 ∧ child.hunger = 0) ∧
    ((Animal.reproduce refMath foxRabbitSim 0 1).1 = none ∧
        (Animal.reproduce refMath foxRabbitSim 0 1).2.animalAt = foxRabbitSim.animalAt ∧
        (Animal.reproduce refMath foxRabbitSim 0 1).2.vegAt = foxRabbitSim.vegAt ∧
        (Animal.reproduce refMath foxRabbitSim 0 1).2.world = foxRabbitSim.world) :=
  ⟨(C9_reproduce refMath meadowSim 0 1).1 (by decide!),
   (C9_reproduce refMath foxRabbitSim 0 1).2 (by decide!)⟩

/-- Claim C10: for two parents with positive trait values and random draws in
`[0, 1)`, after `inheritTraits(p1, p2)` each of the four traits `t` of the offspring
(speed, size, vision, reproductionRate) satisfies `0.95 * m ≤ t ≤ 1.05 * m`, where `m`
is the average of the two parents' values of that trait, and the field `size` of the
offspring equals its inherited `traits.size`. -/
theorem C10_inheritTraits (self p1 p2 : Animal) (r : Rng) (hr : r.InUnit)
    (h1 : 0 < p1.traits.speed ∧ 0 < p1.traits.size ∧ 0 < p1.traits.vision ∧
            0 < p1.traits.reproductionRate)
    (h2 : 0 < p2.traits.speed ∧ 0 < p2.traits.size ∧ 0 < p2.traits.vision ∧
            0 < p2.traits.reproductionRate) :
    (0.95 * ((p1.traits.speed + p2.traits.speed) / 2)
        ≤ (self.inheritTraits p1 p2 r).1.traits.speed ∧
      (self.inheritTraits p1 p2 r).1.traits.speed
        ≤ 1.05 * ((p1.traits.speed + p2.traits.speed) / 2)) ∧
    (0.95 * ((p1.traits.size + p2.traits.size) / 2)
        ≤ (self.inheritTraits p1 p2 r).1.traits.size ∧
      (self.inheritTraits p1 p2 r).1.traits.size
        ≤ 1.05 * ((p1.traits.size + p2.traits.size) / 2)) ∧
    (0.95 * ((p1.traits.vision + p2.traits.vision) / 2)
        ≤ (self.inheritTraits p1 p2 r).1.traits.vision ∧
      (self.inheritTraits p1 p2 r).1.traits.vision
        ≤ 1.05 * ((p1.traits.vision + p2.traits.vision) / 2)) ∧
    (0.95 * ((p1.traits.reproductionRate + p2.traits.reproductionRate) / 2)
        ≤ (self.inheritTraits p1 p2 r).1.traits.reproductionRate ∧
      (self.inheritTraits p1 p2 r).1.traits.reproductionRate
        ≤ 1.05 * ((p1.traits.reproductionRate + p2.traits.reproductionRate) / 2)) ∧
    (self.inheritTraits p1 p2 r).1.size = (self.inheritTraits p1 p2 r).1.traits.size := by
  obtain ⟨a1, a2, a3, a4⟩ := h1
  obtain ⟨b1, b2, b3, b4⟩ := h2
  have key : ∀ (m u : ℚ), 0 < m → 0 ≤ u → u < 1 →
      0.95 * m ≤ m * (1 + (u - 0.5) * 0.1) ∧ m * (1 + (u - 0.5) * 0.1) ≤ 1.05 * m := by
    intro m u hm hu0 hu1
    constructor <;> nlinarith
  simp only [Animal.inheritTraits, Animal.mutate, Rng.next]
  refine ⟨key _ _ (by linarith) (hr _).1 (hr _).2, key _ _ (by linarith) (hr _).1 (hr _).2,
    key _ _ (by linarith) (hr _).1 (hr _).2, key _ _ (by linarith) (hr _).1 (hr _).2, trivial⟩

/-- Witness of C10: the two rabbits of `meadowSim` as parents, draws all equal to
1/2. -/
theorem C10_inheritTraits_witness :
    rngHalf.InUnit ∧
    (0 < (meadowSim.animalAt 0).traits.speed ∧ 0 < (meadowSim.animalAt 0).traits.size ∧
      0 < (meadowSim.animalAt 0).traits.vision ∧
      0 < (meadowSim.animalAt 0).traits.reproductionRate) ∧
    (0 < (meadowSim.animalAt 1).traits.speed ∧ 0 < (meadowSim.animalAt 1).traits.size ∧
      0 < (meadowSim.animalAt 1).traits.vision ∧
      0 < (meadowSim.animalAt 1).traits.reproductionRate) ∧
    (0.95 * (((meadowSim.animalAt 0).traits.speed + (meadowSim.animalAt 1).traits.speed) / 2)
        ≤ ((mkAnimal SPECIES.RABBIT 102 100 "male" 100 0 0).inheritTraits
            (meadowSim.animalAt 0) (meadowSim.animalAt 1) rngHalf).1.traits.speed ∧
      ((mkAnimal SPECIES.RABBIT 102 100 "male" 100 0 0).inheritTraits
            (meadowSim.animalAt 0) (meadowSim.animalAt 1) rngHalf).1.traits.speed
        ≤ 1.05 * (((meadowSim.animalAt 0).traits.speed
                    + (meadowSim.animalAt 1).traits.speed) / 2)) :=
  have hr : rngHalf.InUnit := fun _ => ⟨by norm_num [rngHalf], by norm_num [rngHalf]⟩
  ⟨hr, by decide!, by decide!,
    (C10_inheritTraits (mkAnimal SPECIES.RABBIT 102 100 "male" 100 0 0)
      (meadowSim.animalAt 0) (meadowSim.animalAt 1) rngHalf hr
      (by decide!) (by decide!)).1⟩

/-! ## C11, C12, C13, C16: `Animal.update` -/

/-- `findMate` changes nothing but the random generator. -/
theorem Animal.findMate_state (M : MathEnv) (s : Sim) (self : Nat) :
    (Animal.findMate M s self).2 = { s with rng := (Animal.findMate M s self).2.rng } :=
  rfl

/-- `findTarget` changes nothing but the random generator. -/
theorem Animal.findTarget_state (M : MathEnv) (s : Sim) (self : Nat) :
    (Animal.findTarget M s self).2 = { s with rng := (Animal.findTarget M s self).2.rng } := by
  unfold Animal.findTarget
  simp only
  split
  · rfl
  · split
    · split
      · rfl
      · rfl
    · rfl

/-- The decision step only writes the target, the behavior and the velocity of
`this`. -/
theorem Animal.updateDecision_effect (M : MathEnv) (s : Sim) (self : Nat) :
    (Animal.updateDecision M s self).world = s.world ∧
    (Animal.updateDecision M s self).nextId = s.nextId ∧
    (Animal.updateDecision M s self).vegAt = s.vegAt ∧
    (∀ j, j ≠ self → (Animal.updateDecision M s self).animalAt j = s.animalAt j) ∧
    Animal.SameBody (s.animalAt self) ((Animal.updateDecision M s self).animalAt self) := by
  unfold Animal.updateDecision Animal.SameBody
  split
  · have h := Animal.findTarget_state M s self
    generalize Animal.findTarget M s self = ft at h
    obtain ⟨target, s'⟩ := ft
    simp only at h
    generalize s'.rng = r at h
    subst h
    cases target with
    | none =>
      simp only [Animal.wander, Sim.setAnimal, Rng.next]
      split <;>
        refine ⟨?_, ?_, ?_, ?_, ?_⟩ <;>
          first | rfl | trivial | (intro j hj; simp [hj]) | simp
    | some t =>
      simp only [Animal.moveTowards, Sim.setAnimal]
      refine ⟨?_, ?_, ?_, ?_, ?_⟩ <;>
        first | rfl | trivial | (intro j hj; simp [hj])
  · exact ⟨rfl, rfl, rfl, fun _ _ => rfl, rfl⟩

/-- The integration step only writes the position, the trail and the angle. -/
theorem Animal.updatePosition_body (M : MathEnv) (w h : ℚ) (b : Animal) (dt : ℚ) :
    { Animal.updatePosition M w h b dt with
        position := b.position, trail := b.trail, angle := b.angle } = b :=
  rfl

/-- `Animal.update` writes no object but `this` and keeps the world. -/
theorem Animal.update_effect (M : MathEnv) (s : Sim) (self : Nat) (dt : ℚ) :
    (Animal.update M s self dt).world = s.world ∧
    (Animal.update M s self dt).nextId = s.nextId ∧
    (Animal.update M s self dt).vegAt = s.vegAt ∧
    (∀ j, j ≠ self → (Animal.update M s self dt).animalAt j = s.animalAt j) ∧
    Animal.SameBody ((s.animalAt self).updateMetabolism dt) (Animal.beforeMove M s self dt) ∧
    (Animal.update M s self dt).animalAt self
      = Animal.updatePosition M s.world.width s.world.height
          (Animal.beforeMove M s self dt) dt := by
  have h := Animal.updateDecision_effect M
    (s.setAnimal self ((s.animalAt self).updateMetabolism dt)) self
  obtain ⟨h1, h2, h3, h4, h5⟩ := h
  refine ⟨h1, h2, h3, ?_, ?_, ?_⟩
  · intro j hj
    show (if j = self then _ else _) = _
    rw [if_neg hj, h4 j hj]
    show (if j = self then _ else _) = _
    rw [if_neg hj]
  · have e : (s.setAnimal self ((s.animalAt self).updateMetabolism dt)).animalAt self
        = (s.animalAt self).updateMetabolism dt := by
      show (if self = self then _ else _) = _
      rw [if_pos rfl]
    rw [e] at h5
    exact h5
  · show (if self = self then _ else _) = _
    rw [if_pos rfl, h1]
    rfl

theorem Animal.updateMetabolism_fields (a : Animal) (dt : ℚ) :
    (a.updateMetabolism dt).age = a.age + dt ∧
    (a.updateMetabolism dt).hunger = a.hunger + dt * 0.5 *
      (if (a.age + dt) / a.maxAge < 0.3 then 1.5
        else (if (a.age + dt) / a.maxAge < 0.7 then 1.0 else 0.7)) ∧
    (a.updateMetabolism dt).reproductionCooldown = max 0 (a.reproductionCooldown - dt) ∧
    (a.updateMetabolism dt).health = a.health
      - dt * (0.3 / (a.traits.size / 10)) *
          (if (a.age + dt) / a.maxAge < 0.3 then 0.5
            else (if (a.age + dt) / a.maxAge > 0.7 then 2.0 else 1.0))
      - (if (a.updateMetabolism dt).hunger > 80 then dt * 2 else 0) ∧
    (a.updateMetabolism dt).position = a.position ∧
    (a.updateMetabolism dt).trail = a.trail ∧
    (a.updateMetabolism dt).traits = a.traits ∧
    (a.updateMetabolism dt).maxAge = a.maxAge := by
  have hh : (a.updateMetabolism dt).hunger = a.hunger + dt * 0.5 *
      (if (a.age + dt) / a.maxAge < 0.3 then 1.5
        else (if (a.age + dt) / a.maxAge < 0.7 then 1.0 else 0.7)) := by
    unfold Animal.updateMetabolism
    simp only
    split_ifs <;> rfl
  refine ⟨?_, hh, ?_, ?_, ?_, ?_, ?_, ?_⟩
  · unfold Animal.updateMetabolism
    simp only
    split_ifs <;> rfl
  · unfold Animal.updateMetabolism
    simp only
    split_ifs <;> rfl
  · rw [hh]
    unfold Animal.updateMetabolism
    simp only
    split_ifs <;> first | rfl | simp only [sub_zero]
  · unfold Animal.updateMetabolism
    simp only
    split_ifs <;> rfl
  · unfold Animal.updateMetabolism
    simp only
    split_ifs <;> rfl
  · unfold Animal.updateMetabolism
    simp only
    split_ifs <;> rfl
  · unfold Animal.updateMetabolism
    simp only
    split_ifs <;> rfl

/-- The fields of `this` that only the first part of `update` writes. -/
theorem Animal.update_metabolism_fields (M : MathEnv) (s : Sim) (self : Nat) (dt : ℚ) :
    ((Animal.update M s self dt).animalAt self).age
      = ((s.animalAt self).updateMetabolism dt).age ∧
    ((Animal.update M s self dt).animalAt self).hunger
      = ((s.animalAt self).updateMetabolism dt).hunger ∧
    ((Animal.update M s self dt).animalAt self).reproductionCooldown
      = ((s.animalAt self).updateMetabolism dt).reproductionCooldown ∧
    ((Animal.update M s self dt).animalAt self).health
      = ((s.animalAt self).updateMetabolism dt).health := by
  obtain ⟨_, _, _, _, hb, he⟩ := Animal.update_effect M s self dt
  unfold Animal.SameBody at hb
  rw [he]
  have e1 := congrArg Animal.age hb
  have e2 := congrArg Animal.hunger hb
  have e3 := congrArg Animal.reproductionCooldown hb
  have e4 := congrArg Animal.health hb
  exact ⟨e1, e2, e3, e4⟩

/-- Claim C11: `Animal.update` increases the age by `deltaTime`, increases the hunger
by exactly `0.5 * deltaTime * m`, where for `r` the new age divided by the lifespan
(field `maxAge`) `m` is 1.5 if `r < 0.3`, 1.0 if `0.3 ≤ r < 0.7` and 0.7 otherwise,
without an upper clamp, and sets the cooldown to `max(0, cooldown - deltaTime)`. -/
theorem C11_update_metabolism (M : MathEnv) (s : Sim) (self : Nat) (deltaTime : ℚ) :
    ((Animal.update M s self deltaTime).animalAt self).age
      = (s.animalAt self).age + deltaTime ∧
    ((Animal.update M s self deltaTime).animalAt self).hunger
      = (s.animalAt self).hunger + 0.5 * deltaTime *
          (if ((s.animalAt self).age + deltaTime) / (s.animalAt self).maxAge < 0.3 then 1.5
            else if ((s.animalAt self).age + deltaTime) / (s.animalAt self).maxAge < 0.7
              then 1.0 else 0.7) ∧
    ((Animal.update M s self deltaTime).animalAt self).reproductionCooldown
      = max 0 ((s.animalAt self).reproductionCooldown - deltaTime) := by
  obtain ⟨h1, h2, h3, _⟩ := Animal.update_metabolism_fields M s self deltaTime
  obtain ⟨f1, f2, f3, _⟩ := Animal.updateMetabolism_fields (s.animalAt self) deltaTime
  refine ⟨h1.trans f1, ?_, h3.trans f3⟩
  rw [h2, f2]
  ring

/-- Claim C12 as stated fails on the code at an age ratio of exactly 0.7.  The rabbit
of `boundarySim` reaches the ratio 56/80 = 0.7 after one time unit; its hunger grows
with the elders' multiplier 0.7, but its health decays with the multiplier 1.0 (loss
3/8), not with the elders' 2.0 (loss 3/4) that the claim gives for every ratio that
is neither below 0.3 nor in `[0.3, 0.7)`. -/
theorem C12_elder_boundary_counterexample :
    ((boundarySim.animalAt 0).age + 1) / (boundarySim.animalAt 0).maxAge = 0.7 ∧
    ((Animal.update refMath boundarySim 0 1).animalAt 0).hunger
      = (boundarySim.animalAt 0).hunger + 0.5 * 1 * 0.7 ∧
    ¬ (((Animal.update refMath boundarySim 0 1).animalAt 0).hunger > 80) ∧
    (boundarySim.animalAt 0).health - ((Animal.update refMath boundarySim 0 1).animalAt 0).health
      = 1 * (0.3 / ((boundarySim.animalAt 0).traits.size / 10)) * 1.0 ∧
    (boundarySim.animalAt 0).health - ((Animal.update refMath boundarySim 0 1).animalAt 0).health
      ≠ 1 * (0.3 / ((boundarySim.animalAt 0).traits.size / 10)) * 2.0 := by
  decide!

/-- Claim C12, amended: for an animal with `traits.size > 0` the health lost in
`Animal.update` is `deltaTime * (0.3 / (traits.size / 10)) * k`, plus `2 * deltaTime`
when the hunger after this tick's accrual is `> 80`, where for `r` the new age divided
by the lifespan `k` is 0.5 if `r < 0.3`, 2.0 if `r > 0.7` and 1.0 otherwise, that is
for `0.3 ≤ r ≤ 0.7`; the health is not clamped at 0. -/
theorem C12_health_decay (M : MathEnv) (s : Sim) (self : Nat) (deltaTime : ℚ)
    (_hsize : 0 < (s.animalAt self).traits.size) :
    (s.animalAt self).health - ((Animal.update M s self deltaTime).animalAt self).health
      = deltaTime * (0.3 / ((s.animalAt self).traits.size / 10)) *
          (if ((s.animalAt self).age + deltaTime) / (s.animalAt self).maxAge < 0.3 then 0.5
            else if ((s.animalAt self).age + deltaTime) / (s.animalAt self).maxAge > 0.7
              then 2.0 else 1.0)
        + (if ((Animal.update M s self deltaTime).animalAt self).hunger > 80
            then 2 * deltaTime else 0) := by
  obtain ⟨_, h2, _, h4⟩ := Animal.update_metabolism_fields M s self deltaTime
  obtain ⟨_, _, _, f4, _⟩ := Animal.updateMetabolism_fields (s.animalAt self) deltaTime
  rw [h4, h2, f4]
  split_ifs <;> ring

/-- Witness of C12: the starving fox of `starvingFoxSim` (size 10, hunger 90) loses
`10 * 0.3 * 1.0 + 2 * 10 = 23` health in a step of 10 time units. -/
theorem C12_health_decay_witness :
    0 < (starvingFoxSim.animalAt 1).traits.size ∧
    (starvingFoxSim.animalAt 1).health
        - ((Animal.update refMath starvingFoxSim 1 10).animalAt 1).health
      = 10 * (0.3 / ((starvingFoxSim.animalAt 1).traits.size / 10)) *
          (if ((starvingFoxSim.animalAt 1).age + 10) / (starvingFoxSim.animalAt 1).maxAge < 0.3
            then 0.5
            else if ((starvingFoxSim.animalAt 1).age + 10) / (starvingFoxSim.animalAt 1).maxAge
                > 0.7
              then 2.0 else 1.0)
        + (if ((Animal.update refMath starvingFoxSim 1 10).animalAt 1).hunger > 80
            then 2 * 10 else 0) :=
  ⟨by decide!, C12_health_decay refMath starvingFoxSim 1 10 (by decide!)⟩

/-- The decision step never sets the behavior `seeking_mate`: it leaves `eating`
untouched and otherwise sets `hunting` or `wandering`. -/
theorem Animal.updateDecision_ne_seeking_mate (M : MathEnv) (s : Sim) (self : Nat) :
    ((Animal.updateDecision M s self).animalAt self).currentBehavior
      ≠ Behavior.seeking_mate := by
  unfold Animal.updateDecision
  split
  · generalize Animal.findTarget M s self = ft
    obtain ⟨target, s'⟩ := ft
    cases target with
    | none =>
      simp only [Animal.wander, Sim.setAnimal, Rng.next]
      split <;> simp
    | some t =>
      cases t <;> simp [Animal.moveTowards, Sim.setAnimal]
  · rename_i h
    simp only [ne_eq, Decidable.not_not] at h
    rw [h]
    decide

/-- No call of `Animal.update` leaves the animal with the behavior `seeking_mate`. -/
theorem Animal.update_ne_seeking_mate (M : MathEnv) (s : Sim) (self : Nat) (dt : ℚ) :
    ((Animal.update M s self dt).animalAt self).currentBehavior ≠ Behavior.seeking_mate := by
  obtain ⟨_, _, _, _, _, he⟩ := Animal.update_effect M s self dt
  rw [he]
  exact Animal.updateDecision_ne_seeking_mate M _ self

/-- Claim C13, evaluated on the code: a mate as target does not give the behavior
`seeking_mate`.  The female rabbit of `courtshipSim` is not hungry (hunger 0.0375
after the accrual), passes `canReproduce()` and the 30% gate (draw 0.1), and
`findMate` returns the male; it becomes her target, but as the mate is an `Animal`
line 157 sets the behavior `hunting`.  The run calls `sqrt` at 16 and `atan2` at
`(0, 60)`, where `refMath` is exact. -/
theorem C13_mate_target_is_hunting :
    ((Animal.update refMath courtshipSim 0 (1 / 20)).animalAt 0).hunger ≤ 50 ∧
    (courtshipSim.animalAt 1).species.name = (courtshipSim.animalAt 0).species.name ∧
    (courtshipSim.animalAt 1).gender ≠ (courtshipSim.animalAt 0).gender ∧
    ((Animal.update refMath courtshipSim 0 (1 / 20)).animalAt 0).currentTarget
      = some (Target.animal 1) ∧
    ((Animal.update refMath courtshipSim 0 (1 / 20)).animalAt 0).currentBehavior
      = Behavior.hunting ∧
    ((Animal.update refMath courtshipSim 0 (1 / 20)).animalAt 0).currentBehavior
      ≠ Behavior.seeking_mate := by
  decide!

/-- The position and the trail that the integration step computes, in closed form. -/
theorem Animal.updatePosition_eq (M : MathEnv) (w h : ℚ) (b : Animal) (dt : ℚ) (p : Vector2D)
    (hp : p = b.position.add (b.velocity.multiply dt)) :
    (Animal.updatePosition M w h b dt).position
      = ⟨if p.x < 0 then w else if w < p.x then 0 else p.x,
         if p.y < 0 then h else if h < p.y then 0 else p.y⟩ ∧
    (Animal.updatePosition M w h b dt).trail
      = (if ((if p.x < 0 ∨ w < p.x ∨ p.y < 0 ∨ h < p.y then [] else b.trail)
              ++ [(Animal.updatePosition M w h b dt).position]).length > 10
          then ((if p.x < 0 ∨ w < p.x ∨ p.y < 0 ∨ h < p.y then [] else b.trail)
              ++ [(Animal.updatePosition M w h b dt).position]).tail
          else (if p.x < 0 ∨ w < p.x ∨ p.y < 0 ∨ h < p.y then [] else b.trail)
              ++ [(Animal.updatePosition M w h b dt).position]) := by
  subst hp
  unfold Animal.updatePosition
  generalize b.position.add (b.velocity.multiply dt) = p
  by_cases h1 : p.x < 0 <;> by_cases h2 : w < p.x <;> by_cases h3 : p.y < 0 <;>
    by_cases h4 : h < p.y <;>
    simp only [h1, h2, h3, h4, gt_iff_lt, lt_self_iff_false, if_true, if_false, true_or,
      or_true, or_false, false_or, and_self, true_and, Bool.false_eq_true, ↓reduceIte]

/-- The first two parts of `update` keep the position and the trail of `this`. -/
theorem Animal.beforeMove_fields (M : MathEnv) (s : Sim) (self : Nat) (dt : ℚ) :
    (Animal.beforeMove M s self dt).position = (s.animalAt self).position ∧
    (Animal.beforeMove M s self dt).trail = (s.animalAt self).trail := by
  obtain ⟨_, _, _, _, hb, _⟩ := Animal.update_effect M s self dt
  unfold Animal.SameBody at hb
  obtain ⟨_, _, _, _, f5, f6, _⟩ := Animal.updateMetabolism_fields (s.animalAt self) dt
  have e1 := congrArg Animal.position hb
  have e2 := congrArg Animal.trail hb
  exact ⟨e1.trans f5, e2.trans f6⟩

theorem tail_eq_drop_of_length (l : List Vector2D) (h : l.length ≤ 11) :
    (if l.length > 10 then l.tail else l) = l.drop (l.length - 10) ∧
    (if l.length > 10 then l.tail else l).length ≤ 10 := by
  split
  · have e : l.length - 10 = 1 := by omega
    rw [e, List.drop_one]
    exact ⟨rfl, by rw [List.length_tail]; omega⟩
  · have e : l.length - 10 = 0 := by omega
    rw [e, List.drop_zero]
    exact ⟨rfl, by omega⟩

/-- Claim C16: in a world with `width ≥ 0` and `height ≥ 0`, after `Animal.update` the
position satisfies `0 ≤ x ≤ width` and `0 ≤ y ≤ height`.  Let `p` be the integrated
position: the position before the update plus `deltaTime` times the velocity that the
animal has after the update (the decision comes before the integration).  A coordinate of
`p` below 0 is set to the world dimension and one above the world dimension is set to 0,
other coordinates are kept; if a coordinate wrapped, the trail afterwards is just the new
position (length 1); if none wrapped, the new position is appended to the previous trail
and the first point is dropped when there are more than 10, so that for a previous trail
of at most 10 points exactly the most recent 10 points are kept. -/
theorem C16_wrap_and_trail (M : MathEnv) (s : Sim) (self : Nat) (deltaTime : ℚ)
    (hw : 0 ≤ s.world.width) (hh : 0 ≤ s.world.height) (p : Vector2D)
    (hp : p = ⟨(s.animalAt self).position.x
                + ((Animal.update M s self deltaTime).animalAt self).velocity.x * deltaTime,
               (s.animalAt self).position.y
                + ((Animal.update M s self deltaTime).animalAt self).velocity.y * deltaTime⟩) :
    (0 ≤ ((Animal.update M s self deltaTime).animalAt self).position.x ∧
      ((Animal.update M s self deltaTime).animalAt self).position.x ≤ s.world.width ∧
      0 ≤ ((Animal.update M s self deltaTime).animalAt self).position.y ∧
      ((Animal.update M s self deltaTime).animalAt self).position.y ≤ s.world.height) ∧
    ((p.x < 0 →
        ((Animal.update M s self deltaTime).animalAt self).position.x = s.world.width) ∧
      (s.world.width < p.x →
        ((Animal.update M s self deltaTime).animalAt self).position.x = 0) ∧
      (0 ≤ p.x →
        p.x ≤ s.world.width →
        ((Animal.update M s self deltaTime).animalAt self).position.x
          = p.x) ∧
      (p.y < 0 →
        ((Animal.update M s self deltaTime).animalAt self).position.y = s.world.height) ∧
      (s.world.height < p.y →
        ((Animal.update M s self deltaTime).animalAt self).position.y = 0) ∧
      (0 ≤ p.y →
        p.y ≤ s.world.height →
        ((Animal.update M s self deltaTime).animalAt self).position.y
          = p.y)) ∧
    ((p.x < 0 ∨
        s.world.width < p.x ∨
        p.y < 0 ∨
        s.world.height < p.y) →
      ((Animal.update M s self deltaTime).animalAt self).trail
          = [((Animal.update M s self deltaTime).animalAt self).position] ∧
      ((Animal.update M s self deltaTime).animalAt self).trail.length = 1) ∧
    (¬ (p.x < 0 ∨
        s.world.width < p.x ∨
        p.y < 0 ∨
        s.world.height < p.y) →
      ((Animal.update M s self deltaTime).animalAt self).position
          = p ∧
      ((Animal.update M s self deltaTime).animalAt self).trail
          = (if ((s.animalAt self).trail ++ [p]).length > 10
              then ((s.animalAt self).trail ++ [p]).tail
              else (s.animalAt self).trail ++ [p]) ∧
      ((s.animalAt self).trail.length ≤ 10 →
        ((Animal.update M s self deltaTime).animalAt self).trail
            = ((s.animalAt self).trail ++ [p]).drop
                (((s.animalAt self).trail ++ [p]).length - 10) ∧
        ((Animal.update M s self deltaTime).animalAt self).trail.length ≤ 10)) := by
  obtain ⟨_, _, _, _, _, he⟩ := Animal.update_effect M s self deltaTime
  have hint : p = Animal.integrated M s self deltaTime := by
    have hv := congrArg Animal.velocity
      (Animal.updatePosition_body M s.world.width s.world.height
        (Animal.beforeMove M s self deltaTime) deltaTime)
    rw [← he] at hv
    have hv : ((Animal.update M s self deltaTime).animalAt self).velocity
        = (Animal.beforeMove M s self deltaTime).velocity := hv
    rw [hp, hv]
    unfold Animal.integrated
    rw [(Animal.beforeMove_fields M s self deltaTime).1]
    rfl
  rw [hint]
  clear hint hp
  obtain ⟨ep, et⟩ := Animal.updatePosition_eq M s.world.width s.world.height
    (Animal.beforeMove M s self deltaTime) deltaTime (Animal.integrated M s self deltaTime) rfl
  obtain ⟨_, ht⟩ := Animal.beforeMove_fields M s self deltaTime
  rw [← he] at ep et
  rw [ht] at et
  generalize Animal.integrated M s self deltaTime = p at ep et ⊢
  generalize ((Animal.update M s self deltaTime).animalAt self) = a at ep et ⊢
  generalize (s.animalAt self).trail = prev at et ⊢
  generalize s.world.width = w at hw ep et ⊢
  generalize s.world.height = h at hh ep et ⊢
  have ex : a.position.x = if p.x < 0 then w else if w < p.x then 0 else p.x := by rw [ep]
  have ey : a.position.y = if p.y < 0 then h else if h < p.y then 0 else p.y := by rw [ep]
  refine ⟨?_, ?_, ?_, ?_⟩
  · rw [ex, ey]
    refine ⟨?_, ?_, ?_, ?_⟩ <;> split_ifs <;> linarith
  · rw [ex, ey]
    refine ⟨?_, ?_, ?_, ?_, ?_, ?_⟩
    · intro h1; rw [if_pos h1]
    · intro h1
      have : ¬ p.x < 0 := by linarith
      rw [if_neg this, if_pos h1]
    · intro h1 h2
      rw [if_neg (not_lt.mpr h1), if_neg (not_lt.mpr h2)]
    · intro h1; rw [if_pos h1]
    · intro h1
      have : ¬ p.y < 0 := by linarith
      rw [if_neg this, if_pos h1]
    · intro h1 h2
      rw [if_neg (not_lt.mpr h1), if_neg (not_lt.mpr h2)]
  · intro hwr
    rw [if_pos hwr] at et
    have e : a.trail = [a.position] := by
      rw [et]
      simp
    exact ⟨e, by rw [e]; rfl⟩
  · intro hwr
    rw [if_neg hwr] at et
    have hpos : a.position = p := by
      rw [ep]
      simp only [not_or, not_lt] at hwr
      obtain ⟨h1, h2, h3, h4⟩ := hwr
      rw [if_neg (not_lt.mpr h1), if_neg (not_lt.mpr h2), if_neg (not_lt.mpr h3),
        if_neg (not_lt.mpr h4)]
    rw [hpos] at et
    refine ⟨hpos, et, ?_⟩
    intro hl
    have hl' : (prev ++ [p]).length ≤ 11 := by
      rw [List.length_append]; simp only [List.length_singleton]; omega
    have := tail_eq_drop_of_length (prev ++ [p]) hl'
    rw [← et] at this
    exact this

/-- Witness of C16: the rabbit of `edgeSim` is integrated from (799, 100) to (802, 100),
beyond the width 800; it reappears at (0, 100) and its trail of two points is replaced by
that one point.  The fox of `foxRabbitSim` moves from (100, 100) to (103.5, 100) without
wrapping. -/
theorem C16_wrap_and_trail_witness :
    (0 ≤ edgeSim.world.width ∧ 0 ≤ edgeSim.world.height ∧
      (edgeSim.animalAt 0).position = ⟨799, 100⟩ ∧
      ((Animal.update refMath edgeSim 0 (1 / 20)).animalAt 0).velocity = ⟨60, 0⟩ ∧
      (edgeSim.animalAt 0).trail.length = 2 ∧
      ((Animal.update refMath edgeSim 0 (1 / 20)).animalAt 0).position = ⟨0, 100⟩ ∧
      ((Animal.update refMath edgeSim 0 (1 / 20)).animalAt 0).trail
          = [((Animal.update refMath edgeSim 0 (1 / 20)).animalAt 0).position] ∧
      ((Animal.update refMath edgeSim 0 (1 / 20)).animalAt 0).trail.length = 1) ∧
    (0 ≤ foxRabbitSim.world.width ∧ 0 ≤ foxRabbitSim.world.height ∧
      ((Animal.update refMath foxRabbitSim 1 (1 / 20)).animalAt 1).position = ⟨207 / 2, 100⟩ ∧
      (0 ≤ ((Animal.update refMath foxRabbitSim 1 (1 / 20)).animalAt 1).position.x ∧
        ((Animal.update refMath foxRabbitSim 1 (1 / 20)).animalAt 1).position.x
          ≤ foxRabbitSim.world.width ∧
        0 ≤ ((Animal.update refMath foxRabbitSim 1 (1 / 20)).animalAt 1).position.y ∧
        ((Animal.update refMath foxRabbitSim 1 (1 / 20)).animalAt 1).position.y
          ≤ foxRabbitSim.world.height)) :=
  ⟨⟨by decide!, by decide!, by decide!, by decide!, by decide!, by decide!,
      (C16_wrap_and_trail refMath edgeSim 0 (1 / 20) (by decide!) (by decide!) ⟨802, 100⟩
        (by decide!)).2.2.1 (Or.inr (Or.inl (by decide!)))⟩,
    ⟨by decide!, by decide!, by decide!,
      (C16_wrap_and_trail refMath foxRabbitSim 1 (1 / 20) (by decide!) (by decide!)
        ⟨207 / 2, 100⟩ (by decide!)).1⟩⟩

/-! ## C14, C15: the scans of `findFood` and `findMate` -/

/-- What a scan started without candidate at the radius `v` returns: the first of the
nearest candidates within `v`. -/
theorem Animal.scan_inv {α : Type} (l : List (α × ℚ)) (v : ℚ) :
    (Animal.scan l (none, v)).2 ≤ v ∧
    (∀ c ∈ l, (Animal.scan l (none, v)).2 ≤ c.2) ∧
    ((Animal.scan l (none, v)).1 = none → (Animal.scan l (none, v)).2 = v) ∧
    (∀ t, (Animal.scan l (none, v)).1 = some t →
      ∃ i : Nat, l[i]? = some (t, (Animal.scan l (none, v)).2) ∧
        (Animal.scan l (none, v)).2 < v ∧
        ∀ (j : Nat) (c : α × ℚ), j < i → l[j]? = some c →
          (Animal.scan l (none, v)).2 < c.2) := by
  induction l using List.reverseRecOn with
  | nil =>
    refine ⟨le_refl _, ?_, fun _ => rfl, ?_⟩
    · intro c hc; simp at hc
    · intro t ht; simp [Animal.scan] at ht
  | append_singleton init c ih =>
    have e : Animal.scan (init ++ [c]) (none, v)
        = Animal.closer c.1 c.2 (Animal.scan init (none, v)) := by
      simp [Animal.scan, List.foldl_append]
    rw [e]
    generalize Animal.scan init (none, v) = r at ih ⊢
    obtain ⟨h1, h2, h3, h4⟩ := ih
    unfold Animal.closer
    split
    · rename_i hlt
      refine ⟨by simp only; linarith, ?_, ?_, ?_⟩
      · intro c' hc'
        simp only
        rcases List.mem_append.mp hc' with hc' | hc'
        · have := h2 c' hc'; linarith
        · simp only [List.mem_singleton] at hc'; rw [hc']
      · intro hn; simp at hn
      · intro t ht
        simp only [Option.some.injEq] at ht
        refine ⟨init.length, ?_, by simp only; linarith, ?_⟩
        · rw [List.getElem?_concat_length, ← ht]
        · intro j c' hj hc'
          rw [List.getElem?_append_left hj] at hc'
          have := h2 c' (List.getElem?_mem hc')
          simp only
          linarith
    · rename_i hge
      refine ⟨h1, ?_, h3, ?_⟩
      · intro c' hc'
        rcases List.mem_append.mp hc' with hc' | hc'
        · exact h2 c' hc'
        · simp only [List.mem_singleton] at hc'; rw [hc']; exact not_lt.mp hge
      · intro t ht
        obtain ⟨i, hi, hv, hj⟩ := h4 t ht
        have hil : i < init.length := by
          rcases List.getElem?_eq_some.mp hi with ⟨h, _⟩
          exact h
        refine ⟨i, ?_, hv, ?_⟩
        · rw [List.getElem?_append_left hil]; exact hi
        · intro j c' hji hc'
          rw [List.getElem?_append_left (by omega)] at hc'
          exact hj j c' hji hc'

theorem foldl_filter_eq {α β : Type} (p : α → Bool) (g : β → α → β) (l : List α) (init : β) :
    (l.filter p).foldl g init = l.foldl (fun x y => if p y = true then g x y else x) init := by
  induction l generalizing init with
  | nil => rfl
  | cons a l ih =>
    by_cases h : p a = true
    · rw [List.filter_cons_of_pos h, List.foldl_cons, List.foldl_cons, if_pos h, ih]
    · rw [List.filter_cons_of_neg h, List.foldl_cons, if_neg h, ih]

/-- The result of `findFood` is the result of the scan over the candidates. -/
theorem Animal.findFood_eq_scan (M : MathEnv) (s : Sim) (self : Nat) :
    Animal.findFood M s self
      = (Animal.scan (Animal.foodCandidates M s self) (none, (s.animalAt self).traits.vision)).1 := by
  unfold Animal.findFood Animal.foodCandidates Animal.scan
  simp only [List.foldl_append]
  congr 1
  split <;> split <;>
    simp only [List.foldl_map, foldl_filter_eq, List.foldl_nil, decide_eq_true_eq]

/-- The candidates of `findFood` are the eligible objects of the world. -/
theorem Animal.mem_foodCandidates (M : MathEnv) (s : Sim) (self : Nat) (c : Target × ℚ) :
    c ∈ Animal.foodCandidates M s self ↔
      ((s.animalAt self).species.diet.contains "vegetation" = true ∧
        ∃ veg ∈ s.world.vegetation,
          c = (Target.vegetation veg,
                (s.animalAt self).position.distance M (s.vegAt veg).position)) ∨
      ((s.animalAt self).species.diet.contains "animals" = true ∧
        ∃ animal ∈ s.world.animals,
          animal ≠ self ∧ (s.animalAt self).canEat (s.animalAt animal) = true ∧
          c = (Target.animal animal,
                (s.animalAt self).position.distance M (s.animalAt animal).position)) := by
  unfold Animal.foodCandidates
  rw [List.mem_append]
  constructor
  · rintro (h | h)
    · left
      split at h
      · rename_i hd
        obtain ⟨veg, hv, e⟩ := List.mem_map.mp h
        exact ⟨hd, veg, hv, e.symm⟩
      · simp at h
    · right
      split at h
      · rename_i hd
        obtain ⟨animal, ha, e⟩ := List.mem_map.mp h
        rw [List.mem_filter, decide_eq_true_eq] at ha
        exact ⟨hd, animal, ha.1, ha.2.1, ha.2.2, e.symm⟩
      · simp at h
  · rintro (⟨hd, veg, hv, e⟩ | ⟨hd, animal, ha, hne, hc, e⟩)
    · left
      rw [if_pos hd]
      exact List.mem_map.mpr ⟨veg, hv, e.symm⟩
    · right
      rw [if_pos hd]
      refine List.mem_map.mpr ⟨animal, ?_, e.symm⟩
      rw [List.mem_filter, decide_eq_true_eq]
      exact ⟨ha, hne, hc⟩

/-- The test `canEat` is membership of the species name in the `canEat` list of the
eater, and the tests on the diet are memberships. -/
theorem Animal.canEat_iff (a b : Animal) :
    (a.canEat b = true ↔ b.species.name ∈ a.species.canEat.getD []) ∧
    (∀ kind : String, a.species.diet.contains kind = true ↔ kind ∈ a.species.diet) := by
  constructor
  · unfold Animal.canEat
    simp
  · intro kind
    simp

/-- Claim C14: `findFood` returns null exactly when no eligible candidate lies at a
distance strictly below the vision of the animal; otherwise it returns an eligible
candidate within vision that is at least as near as every eligible candidate, and
strictly nearer than every candidate that comes before it in scan order.  The eligible
candidates in scan order (`foodCandidates`) are all vegetation, in collection order, if
`vegetation` is in the diet, followed, if `animals` is in the diet, by the animals other
than `this` whose species name is in the `canEat` list of the species of `this`, in
collection order (no animal when the species has no such list); each comes with its
distance from `this`. -/
theorem C14_findFood (M : MathEnv) (s : Sim) (self : Nat) :
    (Animal.findFood M s self = none ↔
      ∀ c ∈ Animal.foodCandidates M s self, ¬ c.2 < (s.animalAt self).traits.vision) ∧
    (∀ t, Animal.findFood M s self = some t →
      ∃ (i : Nat) (d : ℚ),
        (Animal.foodCandidates M s self)[i]? = some (t, d) ∧
        d < (s.animalAt self).traits.vision ∧
        (∀ c ∈ Animal.foodCandidates M s self, d ≤ c.2) ∧
        (∀ (j : Nat) (c : Target × ℚ), j < i →
          (Animal.foodCandidates M s self)[j]? = some c → d < c.2)) ∧
    (Animal.foodCandidates M s self
      = (if "vegetation" ∈ (s.animalAt self).species.diet then
            s.world.vegetation.map (fun veg =>
              (Target.vegetation veg,
                M.sqrt (((s.animalAt self).position.x - (s.vegAt veg).position.x) ^ 2
                  + ((s.animalAt self).position.y - (s.vegAt veg).position.y) ^ 2)))
          else []) ++
        (if "animals" ∈ (s.animalAt self).species.diet then
            (s.world.animals.filter (fun animal =>
              decide (animal ≠ self ∧
                (s.animalAt animal).species.name
                  ∈ (s.animalAt self).species.canEat.getD []))).map
              (fun animal =>
                (Target.animal animal,
                  M.sqrt (((s.animalAt self).position.x - (s.animalAt animal).position.x) ^ 2
                    + ((s.animalAt self).position.y - (s.animalAt animal).position.y) ^ 2)))
          else [])) ∧
    (∀ c : Target × ℚ, c ∈ Animal.foodCandidates M s self ↔
      ("vegetation" ∈ (s.animalAt self).species.diet ∧
        ∃ veg ∈ s.world.vegetation,
          c = (Target.vegetation veg,
                (s.animalAt self).position.distance M (s.vegAt veg).position)) ∨
      ("animals" ∈ (s.animalAt self).species.diet ∧
        ∃ animal ∈ s.world.animals,
          animal ≠ self ∧
          (s.animalAt animal).species.name ∈ (s.animalAt self).species.canEat.getD [] ∧
          c = (Target.animal animal,
                (s.animalAt self).position.distance M (s.animalAt animal).position))) := by
  obtain ⟨_, h2, h3, h4⟩ :=
    Animal.scan_inv (Animal.foodCandidates M s self) (s.animalAt self).traits.vision
  refine ⟨?_, ?_, ?_, ?_⟩
  · rw [Animal.findFood_eq_scan]
    generalize Animal.scan (Animal.foodCandidates M s self)
      (none, (s.animalAt self).traits.vision) = r at h2 h3 h4 ⊢
    generalize Animal.foodCandidates M s self = cands at h2 h3 h4 ⊢
    constructor
    · intro hn c hc
      have := h2 c hc
      rw [h3 hn] at this
      exact not_lt.mpr this
    · intro hall
      cases hr : r.1 with
      | none => rfl
      | some t =>
        obtain ⟨i, hi, hv, _⟩ := h4 t hr
        exact absurd hv (hall (t, r.2) (List.getElem?_mem hi))
  · rw [Animal.findFood_eq_scan]
    generalize Animal.scan (Animal.foodCandidates M s self)
      (none, (s.animalAt self).traits.vision) = r at h2 h3 h4 ⊢
    generalize Animal.foodCandidates M s self = cands at h2 h3 h4 ⊢
    intro t ht
    obtain ⟨i, hi, hv, hj⟩ := h4 t ht
    exact ⟨i, r.2, hi, hv, h2, hj⟩
  · unfold Animal.foodCandidates
    congr 1
    · by_cases hd : "vegetation" ∈ (s.animalAt self).species.diet
      · rw [if_pos hd, if_pos (((Animal.canEat_iff (s.animalAt self) (s.animalAt self)).2 _).mpr hd)]
        rfl
      · rw [if_neg hd, if_neg (fun h =>
          hd (((Animal.canEat_iff (s.animalAt self) (s.animalAt self)).2 _).mp h))]
    · by_cases hd : "animals" ∈ (s.animalAt self).species.diet
      · rw [if_pos hd, if_pos (((Animal.canEat_iff (s.animalAt self) (s.animalAt self)).2 _).mpr hd)]
        have hf : s.world.animals.filter (fun animal =>
              decide (animal ≠ self ∧ (s.animalAt self).canEat (s.animalAt animal) = true))
            = s.world.animals.filter (fun animal =>
              decide (animal ≠ self ∧
                (s.animalAt animal).species.name
                  ∈ (s.animalAt self).species.canEat.getD [])) := by
          apply List.filter_congr
          intro a _
          rw [decide_eq_decide]
          exact and_congr_right (fun _ => (Animal.canEat_iff _ _).1)
        rw [hf]
        rfl
      · rw [if_neg hd, if_neg (fun h =>
          hd (((Animal.canEat_iff (s.animalAt self) (s.animalAt self)).2 _).mp h))]
  · intro c
    rw [Animal.mem_foodCandidates]
    apply or_congr
    · exact and_congr_left
        (fun _ => (Animal.canEat_iff (s.animalAt self) (s.animalAt self)).2 _)
    · apply and_congr ((Animal.canEat_iff (s.animalAt self) (s.animalAt self)).2 _)
      apply exists_congr
      intro animal
      apply and_congr_right
      intro _
      apply and_congr_right
      intro _
      exact and_congr_left (fun _ => (Animal.canEat_iff _ _).1)

/-- Witness of C14: the fox of `foxDenSim` has a vegetation at distance 1 and a deer at
distance 3, which are no candidates (its diet is `animals` and its `canEat` list names
the rabbit only), and a rabbit at distance 5, which `findFood` returns.  The rabbit of
`meadowSim` sees two vegetation, at the distances 5 and 20, and `findFood` returns the
first. -/
theorem C14_findFood_witness :
    (Animal.findFood refMath foxDenSim 0 = some (Target.animal 2) ∧
      Animal.foodCandidates refMath foxDenSim 0 = [(Target.animal 2, 5)] ∧
      (foxDenSim.animalAt 0).position.distance refMath (foxDenSim.animalAt 1).position = 3 ∧
      (foxDenSim.animalAt 1).species.name ∉ (foxDenSim.animalAt 0).species.canEat.getD [] ∧
      ∃ (i : Nat) (d : ℚ),
        (Animal.foodCandidates refMath foxDenSim 0)[i]? = some (Target.animal 2, d) ∧
        d < (foxDenSim.animalAt 0).traits.vision ∧
        (∀ c ∈ Animal.foodCandidates refMath foxDenSim 0, d ≤ c.2) ∧
        (∀ (j : Nat) (c : Target × ℚ), j < i →
          (Animal.foodCandidates refMath foxDenSim 0)[j]? = some c → d < c.2)) ∧
    (Animal.findFood refMath meadowSim 0 = some (Target.vegetation 0) ∧
      ∃ (i : Nat) (d : ℚ),
        (Animal.foodCandidates refMath meadowSim 0)[i]? = some (Target.vegetation 0, d) ∧
        d < (meadowSim.animalAt 0).traits.vision ∧
        (∀ c ∈ Animal.foodCandidates refMath meadowSim 0, d ≤ c.2) ∧
        (∀ (j : Nat) (c : Target × ℚ), j < i →
          (Animal.foodCandidates refMath meadowSim 0)[j]? = some c → d < c.2)) :=
  ⟨⟨by decide!, by decide!, by decide!, by decide!,
      (C14_findFood refMath foxDenSim 0).2.1 (Target.animal 2) (by decide!)⟩,
    ⟨by decide!, (C14_findFood refMath meadowSim 0).2.1 (Target.vegetation 0) (by decide!)⟩⟩

theorem Animal.scan_cons {α : Type} (c : α × ℚ) (l : List (α × ℚ)) (best : Option α × ℚ) :
    Animal.scan (c :: l) best = Animal.scan l (Animal.closer c.1 c.2 best) :=
  rfl

/-- The loop of `findMate` is the scan over the candidates. -/
theorem Animal.findMate_fold (M : MathEnv) (s : Sim) (self : Nat) (l : List Nat)
    (best : Option Nat × ℚ) (r : Rng) :
    l.foldl
      (fun (acc : (Option Nat × ℚ) × Rng) animal =>
        if animal ≠ self ∧ (s.animalAt animal).species.name = (s.animalAt self).species.name ∧
            (s.animalAt animal).gender ≠ (s.animalAt self).gender then
          if ((s.animalAt animal).canReproduce acc.2).1 = true then
            (Animal.closer animal
              ((s.animalAt self).position.distance M (s.animalAt animal).position) acc.1,
              ((s.animalAt animal).canReproduce acc.2).2)
          else (acc.1, ((s.animalAt animal).canReproduce acc.2).2)
        else acc) (best, r)
      = (Animal.scan (Animal.mateCandidates M s self l r).1 best,
          (Animal.mateCandidates M s self l r).2) := by
  induction l generalizing best r with
  | nil => rfl
  | cons a l ih =>
    rw [List.foldl_cons]
    unfold Animal.mateCandidates
    split
    · split
      · rw [ih, Animal.scan_cons]
      · rw [ih]
    · rw [ih]

/-- The result of `findMate` is the result of the scan over the candidates. -/
theorem Animal.findMate_eq_scan (M : MathEnv) (s : Sim) (self : Nat) :
    (Animal.findMate M s self).1
      = (Animal.scan (Animal.mateCandidates M s self s.world.animals s.rng).1
          (none, (s.animalAt self).traits.vision)).1 := by
  have h := Animal.findMate_fold M s self s.world.animals
    (none, (s.animalAt self).traits.vision) s.rng
  exact congrArg (fun x => x.1.1) h

theorem Animal.canReproduce_stream (a : Animal) (r : Rng) :
    (a.canReproduce r).2.stream = r.stream := by
  unfold Animal.canReproduce
  split
  · rfl
  · simp only
    split <;> rfl

/-- Every candidate of `findMate` is another animal of the collection with the same
species name and a different gender that passed `canReproduce()` at its turn. -/
theorem Animal.mem_mateCandidates (M : MathEnv) (s : Sim) (self : Nat) (l : List Nat)
    (r : Rng) (c : Nat × ℚ) (hc : c ∈ (Animal.mateCandidates M s self l r).1) :
    c.1 ∈ l ∧ c.1 ≠ self ∧
    (s.animalAt c.1).species.name = (s.animalAt self).species.name ∧
    (s.animalAt c.1).gender ≠ (s.animalAt self).gender ∧
    (∃ r' : Rng, r'.stream = r.stream ∧ ((s.animalAt c.1).canReproduce r').1 = true) ∧
    c.2 = (s.animalAt self).position.distance M (s.animalAt c.1).position := by
  induction l generalizing r with
  | nil => simp [Animal.mateCandidates] at hc
  | cons a l ih =>
    unfold Animal.mateCandidates at hc
    split at hc
    · rename_i hcond
      split at hc
      · rename_i hok
        simp only [List.mem_cons] at hc
        rcases hc with hc | hc
        · subst hc
          exact ⟨List.mem_cons_self _ _, hcond.1, hcond.2.1, hcond.2.2, ⟨r, rfl, hok⟩, rfl⟩
        · obtain ⟨h1, h2, h3, h4, ⟨r', hs, hr'⟩, h6⟩ := ih _ hc
          exact ⟨List.mem_cons_of_mem _ h1, h2, h3, h4,
            ⟨r', hs.trans (Animal.canReproduce_stream _ _), hr'⟩, h6⟩
      · obtain ⟨h1, h2, h3, h4, ⟨r', hs, hr'⟩, h6⟩ := ih _ hc
        exact ⟨List.mem_cons_of_mem _ h1, h2, h3, h4,
          ⟨r', hs.trans (Animal.canReproduce_stream _ _), hr'⟩, h6⟩
    · obtain ⟨h1, h2, h3, h4, h5, h6⟩ := ih _ hc
      exact ⟨List.mem_cons_of_mem _ h1, h2, h3, h4, h5, h6⟩

/-- An animal of the collection that meets the conditions of `findMate` whatever the
random draw is a candidate of the scan. -/
theorem Animal.mateCandidates_of_eligible (M : MathEnv) (s : Sim) (self : Nat) (l : List Nat)
    (r : Rng) (a : Nat) (ha : a ∈ l) (hne : a ≠ self)
    (hsp : (s.animalAt a).species.name = (s.animalAt self).species.name)
    (hg : (s.animalAt a).gender ≠ (s.animalAt self).gender)
    (hok : ∀ r' : Rng, ((s.animalAt a).canReproduce r').1 = true) :
    (a, (s.animalAt self).position.distance M (s.animalAt a).position)
      ∈ (Animal.mateCandidates M s self l r).1 := by
  induction l generalizing r with
  | nil => simp at ha
  | cons b l ih =>
    unfold Animal.mateCandidates
    rcases List.mem_cons.mp ha with hab | hal
    · subst hab
      rw [if_pos ⟨hne, hsp, hg⟩, if_pos (hok r)]
      exact List.mem_cons_self _ _
    · split
      · split
        · exact List.mem_cons_of_mem _ (ih _ hal)
        · exact ih _ hal
      · exact ih _ hal

/-- Claim C15: a non-null result `m` of `findMate` is a different animal of
`world.animals` with the same species name and a gender different from the caller's,
for which `canReproduce()` passed in the scan, at a distance strictly below the
caller's vision; no animal that satisfied those conditions in the same scan
(`mateCandidates`) is strictly nearer than `m`, in particular no animal of the
collection that satisfies them whatever the random draw. -/
theorem C15_findMate (M : MathEnv) (s : Sim) (self m : Nat)
    (hm : (Animal.findMate M s self).1 = some m) :
    m ≠ self ∧ m ∈ s.world.animals ∧
    (s.animalAt m).species.name = (s.animalAt self).species.name ∧
    (s.animalAt m).gender ≠ (s.animalAt self).gender ∧
    (∃ r : Rng, r.stream = s.rng.stream ∧ ((s.animalAt m).canReproduce r).1 = true) ∧
    (s.animalAt self).position.distance M (s.animalAt m).position
      < (s.animalAt self).traits.vision ∧
    (∀ c ∈ (Animal.mateCandidates M s self s.world.animals s.rng).1,
      (s.animalAt self).position.distance M (s.animalAt m).position ≤ c.2) ∧
    (∀ a ∈ s.world.animals, a ≠ self →
      (s.animalAt a).species.name = (s.animalAt self).species.name →
      (s.animalAt a).gender ≠ (s.animalAt self).gender →
      (∀ r : Rng, ((s.animalAt a).canReproduce r).1 = true) →
      (s.animalAt self).position.distance M (s.animalAt m).position
        ≤ (s.animalAt self).position.distance M (s.animalAt a).position) := by
  rw [Animal.findMate_eq_scan] at hm
  obtain ⟨_, h2, _, h4⟩ :=
    Animal.scan_inv (Animal.mateCandidates M s self s.world.animals s.rng).1
      (s.animalAt self).traits.vision
  generalize Animal.scan (Animal.mateCandidates M s self s.world.animals s.rng).1
    (none, (s.animalAt self).traits.vision) = res at hm h2 h4
  obtain ⟨i, hi, hv, _⟩ := h4 m hm
  obtain ⟨c1, c2, c3, c4, c5, c6⟩ :=
    Animal.mem_mateCandidates M s self s.world.animals s.rng (m, res.2) (List.getElem?_mem hi)
  simp only at c1 c2 c3 c4 c5 c6
  rw [c6] at hv h2
  refine ⟨c2, c1, c3, c4, c5, hv, h2, ?_⟩
  intro a ha hne hsp hg hok
  exact h2 _ (Animal.mateCandidates_of_eligible M s self s.world.animals s.rng a ha hne hsp hg hok)

/-- Witness of C15: for the female rabbit of `courtshipSim`, `findMate` returns the
male. -/
theorem C15_findMate_witness :
    (Animal.findMate refMath courtshipSim 0).1 = some 1 ∧
    (1 ≠ 0 ∧ 1 ∈ courtshipSim.world.animals ∧
      (courtshipSim.animalAt 1).species.name = (courtshipSim.animalAt 0).species.name ∧
      (courtshipSim.animalAt 1).gender ≠ (courtshipSim.animalAt 0).gender) :=
  have h := C15_findMate refMath courtshipSim 0 1 (by decide!)
  ⟨by decide!, h.1, h.2.1, h.2.2.1, h.2.2.2.1⟩

/-! ## C18, C19, C20: the tick of the world -/

/-- The feeding check calls `tryEat` on `feedingTarget`, if there is one, and runs
`afterMeal` when the call returns true. -/
theorem World.checkFeeding_eq (M : MathEnv) (s : Sim) (animal : Nat) :
    World.checkFeeding M s animal =
      match World.feedingTarget s animal with
      | none => s
      | some target =>
        if (Animal.tryEat M s animal target).2 = true
          then World.afterMeal (Animal.tryEat M s animal target).1 animal
          else (Animal.tryEat M s animal target).1 := by
  unfold World.checkFeeding World.feedingTarget
  cases h : (s.animalAt animal).currentTarget with
  | none => rfl
  | some target =>
    simp only
    split
    · cases target with
      | vegetation veg => rfl
      | animal prey =>
        simp only
        split
        · rfl
        · rfl
    · rfl

/-- What `tryEat` does to the vegetation objects and to the target of the eater. -/
theorem Animal.tryEat_effect (M : MathEnv) (s : Sim) (self : Nat) (t : Target) :
    (Animal.tryEat M s self t).1.world = s.world ∧
    (∀ v, t ≠ Target.vegetation v → (Animal.tryEat M s self t).1.vegAt v = s.vegAt v) ∧
    (∀ v, t = Target.vegetation v →
      ((Animal.tryEat M s self t).1.vegAt v = s.vegAt v ∧
        (Animal.tryEat M s self t).2 = false) ∨
      ((Animal.tryEat M s self t).1.vegAt v = ((s.vegAt v).consume 30).1 ∧
        (Animal.tryEat M s self t).2 = ((s.vegAt v).consume 30).1.isDepleted)) ∧
    ((Animal.tryEat M s self t).2 = true →
      ((Animal.tryEat M s self t).1.animalAt self).currentTarget = some t) := by
  unfold Animal.tryEat
  simp only
  split
  · cases t with
    | vegetation veg =>
      refine ⟨rfl, ?_, ?_, ?_⟩
      · intro v hv
        have : v ≠ veg := fun h => hv (by rw [h])
        simp [Sim.setAnimal, Sim.setVeg, this]
      · intro v hv
        simp only [Target.vegetation.injEq] at hv
        subst hv
        right
        simp [Sim.setAnimal, Sim.setVeg]
      · intro _
        simp [Sim.setAnimal, Sim.setVeg]
    | animal prey =>
      refine ⟨rfl, ?_, ?_, ?_⟩
      · intro v _
        simp [Sim.setAnimal]
      · intro v hv
        simp at hv
      · intro _
        by_cases h : self = prey
        · subst h; simp [Sim.setAnimal]
        · simp [Sim.setAnimal, h]
  · refine ⟨rfl, fun _ _ => rfl, fun _ _ => Or.inl ⟨rfl, rfl⟩, ?_⟩
    intro h
    simp at h

theorem Sim.SameVegClock.trans {s1 s2 s3 : Sim} (h1 : s1.SameVegClock s2)
    (h2 : s2.SameVegClock s3) : s1.SameVegClock s3 :=
  ⟨h2.1.trans h1.1, h2.2.1.trans h1.2.1, h2.2.2.trans h1.2.2⟩

theorem Animal.update_sameVegClock (M : MathEnv) (s : Sim) (self : Nat) (dt : ℚ) :
    s.SameVegClock (Animal.update M s self dt) := by
  obtain ⟨h1, _, h3, _⟩ := Animal.update_effect M s self dt
  exact ⟨h3, by rw [h1], by rw [h1]⟩

theorem Animal.reproduce_vegAt (M : MathEnv) (s : Sim) (self partner : Nat) :
    (Animal.reproduce M s self partner).2.vegAt = s.vegAt := by
  unfold Animal.reproduce
  simp only
  split
  · split
    · simp [Sim.setAnimal]
    · simp
  · simp

theorem World.mateAndReproduce_sameVegClock (M : MathEnv) (s : Sim) (animal : Nat) :
    s.SameVegClock (World.mateAndReproduce M s animal) := by
  unfold World.mateAndReproduce
  have hm := Animal.findMate_state M s animal
  generalize Animal.findMate M s animal = fm at hm ⊢
  obtain ⟨mate, s2⟩ := fm
  simp only at hm
  have h2 : s.SameVegClock s2 := by rw [hm]; exact ⟨rfl, rfl, rfl⟩
  cases mate with
  | none => exact h2
  | some m =>
    show s.SameVegClock (if _ then _ else _)
    split
    · have hr := Animal.reproduce_frame M s2 animal m
      have hv := Animal.reproduce_vegAt M s2 animal m
      generalize Animal.reproduce M s2 animal m = rp at hr hv ⊢
      obtain ⟨offspring, s3⟩ := rp
      have h3 : s2.SameVegClock s3 := ⟨hv, by rw [hr.1], by rw [hr.1]⟩
      cases offspring with
      | none => exact h2.trans h3
      | some child => exact (h2.trans h3).trans ⟨rfl, rfl, rfl⟩
    · exact h2

theorem World.checkReproduction_sameVegClock (M : MathEnv) (s : Sim) (animal : Nat) :
    s.SameVegClock (World.checkReproduction M s animal) := by
  unfold World.checkReproduction
  generalize (s.animalAt animal).canReproduce s.rng = cr
  obtain ⟨ok, r⟩ := cr
  show s.SameVegClock (if _ then _ else _)
  split
  · show s.SameVegClock (if _ then _ else _)
    split
    · exact Sim.SameVegClock.trans ⟨rfl, rfl, rfl⟩
        (World.mateAndReproduce_sameVegClock M _ animal)
    · exact ⟨rfl, rfl, rfl⟩
  · exact ⟨rfl, rfl, rfl⟩

theorem World.removeDead_sameVegClock (s : Sim) (animal i : Nat) :
    s.SameVegClock (World.removeDead s animal i) := by
  unfold World.removeDead
  split
  · exact ⟨rfl, rfl, rfl⟩
  · exact ⟨rfl, rfl, rfl⟩

/-- An invariant of the four steps of the loop body is an invariant of the loop. -/
theorem World.updateAnimals_inv (M : MathEnv) (dt : ℚ) (Inv : Sim → Prop)
    (h1 : ∀ s a, Inv s → Inv (Animal.update M s a dt))
    (h2 : ∀ s a, Inv s → Inv (World.checkFeeding M s a))
    (h3 : ∀ s a, Inv s → Inv (World.checkReproduction M s a))
    (h4 : ∀ s a i, Inv s → Inv (World.removeDead s a i)) :
    ∀ (n : Nat) (s s' : Sim), Inv s → World.updateAnimals M dt n s = some s' → Inv s' := by
  intro n
  induction n with
  | zero =>
    intro s s' hs h
    simp only [World.updateAnimals, Option.some.injEq] at h
    rw [← h]; exact hs
  | succ i ih =>
    intro s s' hs h
    simp only [World.updateAnimals] at h
    cases hb : World.updateAnimal M dt i s with
    | none => rw [hb] at h; simp at h
    | some s1 =>
      rw [hb] at h
      simp only [Option.some_bind] at h
      refine ih s1 s' ?_ h
      unfold World.updateAnimal at hb
      split at hb
      · simp at hb
      · simp only [Option.some.injEq] at hb
        rw [← hb]
        exact h4 _ _ _ (h3 _ _ (h2 _ _ (h1 _ _ hs)))

theorem Animal.mateCandidates_stream (M : MathEnv) (s : Sim) (self : Nat) (l : List Nat)
    (r : Rng) : (Animal.mateCandidates M s self l r).2.stream = r.stream := by
  induction l generalizing r with
  | nil => rfl
  | cons a l ih =>
    unfold Animal.mateCandidates
    split
    · split
      · exact (ih _).trans (Animal.canReproduce_stream _ _)
      · exact (ih _).trans (Animal.canReproduce_stream _ _)
    · exact ih _

theorem Animal.findMate_stream (M : MathEnv) (s : Sim) (self : Nat) :
    (Animal.findMate M s self).2.rng.stream = s.rng.stream := by
  have h := Animal.findMate_fold M s self s.world.animals
    (none, (s.animalAt self).traits.vision) s.rng
  have e : (Animal.findMate M s self).2.rng
      = (Animal.mateCandidates M s self s.world.animals s.rng).2 :=
    congrArg (fun x => x.2) h
  rw [e]
  exact Animal.mateCandidates_stream M s self _ _

theorem Animal.findTarget_stream (M : MathEnv) (s : Sim) (self : Nat) :
    (Animal.findTarget M s self).2.rng.stream = s.rng.stream := by
  unfold Animal.findTarget
  simp only
  split
  · rfl
  · split
    · split
      · exact (Animal.findMate_stream M _ self).trans (Animal.canReproduce_stream _ _)
      · exact Animal.canReproduce_stream _ _
    · exact Animal.canReproduce_stream _ _

theorem Animal.updateDecision_stream (M : MathEnv) (s : Sim) (self : Nat) :
    (Animal.updateDecision M s self).rng.stream = s.rng.stream := by
  unfold Animal.updateDecision
  split
  · have h := Animal.findTarget_stream M s self
    generalize Animal.findTarget M s self = ft at h
    obtain ⟨target, s'⟩ := ft
    cases target with
    | none =>
      simp only [Animal.wander, Sim.setAnimal, Rng.next]
      split <;> exact h
    | some t => exact h
  · rfl

theorem Animal.update_stream (M : MathEnv) (s : Sim) (self : Nat) (dt : ℚ) :
    (Animal.update M s self dt).rng.stream = s.rng.stream :=
  Animal.updateDecision_stream M _ self

theorem Animal.new_stream (M : MathEnv) (x y : ℚ) (species : Species) (gender : Option String)
    (r : Rng) : (Animal.new M x y species gender r).2.stream = r.stream := by
  unfold Animal.new
  cases gender with
  | none => rfl
  | some g =>
    simp only
    split <;> rfl

theorem Animal.reproduce_stream (M : MathEnv) (s : Sim) (self partner : Nat) :
    (Animal.reproduce M s self partner).2.rng.stream = s.rng.stream := by
  unfold Animal.reproduce
  simp only
  split
  · split
    · simp only [Sim.setAnimal, Animal.new_stream, Animal.canReproduce_stream]
    · simp only [Animal.canReproduce_stream]
  · simp only [Animal.canReproduce_stream]

theorem World.mateAndReproduce_stream (M : MathEnv) (s : Sim) (animal : Nat) :
    (World.mateAndReproduce M s animal).rng.stream = s.rng.stream := by
  unfold World.mateAndReproduce
  have hm := Animal.findMate_stream M s animal
  generalize Animal.findMate M s animal = fm at hm ⊢
  obtain ⟨mate, s2⟩ := fm
  cases mate with
  | none => exact hm
  | some m =>
    show (if _ then _ else _ : Sim).rng.stream = _
    split
    · have hr := Animal.reproduce_stream M s2 animal m
      generalize Animal.reproduce M s2 animal m = rp at hr ⊢
      obtain ⟨offspring, s3⟩ := rp
      cases offspring with
      | none => exact hr.trans hm
      | some child => exact hr.trans hm
    · exact hm

theorem World.checkReproduction_stream (M : MathEnv) (s : Sim) (animal : Nat) :
    (World.checkReproduction M s animal).rng.stream = s.rng.stream := by
  unfold World.checkReproduction
  have hc := Animal.canReproduce_stream (s.animalAt animal) s.rng
  generalize (s.animalAt animal).canReproduce s.rng = cr at hc ⊢
  obtain ⟨ok, r⟩ := cr
  show (if _ then _ else _ : Sim).rng.stream = _
  split
  · show (if _ then _ else _ : Sim).rng.stream = _
    split
    · exact (World.mateAndReproduce_stream M _ animal).trans hc
    · exact hc
  · exact hc

/-- Case analysis of the feeding check: no call of `tryEat`, a call that returns
false, or a call that returns true followed by `afterMeal`. -/
theorem World.checkFeeding_cases (M : MathEnv) (s : Sim) (animal : Nat) (P : Sim → Prop)
    (hnone : World.feedingTarget s animal = none → P s)
    (hmiss : ∀ t, World.feedingTarget s animal = some t →
      (Animal.tryEat M s animal t).2 = false → P (Animal.tryEat M s animal t).1)
    (hmeal : ∀ t, World.feedingTarget s animal = some t →
      (Animal.tryEat M s animal t).2 = true →
      P (World.afterMeal (Animal.tryEat M s animal t).1 animal)) :
    P (World.checkFeeding M s animal) := by
  rw [World.checkFeeding_eq]
  cases h : World.feedingTarget s animal with
  | none => exact hnone h
  | some t =>
    show P (if _ then _ else _)
    split
    · rename_i ht
      exact hmeal t h ht
    · rename_i ht
      exact hmiss t h (by simpa using ht)

/-- What `afterMeal` does when the animal's target is the vegetation `veg`. -/
theorem World.afterMeal_vegetation (s : Sim) (animal veg : Nat)
    (h : (s.animalAt animal).currentTarget = some (Target.vegetation veg)) :
    (World.afterMeal s animal).vegAt = s.vegAt ∧
    (World.afterMeal s animal).world.vegetation
      = s.world.vegetation.filter (fun v => decide (v ≠ veg)) ∧
    (World.afterMeal s animal).world.time = s.world.time ∧
    (World.afterMeal s animal).rng = s.rng ∧
    ((World.afterMeal s animal).animalAt animal).currentBehavior = Behavior.wandering ∧
    ((World.afterMeal s animal).animalAt animal).currentTarget = none := by
  unfold World.afterMeal
  rw [h]
  simp [Sim.setAnimal]

/-- What `afterMeal` does when the animal's target is the animal `prey`. -/
theorem World.afterMeal_animal (s : Sim) (animal prey : Nat)
    (h : (s.animalAt animal).currentTarget = some (Target.animal prey)) :
    (World.afterMeal s animal).vegAt = s.vegAt ∧
    (World.afterMeal s animal).world.vegetation = s.world.vegetation ∧
    (World.afterMeal s animal).world.time = s.world.time ∧
    (World.afterMeal s animal).rng = s.rng := by
  unfold World.afterMeal
  rw [h]
  simp [Sim.setAnimal]

theorem Animal.tryEat_rng (M : MathEnv) (s : Sim) (self : Nat) (t : Target) :
    (Animal.tryEat M s self t).1.rng = s.rng := by
  unfold Animal.tryEat
  simp only
  split
  · cases t <;> rfl
  · rfl

/-- The feeding check keeps the clock and the generator, and the vegetation
collection either stays or loses the occurrences of one vegetation. -/
theorem World.checkFeeding_frame (M : MathEnv) (s : Sim) (animal : Nat) :
    (World.checkFeeding M s animal).world.time = s.world.time ∧
    (World.checkFeeding M s animal).rng = s.rng ∧
    ((World.checkFeeding M s animal).world.vegetation = s.world.vegetation ∨
      ∃ veg, (World.checkFeeding M s animal).world.vegetation
        = s.world.vegetation.filter (fun v => decide (v ≠ veg))) := by
  refine World.checkFeeding_cases M s animal
    (fun s' => s'.world.time = s.world.time ∧ s'.rng = s.rng ∧
      (s'.world.vegetation = s.world.vegetation ∨
        ∃ veg, s'.world.vegetation = s.world.vegetation.filter (fun v => decide (v ≠ veg))))
    ?_ ?_ ?_
  · intro _
    exact ⟨rfl, rfl, Or.inl rfl⟩
  · intro t _ _
    have h := (Animal.tryEat_effect M s animal t).1
    exact ⟨by rw [h], Animal.tryEat_rng M s animal t, Or.inl (by rw [h])⟩
  · intro t _ hate
    obtain ⟨hw, _, _, hct⟩ := Animal.tryEat_effect M s animal t
    have hr := Animal.tryEat_rng M s animal t
    cases t with
    | vegetation veg =>
      obtain ⟨_, a2, a3, a4, _⟩ := World.afterMeal_vegetation _ animal veg (hct hate)
      exact ⟨by rw [a3, hw], by rw [a4, hr], Or.inr ⟨veg, by rw [a2, hw]⟩⟩
    | animal prey =>
      obtain ⟨_, a2, a3, a4⟩ := World.afterMeal_animal _ animal prey (hct hate)
      exact ⟨by rw [a3, hw], by rw [a4, hr], Or.inl (by rw [a2, hw])⟩

theorem Rng.InUnit.of_stream {r r' : Rng} (h : r.InUnit) (e : r'.stream = r.stream) :
    r'.InUnit := by
  intro n
  rw [e]
  exact h n

theorem Sim.VegetationAlive.of_same {s s' : Sim} (h : s.VegetationAlive)
    (e : s.SameVegClock s') : s'.VegetationAlive := by
  intro v hv
  rw [e.2.1] at hv
  rw [e.1]
  exact h v hv

/-- The feeding check keeps every vegetation of the collection alive: a vegetation
that is eaten down to `energy ≤ 0` leaves the collection. -/
theorem World.checkFeeding_alive (M : MathEnv) (s : Sim) (animal : Nat)
    (h : s.VegetationAlive) : (World.checkFeeding M s animal).VegetationAlive := by
  refine World.checkFeeding_cases M s animal (fun s' => s'.VegetationAlive) ?_ ?_ ?_
  · intro _; exact h
  · intro t _ hmiss
    obtain ⟨hw, hother, hveg, _⟩ := Animal.tryEat_effect M s animal t
    intro v hv
    rw [hw] at hv
    by_cases ht : t = Target.vegetation v
    · rcases hveg v ht with ⟨e, _⟩ | ⟨e, hret⟩
      · rw [e]; exact h v hv
      · rw [e]
        rw [hmiss] at hret
        have hnd : ¬ ((s.vegAt v).consume 30).1.energy ≤ 0 := by
          intro hle
          have : ((s.vegAt v).consume 30).1.isDepleted = true := by
            simp [Vegetation.isDepleted, hle]
          rw [this] at hret
          exact Bool.noConfusion hret
        exact ⟨not_le.mp hnd, (h v hv).2⟩
    · rw [hother v ht]; exact h v hv
  · intro t _ hate
    obtain ⟨hw, hother, _, hct⟩ := Animal.tryEat_effect M s animal t
    cases t with
    | vegetation veg =>
      obtain ⟨a1, a2, _⟩ := World.afterMeal_vegetation _ animal veg (hct hate)
      intro v hv
      rw [a2, hw, List.mem_filter, decide_eq_true_eq] at hv
      rw [a1, hother v (by intro e; exact hv.2 (Target.vegetation.inj e).symm)]
      exact h v hv.1
    | animal prey =>
      obtain ⟨a1, a2, _⟩ := World.afterMeal_animal _ animal prey (hct hate)
      intro v hv
      rw [a2, hw] at hv
      rw [a1, hother v (by intro e; exact Target.noConfusion e)]
      exact h v hv

theorem Vegetation.grow_alive (v : Vegetation) (h : 0 < v.energy ∧ 0 ≤ v.growthRate) :
    0 < v.grow.energy ∧ 0 ≤ v.grow.growthRate := by
  unfold Vegetation.grow
  split
  · exact ⟨by simp only; linarith [h.1, h.2], h.2⟩
  · exact h

theorem World.growVegetation_alive (s : Sim) (h : s.VegetationAlive) :
    (World.growVegetation s).VegetationAlive ∧ (World.growVegetation s).rng = s.rng := by
  unfold World.growVegetation
  have key : ∀ (l : List Nat) (s0 : Sim), (∀ x ∈ l, x ∈ s.world.vegetation) →
      s0.world = s.world →
      (∀ v ∈ s.world.vegetation, 0 < (s0.vegAt v).energy ∧ 0 ≤ (s0.vegAt v).growthRate) →
      (l.foldl (fun s veg => s.setVeg veg (s.vegAt veg).grow) s0).VegetationAlive ∧
      (l.foldl (fun s veg => s.setVeg veg (s.vegAt veg).grow) s0).rng = s0.rng := by
    intro l
    induction l with
    | nil =>
      intro s0 _ hw hq
      refine ⟨?_, rfl⟩
      intro v hv
      rw [List.foldl_nil, hw] at hv
      exact hq v hv
    | cons a l ih =>
      intro s0 hl hw hq
      rw [List.foldl_cons]
      refine ih (s0.setVeg a (s0.vegAt a).grow) (fun x hx => hl x (List.mem_cons_of_mem _ hx))
        hw ?_
      intro v hv
      show 0 < (if v = a then _ else _ : Vegetation).energy ∧
        0 ≤ (if v = a then _ else _ : Vegetation).growthRate
      split
      · exact Vegetation.grow_alive _ (hq a (hl a (List.mem_cons_self _ _)))
      · exact hq v hv
  exact key s.world.vegetation s (fun _ hx => hx) rfl h

theorem World.spawnVegetation_alive (s : Sim) (h : s.VegetationAlive) (hr : s.rng.InUnit) :
    (World.spawnVegetation s).VegetationAlive := by
  unfold World.spawnVegetation
  split
  · show (if _ then _ else _ : Sim).VegetationAlive
    split
    · intro v hv
      have hv' : v ∈ s.world.vegetation ++ [s.nextId] := hv
      show 0 < (if v = s.nextId then _ else _ : Vegetation).energy ∧
        0 ≤ (if v = s.nextId then _ else _ : Vegetation).growthRate
      split
      · have hu := (hr (s.rng.pos + 1 + 1 + 1)).1
        refine ⟨?_, ?_⟩
        · show 0 < 20 + s.rng.stream (s.rng.pos + 1 + 1 + 1) * 30
          linarith
        · show (0 : ℚ) ≤ 0.05
          norm_num
      · rename_i hne
        rcases List.mem_append.mp hv' with h1 | h1
        · exact h v h1
        · simp only [List.mem_singleton] at h1
          exact absurd h1 hne
    · exact h
  · exact h

theorem World.removeDead_rng (s : Sim) (animal i : Nat) :
    (World.removeDead s animal i).rng = s.rng := by
  unfold World.removeDead
  split <;> rfl

/-- The loop of `update` keeps every vegetation of the collection alive. -/
theorem World.updateAnimals_alive (M : MathEnv) (dt : ℚ) (n : Nat) (s s' : Sim)
    (h : s.VegetationAlive) (hr : s.rng.InUnit)
    (hs : World.updateAnimals M dt n s = some s') :
    s'.VegetationAlive ∧ s'.rng.InUnit := by
  refine World.updateAnimals_inv M dt (fun s => s.VegetationAlive ∧ s.rng.InUnit)
    ?_ ?_ ?_ ?_ n s s' ⟨h, hr⟩ hs
  · intro s a hi
    exact ⟨hi.1.of_same (Animal.update_sameVegClock M s a dt),
      hi.2.of_stream (Animal.update_stream M s a dt)⟩
  · intro s a hi
    exact ⟨World.checkFeeding_alive M s a hi.1,
      hi.2.of_stream (by rw [(World.checkFeeding_frame M s a).2.1])⟩
  · intro s a hi
    exact ⟨hi.1.of_same (World.checkReproduction_sameVegClock M s a),
      hi.2.of_stream (World.checkReproduction_stream M s a)⟩
  · intro s a i hi
    exact ⟨hi.1.of_same (World.removeDead_sameVegClock s a i),
      hi.2.of_stream (by rw [World.removeDead_rng])⟩

/-- The result of an unpaused `update` is the result of the loop followed by the
growth and the spawn of vegetation. -/
theorem World.update_unpaused (M : MathEnv) (s : Sim) (deltaTime : ℚ)
    (hp : s.world.paused = false) :
    World.update M s deltaTime =
      (World.updateAnimals M (deltaTime * s.world.speed) s.world.animals.length
        { s with world := { s.world with time := s.world.time + deltaTime * s.world.speed } }).map
        (fun s => World.spawnVegetation (World.growVegetation s)) := by
  unfold World.update
  rw [if_neg (by rw [hp]; exact Bool.false_ne_true)]

/-- Claim C18: if every vegetation of the world has `energy > 0` before a tick, then
every vegetation of the world has `energy > 0` after it (the state is well formed, the
growth rates are not negative and the random draws lie in `[0, 1)`, as for every
vegetation the constructor builds).  In the feeding check, when `tryEat` on a
vegetation target returns true the vegetation has `energy ≤ 0`, it is no longer in the
collection after the check, and the eater is `wandering` with a null target; when it
returns false the vegetation collection is unchanged. -/
theorem C18_vegetation_alive (M : MathEnv) (s : Sim) (deltaTime : ℚ) (hwf : s.WF)
    (hr : s.rng.InUnit)
    (hpos : ∀ v ∈ s.world.vegetation, 0 < (s.vegAt v).energy)
    (hrate : ∀ v ∈ s.world.vegetation, 0 ≤ (s.vegAt v).growthRate) :
    (∃ s', World.update M s deltaTime = some s' ∧
      ∀ v ∈ s'.world.vegetation, 0 < (s'.vegAt v).energy) ∧
    (∀ (s0 : Sim) (animal veg : Nat),
      World.feedingTarget s0 animal = some (Target.vegetation veg) →
      ((Animal.tryEat M s0 animal (Target.vegetation veg)).2 = true →
        ((Animal.tryEat M s0 animal (Target.vegetation veg)).1.vegAt veg).energy ≤ 0 ∧
        veg ∉ (World.checkFeeding M s0 animal).world.vegetation ∧
        ((World.checkFeeding M s0 animal).animalAt animal).currentBehavior
          = Behavior.wandering ∧
        ((World.checkFeeding M s0 animal).animalAt animal).currentTarget = none) ∧
      ((Animal.tryEat M s0 animal (Target.vegetation veg)).2 = false →
        (World.checkFeeding M s0 animal).world.vegetation = s0.world.vegetation)) := by
  have halive : s.VegetationAlive := fun v hv => ⟨hpos v hv, hrate v hv⟩
  constructor
  · by_cases hp : s.world.paused = true
    · refine ⟨s, ?_, hpos⟩
      unfold World.update
      rw [if_pos hp]
    · have hp' : s.world.paused = false := by simpa using hp
      rw [World.update_unpaused M s deltaTime hp']
      obtain ⟨s1, e1, _⟩ := World.updateAnimals_total M (deltaTime * s.world.speed)
        s.world.animals.length
        { s with world := { s.world with time := s.world.time + deltaTime * s.world.speed } }
        hwf (le_refl _)
      have halive' : ({ s with world :=
          { s.world with time := s.world.time + deltaTime * s.world.speed } } : Sim).VegetationAlive :=
        halive
      obtain ⟨a1, r1⟩ := World.updateAnimals_alive M _ _ _ s1 halive' hr e1
      obtain ⟨a2, r2⟩ := World.growVegetation_alive s1 a1
      have a3 := World.spawnVegetation_alive _ a2 (r1.of_stream (by rw [r2]))
      refine ⟨World.spawnVegetation (World.growVegetation s1), ?_, fun v hv => (a3 v hv).1⟩
      rw [e1]
      rfl
  · intro s0 animal veg hft
    obtain ⟨hw, _, hveg, hct⟩ := Animal.tryEat_effect M s0 animal (Target.vegetation veg)
    rw [World.checkFeeding_eq, hft]
    constructor
    · intro hate
      simp only [hate, if_true]
      obtain ⟨_, a2, _, _, a5, a6⟩ := World.afterMeal_vegetation _ animal veg (hct hate)
      refine ⟨?_, ?_, a5, a6⟩
      · rcases hveg veg rfl with ⟨_, hf⟩ | ⟨e, hret⟩
        · rw [hf] at hate; exact Bool.noConfusion hate
        · rw [e]
          rw [hate] at hret
          simpa [Vegetation.isDepleted] using hret.symm
      · rw [a2]
        intro hmem
        rw [List.mem_filter, decide_eq_true_eq] at hmem
        exact hmem.2 rfl
    · intro hmiss
      simp only [hmiss, Bool.false_eq_true, if_false]
      rw [hw]

theorem World.addAnimals_world (M : MathEnv) (species : Species) (count : Nat) (s : Sim) :
    (World.addAnimals M species count s).world.vegetation = s.world.vegetation ∧
    (World.addAnimals M species count s).world.enabledSpecies = s.world.enabledSpecies := by
  induction count generalizing s with
  | zero => exact ⟨rfl, rfl⟩
  | succ n ih =>
    unfold World.addAnimals
    exact ⟨(ih _).1.trans rfl, (ih _).2.trans rfl⟩

theorem World.addVegetations_length (count : Nat) (s : Sim) :
    (World.addVegetations count s).world.vegetation.length
        = s.world.vegetation.length + count ∧
    (World.addVegetations count s).world.enabledSpecies = s.world.enabledSpecies := by
  induction count generalizing s with
  | zero => exact ⟨rfl, rfl⟩
  | succ n ih =>
    unfold World.addVegetations
    refine ⟨?_, (ih _).2.trans rfl⟩
    rw [(ih _).1]
    show (s.world.vegetation ++ [s.nextId]).length + n = _
    rw [List.length_append, List.length_singleton]
    omega

/-- `initialize` pushes exactly 150 vegetation. -/
theorem World.initialize_vegetation_length (M : MathEnv) (s : Sim) :
    ( World.initialize M s).world.vegetation.length = s.world.vegetation.length + 150 := by
  unfold World.initialize
  simp only
  have h0 := World.addVegetations_length 150 s
  generalize World.addVegetations 150 s = s0 at h0 ⊢
  rw [← h0.1]
  have step : ∀ (sp : Species) (n : Nat) (b : Bool) (t : Sim),
      (if b = true then World.addAnimals M sp n t else t).world.vegetation = t.world.vegetation ∧
      (if b = true then World.addAnimals M sp n t else t).world.enabledSpecies
        = t.world.enabledSpecies := by
    intro sp n b t
    split
    · exact World.addAnimals_world M sp n t
    · exact ⟨rfl, rfl⟩
  rw [(step _ _ _ _).1, (step _ _ _ _).1, (step _ _ _ _).1, (step _ _ _ _).1,
    (step _ _ _ _).1]

/-- After `reset` the world has exactly 150 vegetation. -/
theorem World.reset_vegetation_length (M : MathEnv) (s : Sim) :
    ( World.reset M s).world.vegetation.length = 150 := by
  unfold World.reset
  rw [World.initialize_vegetation_length]
  rfl

theorem World.growVegetation_rng (s : Sim) : (World.growVegetation s).rng = s.rng := by
  unfold World.growVegetation
  generalize s.world.vegetation = l
  induction l generalizing s with
  | nil => rfl
  | cons v l ih =>
    rw [List.foldl_cons]
    exact ih (s.setVeg v (s.vegAt v).grow)

/-- The spawn adds one vegetation exactly when there are fewer than 200 and the draw
is below 0.05; it keeps the clock. -/
theorem World.spawnVegetation_length (s : Sim) :
    (World.spawnVegetation s).world.vegetation.length
      = (if s.world.vegetation.length < 200 ∧ s.rng.stream s.rng.pos < 0.05
          then s.world.vegetation.length + 1 else s.world.vegetation.length) ∧
    (World.spawnVegetation s).world.time = s.world.time := by
  unfold World.spawnVegetation
  split
  · rename_i hlen
    show (if _ then _ else _ : Sim).world.vegetation.length = _ ∧
      (if _ then _ else _ : Sim).world.time = _
    split
    · rename_i hdraw
      have hc : s.world.vegetation.length < 200 ∧ s.rng.stream s.rng.pos < 0.05 :=
        ⟨hlen, hdraw⟩
      rw [if_pos hc]
      refine ⟨?_, rfl⟩
      show (s.world.vegetation ++ [s.nextId]).length = _
      rw [List.length_append, List.length_singleton]
    · rename_i hdraw
      have hc : ¬ (s.world.vegetation.length < 200 ∧ s.rng.stream s.rng.pos < 0.05) :=
        fun h => hdraw h.2
      rw [if_neg hc]
      exact ⟨rfl, rfl⟩
  · rename_i hlen
    have hc : ¬ (s.world.vegetation.length < 200 ∧ s.rng.stream s.rng.pos < 0.05) :=
      fun h => hlen h.1
    rw [if_neg hc]
    exact ⟨rfl, rfl⟩

/-- The loop of `update` keeps the clock and never adds vegetation. -/
theorem World.updateAnimals_clock (M : MathEnv) (dt : ℚ) (n : Nat) (s s' : Sim)
    (hs : World.updateAnimals M dt n s = some s') :
    s'.world.time = s.world.time ∧
    s'.world.vegetation.length ≤ s.world.vegetation.length := by
  refine World.updateAnimals_inv M dt
    (fun t => t.world.time = s.world.time ∧
      t.world.vegetation.length ≤ s.world.vegetation.length)
    ?_ ?_ ?_ ?_ n s s' ⟨rfl, le_refl _⟩ hs
  · intro t a hi
    obtain ⟨_, h2, h3⟩ := Animal.update_sameVegClock M t a dt
    exact ⟨h3.trans hi.1, by rw [h2]; exact hi.2⟩
  · intro t a hi
    obtain ⟨h1, _, h3⟩ := World.checkFeeding_frame M t a
    refine ⟨h1.trans hi.1, ?_⟩
    rcases h3 with e | ⟨veg, e⟩
    · rw [e]; exact hi.2
    · rw [e]; exact le_trans (List.length_filter_le _ _) hi.2
  · intro t a hi
    obtain ⟨_, h2, h3⟩ := World.checkReproduction_sameVegClock M t a
    exact ⟨h3.trans hi.1, by rw [h2]; exact hi.2⟩
  · intro t a i hi
    obtain ⟨_, h2, h3⟩ := World.removeDead_sameVegClock t a i
    exact ⟨h3.trans hi.1, by rw [h2]; exact hi.2⟩

/-- The parts of an unpaused tick: the loop does not throw on a well-formed state
and gives the state `s1`, and `update` returns the state after growth and spawn. -/
theorem World.update_parts (M : MathEnv) (s : Sim) (deltaTime : ℚ) (hwf : s.WF)
    (hp : s.world.paused = false) :
    ∃ s1, World.updateAnimals M (deltaTime * s.world.speed) s.world.animals.length
        (World.tickStart s deltaTime) = some s1 ∧
      World.update M s deltaTime
        = some (World.spawnVegetation (World.growVegetation s1)) := by
  obtain ⟨s1, e1, _⟩ := World.updateAnimals_total M (deltaTime * s.world.speed)
    s.world.animals.length (World.tickStart s deltaTime) hwf (le_refl _)
  refine ⟨s1, e1, ?_⟩
  rw [World.update_unpaused M s deltaTime hp]
  show Option.map _ (World.updateAnimals M (deltaTime * s.world.speed) s.world.animals.length
    (World.tickStart s deltaTime)) = _
  rw [e1]
  rfl

theorem meadowSim_wf : meadowSim.WF := by
  unfold Sim.WF
  decide!

/-- Witness of C18: in `meadowSim` both vegetation have positive energy; the tick does
not throw and leaves only vegetation with positive energy. -/
theorem C18_vegetation_alive_witness :
    meadowSim.WF ∧ meadowSim.rng.InUnit ∧
    (∀ v ∈ meadowSim.world.vegetation, 0 < (meadowSim.vegAt v).energy) ∧
    (∀ v ∈ meadowSim.world.vegetation, 0 ≤ (meadowSim.vegAt v).growthRate) ∧
    ∃ s', World.update refMath meadowSim (1 / 20) = some s' ∧
      ∀ v ∈ s'.world.vegetation, 0 < (s'.vegAt v).energy :=
  have hr : meadowSim.rng.InUnit := fun _ => ⟨by norm_num [meadowSim, rngHalf], by norm_num [meadowSim, rngHalf]⟩
  ⟨meadowSim_wf, hr, by decide!, by decide!,
    (C18_vegetation_alive refMath meadowSim (1 / 20) meadowSim_wf hr (by decide!)
      (by decide!)).1⟩

/-- Claim C19: a tick increases the vegetation count by at most one, and only when
the count after the animal loop (after feeding) is below 200 and the spawn draw is
below 0.05; a world with at most 200 vegetation has at most 200 after the tick; after
`reset`, whose `initialize` pushes 150 vegetation, the count is 150. -/
theorem C19_vegetation_count (M : MathEnv) (s : Sim) (deltaTime : ℚ) (hwf : s.WF) :
    (∃ s', World.update M s deltaTime = some s' ∧
      s'.world.vegetation.length ≤ s.world.vegetation.length + 1 ∧
      (s.world.vegetation.length ≤ 200 → s'.world.vegetation.length ≤ 200)) ∧
    (s.world.paused = false →
      ∃ s1 s', World.updateAnimals M (deltaTime * s.world.speed) s.world.animals.length
          (World.tickStart s deltaTime) = some s1 ∧
        World.update M s deltaTime = some s' ∧
        s1.world.vegetation.length ≤ s.world.vegetation.length ∧
        s'.world.vegetation.length
          = (if s1.world.vegetation.length < 200 ∧ s1.rng.stream s1.rng.pos < 0.05
              then s1.world.vegetation.length + 1 else s1.world.vegetation.length) ∧
        (s.world.vegetation.length < s'.world.vegetation.length →
          s1.world.vegetation.length < 200 ∧ s1.rng.stream s1.rng.pos < 0.05)) ∧
    (∀ s0 : Sim, ( World.reset M s0).world.vegetation.length = 150) := by
  have hun : s.world.paused = false →
      ∃ s1 s', World.updateAnimals M (deltaTime * s.world.speed) s.world.animals.length
          (World.tickStart s deltaTime) = some s1 ∧
        World.update M s deltaTime = some s' ∧
        s1.world.vegetation.length ≤ s.world.vegetation.length ∧
        s'.world.vegetation.length
          = (if s1.world.vegetation.length < 200 ∧ s1.rng.stream s1.rng.pos < 0.05
              then s1.world.vegetation.length + 1 else s1.world.vegetation.length) ∧
        (s.world.vegetation.length < s'.world.vegetation.length →
          s1.world.vegetation.length < 200 ∧ s1.rng.stream s1.rng.pos < 0.05) := by
    intro hp
    obtain ⟨s1, e1, e2⟩ := World.update_parts M s deltaTime hwf hp
    have hl : s1.world.vegetation.length ≤ s.world.vegetation.length :=
      (World.updateAnimals_clock M _ _ _ s1 e1).2
    have hsp := (World.spawnVegetation_length (World.growVegetation s1)).1
    rw [(World.growVegetation_frame s1).1, World.growVegetation_rng s1] at hsp
    refine ⟨s1, _, e1, e2, hl, hsp, ?_⟩
    intro hlt
    rw [hsp] at hlt
    by_contra hc
    rw [if_neg hc] at hlt
    omega
  refine ⟨?_, hun, fun s0 => World.reset_vegetation_length M s0⟩
  by_cases hp : s.world.paused = true
  · refine ⟨s, ?_, by omega, fun h => h⟩
    unfold World.update
    rw [if_pos hp]
  · obtain ⟨s1, s', _, e2, hl, hsp, _⟩ := hun (by simpa using hp)
    refine ⟨s', e2, ?_, ?_⟩
    · rw [hsp]; split <;> omega
    · intro h200
      rw [hsp]; split
      · rename_i hc; omega
      · omega

/-- Witness of C19: `meadowSim` is well formed; its tick ends with one vegetation
(the rabbit eats up the other one). -/
theorem C19_vegetation_count_witness :
    meadowSim.WF ∧
    ∃ s', World.update refMath meadowSim (1 / 20) = some s' ∧
      s'.world.vegetation.length ≤ meadowSim.world.vegetation.length + 1 ∧
      (meadowSim.world.vegetation.length ≤ 200 → s'.world.vegetation.length ≤ 200) :=
  ⟨meadowSim_wf, (C19_vegetation_count refMath meadowSim (1 / 20) meadowSim_wf).1⟩

/-- Claim C20: with `paused = true`, `update` changes nothing: the whole program
state (clock, collections, every animal and vegetation, and the position of the
random generator) is returned as it was; with `paused = false` the clock advances by
exactly `deltaTime * speed`, and on a well-formed state the tick does return. -/
theorem C20_pause_and_clock (M : MathEnv) (s : Sim) (deltaTime : ℚ) :
    (s.world.paused = true → World.update M s deltaTime = some s) ∧
    (s.world.paused = false → ∀ s', World.update M s deltaTime = some s' →
      s'.world.time = s.world.time + deltaTime * s.world.speed) ∧
    (s.world.paused = false → s.WF →
      ∃ s', World.update M s deltaTime = some s' ∧
        s'.world.time = s.world.time + deltaTime * s.world.speed) := by
  have key : s.world.paused = false → ∀ s', World.update M s deltaTime = some s' →
      s'.world.time = s.world.time + deltaTime * s.world.speed := by
    intro hp s' hs
    rw [World.update_unpaused M s deltaTime hp] at hs
    cases h1 : World.updateAnimals M (deltaTime * s.world.speed) s.world.animals.length
        { s with world := { s.world with time := s.world.time + deltaTime * s.world.speed } } with
    | none => rw [h1] at hs; exact Option.noConfusion hs
    | some s1 =>
      rw [h1] at hs
      simp only [Option.map_some', Option.some.injEq] at hs
      rw [← hs, (World.spawnVegetation_length _).2, (World.growVegetation_frame s1).1,
        (World.updateAnimals_clock M _ _ _ s1 h1).1]
  refine ⟨?_, key, ?_⟩
  · intro hp
    unfold World.update
    rw [if_pos hp]
  · intro hp hwf
    obtain ⟨s', hs, _⟩ := World.update_total M s deltaTime hwf
    exact ⟨s', hs, key hp s' hs⟩

/-- Witness of C20: the paused world is returned unchanged, and the running one
advances its clock by `0.05 * 1`. -/
theorem C20_pause_and_clock_witness :
    World.update refMath pausedSim (1 / 20) = some pausedSim ∧
    ∃ s', World.update refMath meadowSim (1 / 20) = some s' ∧
      s'.world.time = meadowSim.world.time + 1 / 20 * meadowSim.world.speed :=
  ⟨(C20_pause_and_clock refMath pausedSim (1 / 20)).1 (by decide!),
   (C20_pause_and_clock refMath meadowSim (1 / 20)).2.2 (by decide!) meadowSim_wf⟩

/-! ## C17: the target of the feeding check -/

/-- The target of the decision step of an animal that is not eating is the result of
`findTarget`. -/
theorem Animal.updateDecision_target (M : MathEnv) (s : Sim) (self : Nat)
    (h : (s.animalAt self).currentBehavior ≠ Behavior.eating) :
    ((Animal.updateDecision M s self).animalAt self).currentTarget
      = (Animal.findTarget M s self).1 := by
  unfold Animal.updateDecision
  rw [if_pos h]
  generalize Animal.findTarget M s self = ft
  obtain ⟨target, s'⟩ := ft
  cases target with
  | none =>
    simp only [Animal.wander, Sim.setAnimal, Rng.next]
    split <;> simp
  | some t =>
    cases t <;> simp [Animal.moveTowards, Sim.setAnimal]

/-- The decision step of an animal that is eating does nothing. -/
theorem Animal.updateDecision_eating (M : MathEnv) (s : Sim) (self : Nat)
    (h : (s.animalAt self).currentBehavior = Behavior.eating) :
    Animal.updateDecision M s self = s := by
  unfold Animal.updateDecision
  rw [if_neg (by rw [h]; exact fun hne => hne rfl)]

/-- A result of `findFood` is a member of the vegetation or of the animal
collection, and it is not the animal itself. -/
theorem Animal.findFood_mem (M : MathEnv) (s : Sim) (self : Nat) (t : Target)
    (h : Animal.findFood M s self = some t) :
    (∀ v, t = Target.vegetation v → v ∈ s.world.vegetation) ∧
    (∀ p, t = Target.animal p → p ∈ s.world.animals ∧ p ≠ self) := by
  rw [Animal.findFood_eq_scan] at h
  obtain ⟨i, hi, _⟩ :=
    (Animal.scan_inv (Animal.foodCandidates M s self) (s.animalAt self).traits.vision).2.2.2 t h
  have hm := (Animal.mem_foodCandidates M s self _).mp (List.getElem?_mem hi)
  constructor
  · intro v hv
    rcases hm with ⟨_, veg, hveg, e⟩ | ⟨_, animal, _, _, _, e⟩
    · rw [hv] at e
      have := (Prod.mk.inj e).1
      rw [Target.vegetation.inj this]; exact hveg
    · rw [hv] at e
      exact Target.noConfusion (Prod.mk.inj e).1
  · intro p hp
    rcases hm with ⟨_, veg, _, e⟩ | ⟨_, animal, ha, hne, _, e⟩
    · rw [hp] at e
      exact Target.noConfusion (Prod.mk.inj e).1
    · rw [hp] at e
      have := Target.animal.inj (Prod.mk.inj e).1
      rw [this]; exact ⟨ha, hne⟩

theorem Animal.updateMetabolism_behavior (a : Animal) (dt : ℚ) :
    (a.updateMetabolism dt).currentBehavior = a.currentBehavior ∧
    (a.updateMetabolism dt).currentTarget = a.currentTarget := by
  constructor
  · unfold Animal.updateMetabolism
    simp only
    split_ifs <;> rfl
  · unfold Animal.updateMetabolism
    simp only
    split_ifs <;> rfl

/-- The target of `this` after `update`: the result of `findTarget` in the state
after the first part of `update`, unless the animal was eating, in which case the
target is kept. -/
theorem Animal.update_target (M : MathEnv) (s : Sim) (self : Nat) (dt : ℚ) :
    ((s.animalAt self).currentBehavior ≠ Behavior.eating →
      ((Animal.update M s self dt).animalAt self).currentTarget
        = (Animal.findTarget M
            (s.setAnimal self ((s.animalAt self).updateMetabolism dt)) self).1) ∧
    ((s.animalAt self).currentBehavior = Behavior.eating →
      ((Animal.update M s self dt).animalAt self).currentTarget
        = (s.animalAt self).currentTarget ∧
      ((Animal.update M s self dt).animalAt self).currentBehavior = Behavior.eating) := by
  obtain ⟨_, _, _, _, _, he⟩ := Animal.update_effect M s self dt
  have hset : (s.setAnimal self ((s.animalAt self).updateMetabolism dt)).animalAt self
      = (s.animalAt self).updateMetabolism dt := by
    show (if self = self then _ else _) = _
    rw [if_pos rfl]
  obtain ⟨hb, ht⟩ := Animal.updateMetabolism_behavior (s.animalAt self) dt
  have e1 := congrArg Animal.currentTarget
    (Animal.updatePosition_body M s.world.width s.world.height
      (Animal.beforeMove M s self dt) dt)
  have e2 := congrArg Animal.currentBehavior
    (Animal.updatePosition_body M s.world.width s.world.height
      (Animal.beforeMove M s self dt) dt)
  rw [he]
  constructor
  · intro h
    refine Eq.trans e1 ?_
    unfold Animal.beforeMove
    apply Animal.updateDecision_target
    rw [hset, hb]
    exact h
  · intro h
    have hd := Animal.updateDecision_eating M
      (s.setAnimal self ((s.animalAt self).updateMetabolism dt)) self
      (by rw [hset, hb]; exact h)
    have hbm : Animal.beforeMove M s self dt = (s.animalAt self).updateMetabolism dt := by
      unfold Animal.beforeMove
      rw [hd, hset]
    constructor
    · refine Eq.trans e1 ?_
      rw [hbm, ht]
    · refine Eq.trans e2 ?_
      rw [hbm, hb]
      exact h

/-- Claim C17, evaluated on the code: the feeding check calls `tryEat` on a vegetation
that is no longer in the world.  In `sharedMealSim` the first tick steps deer 1, which
walks to (102.5, 100), bites 30 off the vegetation and stays `eating`, then deer 0, which
walks to (106.5, 100) and eats the remaining 20; the vegetation is filtered out and the
collection is empty.  In the second tick deer 1 is stepped first: `update` skips the
decision of an `eating` animal, the feeding check finds the kept target valid (it only
tests the kind of the target), and `tryEat` is called on the removed vegetation, returns
true and resets the deer; after the second tick deer 1 is `wandering` without target.
The runs call `sqrt` at 100, 225/4, 36, 49/4 and 25 and `atan2` at `(0, 50)`, where
`refMath` is exact. -/
theorem C17_stale_target_counterexample :
    (World.update refMath sharedMealSim (1 / 20)).map
        (fun s => (s.world.animals, s.world.vegetation, (s.animalAt 1).currentBehavior))
      = some ([0, 1], [], Behavior.eating) ∧
    (World.update refMath sharedMealSim (1 / 20)).map
        (fun s => World.feedingTarget
          (Animal.update refMath (World.tickStart s (1 / 20)) 1 (1 / 20)) 1)
      = some (some (Target.vegetation 0)) ∧
    (World.update refMath sharedMealSim (1 / 20)).map
        (fun s => (Animal.update refMath (World.tickStart s (1 / 20)) 1 (1 / 20)).world.vegetation)
      = some [] ∧
    (World.update refMath sharedMealSim (1 / 20)).map
        (fun s => (Animal.tryEat refMath
          (Animal.update refMath (World.tickStart s (1 / 20)) 1 (1 / 20)) 1
          (Target.vegetation 0)).2)
      = some true ∧
    ((World.update refMath sharedMealSim (1 / 20)).bind
        (fun s => World.update refMath s (1 / 20))).map
        (fun s => ((s.animalAt 1).currentBehavior, (s.animalAt 1).currentTarget))
      = some (Behavior.wandering, none) := by
  decide!

/-- The target of the feeding check.  It is the current target of an animal with hunger
above 50, when that is a vegetation or an animal that passes `canEat`.  If the animal was
not `eating` when its step began, that target was found by `findFood` in this step: it is
a member of the vegetation collection, or a member of the animal collection other than
the eater.  If the animal was `eating`, `update` keeps its target and its behavior. -/
theorem World.feedingTarget_after_update (M : MathEnv) (s : Sim) (animal : Nat) (deltaTime : ℚ) :
    (World.checkFeeding M s animal =
      match World.feedingTarget s animal with
      | none => s
      | some target =>
        if (Animal.tryEat M s animal target).2 = true
        then World.afterMeal (Animal.tryEat M s animal target).1 animal
        else (Animal.tryEat M s animal target).1) ∧
    (∀ t, World.feedingTarget s animal = some t →
      (s.animalAt animal).currentTarget = some t ∧ (s.animalAt animal).hunger > 50 ∧
      ((∃ veg, t = Target.vegetation veg) ∨
        ∃ prey, t = Target.animal prey ∧
          (s.animalAt animal).canEat (s.animalAt prey) = true)) ∧
    ((s.animalAt animal).currentBehavior ≠ Behavior.eating →
      ∀ t, World.feedingTarget (Animal.update M s animal deltaTime) animal = some t →
        (∀ veg, t = Target.vegetation veg →
          veg ∈ (Animal.update M s animal deltaTime).world.vegetation) ∧
        (∀ prey, t = Target.animal prey →
          prey ∈ (Animal.update M s animal deltaTime).world.animals ∧ prey ≠ animal)) ∧
    ((s.animalAt animal).currentBehavior = Behavior.eating →
      ((Animal.update M s animal deltaTime).animalAt animal).currentTarget
        = (s.animalAt animal).currentTarget ∧
      ((Animal.update M s animal deltaTime).animalAt animal).currentBehavior
        = Behavior.eating) := by
  have hvalid : ∀ (s0 : Sim) (t : Target), World.feedingTarget s0 animal = some t →
      (s0.animalAt animal).currentTarget = some t ∧ (s0.animalAt animal).hunger > 50 ∧
      ((∃ veg, t = Target.vegetation veg) ∨
        ∃ prey, t = Target.animal prey ∧
          (s0.animalAt animal).canEat (s0.animalAt prey) = true) := by
    intro s0 t ht
    unfold World.feedingTarget at ht
    cases hc : (s0.animalAt animal).currentTarget with
    | none => rw [hc] at ht; exact Option.noConfusion ht
    | some target =>
      rw [hc] at ht
      by_cases hh : (s0.animalAt animal).hunger > 50
      · simp only [hh, if_true] at ht
        cases target with
        | vegetation veg =>
          have e : Target.vegetation veg = t := Option.some.inj ht
          exact ⟨by rw [e], hh, Or.inl ⟨veg, e.symm⟩⟩
        | animal prey =>
          by_cases hce : (s0.animalAt animal).canEat (s0.animalAt prey) = true
          · simp only [hce, if_true] at ht
            have e : Target.animal prey = t := Option.some.inj ht
            exact ⟨by rw [e], hh, Or.inr ⟨prey, e.symm, hce⟩⟩
          · simp only [hce] at ht
            exact Option.noConfusion ht
      · simp only [hh, if_false] at ht
        exact Option.noConfusion ht
  refine ⟨World.checkFeeding_eq M s animal, hvalid s, ?_, (Animal.update_target M s animal deltaTime).2⟩
  intro hne t ht
  obtain ⟨hct, hh, _⟩ := hvalid _ t ht
  obtain ⟨hw, _, _, _, _, _⟩ := Animal.update_effect M s animal deltaTime
  rw [(Animal.update_target M s animal deltaTime).1 hne] at hct
  rw [(Animal.update_metabolism_fields M s animal deltaTime).2.1] at hh
  have hset : (s.setAnimal animal ((s.animalAt animal).updateMetabolism deltaTime)).animalAt animal
      = (s.animalAt animal).updateMetabolism deltaTime := by
    show (if animal = animal then _ else _) = _
    rw [if_pos rfl]
  have hfood : Animal.findTarget M
      (s.setAnimal animal ((s.animalAt animal).updateMetabolism deltaTime)) animal
      = (Animal.findFood M
          (s.setAnimal animal ((s.animalAt animal).updateMetabolism deltaTime)) animal,
         s.setAnimal animal ((s.animalAt animal).updateMetabolism deltaTime)) := by
    unfold Animal.findTarget
    simp only [hset]
    rw [if_pos hh]
  rw [hfood] at hct
  have hm := Animal.findFood_mem M _ animal t hct
  rw [hw]
  exact hm

/-! ## C21: `reset` and `initialize` -/

/-- The constructor stores the species it is given. -/
theorem Animal.new_species (M : MathEnv) (x y : ℚ) (species : Species)
    (gender : Option String) (r : Rng) :
    (Animal.new M x y species gender r).1.species = species :=
  rfl

/-- One iteration of `addAnimals`: the new object is pushed at the end and no other
object or field of the world is written. -/
theorem World.addAnimal_effect (M : MathEnv) (s : Sim) (species : Species) :
    (World.addAnimal M s species).world
      = { s.world with animals := s.world.animals ++ [s.nextId] } ∧
    (World.addAnimal M s species).nextId = s.nextId + 1 ∧
    ((World.addAnimal M s species).animalAt s.nextId).species = species ∧
    (∀ j, j ≠ s.nextId → (World.addAnimal M s species).animalAt j = s.animalAt j) ∧
    (World.addAnimal M s species).vegAt = s.vegAt := by
  refine ⟨rfl, rfl, ?_, ?_, rfl⟩
  · show Animal.species (if s.nextId = s.nextId then _ else _) = _
    rw [if_pos rfl]
  · intro j hj
    show (if j = s.nextId then _ else _) = _
    rw [if_neg hj]

/-- One iteration of `addAnimals` adds one to the count of its species and keeps the
other counts, in a state whose animal references are below `nextId`. -/
theorem World.addAnimal_count (M : MathEnv) (s : Sim) (species : Species)
    (hb : ∀ a ∈ s.world.animals, a < s.nextId) (x : Species) :
    (World.addAnimal M s species).speciesCount x
      = s.speciesCount x + (if species = x then 1 else 0) ∧
    (∀ a ∈ (World.addAnimal M s species).world.animals,
      a < (World.addAnimal M s species).nextId) := by
  obtain ⟨hw, hn, hs, hf, _⟩ := World.addAnimal_effect M s species
  constructor
  · unfold Sim.speciesCount
    rw [hw]
    show ((s.world.animals ++ [s.nextId]).filter _).length = _
    rw [List.filter_append, List.length_append]
    congr 1
    · congr 1
      apply List.filter_congr
      intro a ha
      rw [hf a (Nat.ne_of_lt (hb a ha))]
    · rw [List.filter_singleton, hs]
      by_cases h : species = x
      · simp [h]
      · simp [h]
  · intro a ha
    rw [hw] at ha
    rw [hn]
    rcases List.mem_append.mp ha with h | h
    · exact Nat.lt_succ_of_lt (hb a h)
    · rw [List.mem_singleton.mp h]
      exact Nat.lt_succ_self _

/-- The loop of `addAnimals` adds `count` to the count of its species and writes no
field of the world but the animal collection. -/
theorem World.addAnimals_count (M : MathEnv) (species : Species) (count : Nat) (s : Sim)
    (hb : ∀ a ∈ s.world.animals, a < s.nextId) (x : Species) :
    (World.addAnimals M species count s).speciesCount x
      = s.speciesCount x + (if species = x then count else 0) ∧
    (∀ a ∈ (World.addAnimals M species count s).world.animals,
      a < (World.addAnimals M species count s).nextId) ∧
    (World.addAnimals M species count s).world.animals.length
      = s.world.animals.length + count ∧
    { (World.addAnimals M species count s).world with animals := s.world.animals }
      = s.world := by
  induction count generalizing s with
  | zero =>
    refine ⟨?_, hb, rfl, rfl⟩
    show s.speciesCount x = _
    simp
  | succ n ih =>
    unfold World.addAnimals
    obtain ⟨h1, h2⟩ := World.addAnimal_count M s species hb x
    obtain ⟨i1, i2, i3, i4⟩ := ih (World.addAnimal M s species) h2
    refine ⟨?_, i2, ?_, ?_⟩
    · rw [i1, h1]
      by_cases h : species = x
      · simp only [h, if_true]; omega
      · simp only [h, if_false]
    · rw [i3]
      show (s.world.animals ++ [s.nextId]).length + n = _
      rw [List.length_append, List.length_singleton]
      omega
    · have e := congrArg (fun w : World => { w with animals := s.world.animals }) i4
      exact e

/-- The vegetation loop of `initialize` writes no field of the world but the vegetation
collection, and no animal object. -/
theorem World.addVegetations_world (count : Nat) (s : Sim) :
    { (World.addVegetations count s).world with vegetation := s.world.vegetation } = s.world ∧
    (World.addVegetations count s).animalAt = s.animalAt := by
  induction count generalizing s with
  | zero => exact ⟨rfl, rfl⟩
  | succ n ih =>
    unfold World.addVegetations
    obtain ⟨i1, i2⟩ := ih (World.addVegetation s)
    constructor
    · have e := congrArg (fun w : World => { w with vegetation := s.world.vegetation }) i1
      exact e
    · rw [i2]
      rfl

/-- A guarded call of `addAnimals` in `initialize`. -/
theorem World.addAnimals_guarded (M : MathEnv) (species : Species) (count : Nat) (b : Bool)
    (s : Sim) (hb : ∀ a ∈ s.world.animals, a < s.nextId) (x : Species) :
    (if b = true then World.addAnimals M species count s else s).speciesCount x
      = s.speciesCount x + (if b = true ∧ species = x then count else 0) ∧
    (∀ a ∈ (if b = true then World.addAnimals M species count s else s).world.animals,
      a < (if b = true then World.addAnimals M species count s else s).nextId) ∧
    (if b = true then World.addAnimals M species count s else s).world.animals.length
      = s.world.animals.length + (if b = true then count else 0) ∧
    { (if b = true then World.addAnimals M species count s else s).world with
        animals := s.world.animals } = s.world := by
  cases b with
  | false =>
    simp only [Bool.false_eq_true, if_false, false_and, Nat.add_zero]
    exact ⟨trivial, hb, trivial, trivial⟩
  | true =>
    simp only [if_true, true_and]
    exact World.addAnimals_count M species count s hb x

/-- The animals that `initialize` adds to a world without animals: per species the
fixed count if the species is enabled; no field of the world but the two collections
is written. -/
theorem World.initialize_counts (M : MathEnv) (s : Sim) (h0 : s.world.animals = [])
    (x : Species) :
    ( World.initialize M s).speciesCount x
      = (if s.world.enabledSpecies.rabbit = true ∧ SPECIES.RABBIT = x then 20 else 0)
        + (if s.world.enabledSpecies.deer = true ∧ SPECIES.DEER = x then 12 else 0)
        + (if s.world.enabledSpecies.fox = true ∧ SPECIES.FOX = x then 8 else 0)
        + (if s.world.enabledSpecies.wolf = true ∧ SPECIES.WOLF = x then 6 else 0)
        + (if s.world.enabledSpecies.bear = true ∧ SPECIES.BEAR = x then 4 else 0) ∧
    ( World.initialize M s).world.animals.length
      = (if s.world.enabledSpecies.rabbit = true then 20 else 0)
        + (if s.world.enabledSpecies.deer = true then 12 else 0)
        + (if s.world.enabledSpecies.fox = true then 8 else 0)
        + (if s.world.enabledSpecies.wolf = true then 6 else 0)
        + (if s.world.enabledSpecies.bear = true then 4 else 0) ∧
    { ( World.initialize M s).world with animals := [], vegetation := [] }
      = { s.world with animals := [], vegetation := [] } := by
  unfold World.initialize
  simp only
  obtain ⟨v1, v2⟩ := World.addVegetations_world 150 s
  have a0 : (World.addVegetations 150 s).world.animals = [] := by
    have e := congrArg World.animals v1
    exact e.trans h0
  have hb0 : ∀ a ∈ (World.addVegetations 150 s).world.animals,
      a < (World.addVegetations 150 s).nextId := by
    intro a ha
    rw [a0] at ha
    exact absurd ha (List.not_mem_nil a)
  have c0 : (World.addVegetations 150 s).speciesCount x = 0 := by
    unfold Sim.speciesCount
    rw [a0]
    rfl
  have w0 : ({ (World.addVegetations 150 s).world with animals := [], vegetation := [] } : World)
      = { s.world with animals := [], vegetation := [] } := by
    have e := congrArg (fun w : World => { w with animals := [], vegetation := [] }) v1
    exact e
  have l0 : (World.addVegetations 150 s).world.animals.length = 0 := by rw [a0]; rfl
  generalize World.addVegetations 150 s = s0 at hb0 c0 w0 l0 ⊢
  have e0 : s0.world.enabledSpecies = s.world.enabledSpecies := by
    have e := congrArg World.enabledSpecies w0
    exact e
  obtain ⟨c1, hb1, l1, w1⟩ :=
    World.addAnimals_guarded M SPECIES.RABBIT 20 s0.world.enabledSpecies.rabbit s0 hb0 x
  generalize (if s0.world.enabledSpecies.rabbit = true
    then World.addAnimals M SPECIES.RABBIT 20 s0 else s0) = s1 at c1 hb1 l1 w1 ⊢
  have e1 : s1.world.enabledSpecies = s0.world.enabledSpecies := by
    have e := congrArg World.enabledSpecies w1
    exact e
  obtain ⟨c2, hb2, l2, w2⟩ :=
    World.addAnimals_guarded M SPECIES.DEER 12 s1.world.enabledSpecies.deer s1 hb1 x
  generalize (if s1.world.enabledSpecies.deer = true
    then World.addAnimals M SPECIES.DEER 12 s1 else s1) = s2 at c2 hb2 l2 w2 ⊢
  have e2 : s2.world.enabledSpecies = s1.world.enabledSpecies := by
    have e := congrArg World.enabledSpecies w2
    exact e
  obtain ⟨c3, hb3, l3, w3⟩ :=
    World.addAnimals_guarded M SPECIES.FOX 8 s2.world.enabledSpecies.fox s2 hb2 x
  generalize (if s2.world.enabledSpecies.fox = true
    then World.addAnimals M SPECIES.FOX 8 s2 else s2) = s3 at c3 hb3 l3 w3 ⊢
  have e3 : s3.world.enabledSpecies = s2.world.enabledSpecies := by
    have e := congrArg World.enabledSpecies w3
    exact e
  obtain ⟨c4, hb4, l4, w4⟩ :=
    World.addAnimals_guarded M SPECIES.WOLF 6 s3.world.enabledSpecies.wolf s3 hb3 x
  generalize (if s3.world.enabledSpecies.wolf = true
    then World.addAnimals M SPECIES.WOLF 6 s3 else s3) = s4 at c4 hb4 l4 w4 ⊢
  have e4 : s4.world.enabledSpecies = s3.world.enabledSpecies := by
    have e := congrArg World.enabledSpecies w4
    exact e
  obtain ⟨c5, _, l5, w5⟩ :=
    World.addAnimals_guarded M SPECIES.BEAR 4 s4.world.enabledSpecies.bear s4 hb4 x
  generalize (if s4.world.enabledSpecies.bear = true
    then World.addAnimals M SPECIES.BEAR 4 s4 else s4) = s5 at c5 l5 w5 ⊢
  rw [e4, e3, e2, e1, e0] at c5 l5
  rw [e3, e2, e1, e0] at c4 l4
  rw [e2, e1, e0] at c3 l3
  rw [e1, e0] at c2 l2
  rw [e0] at c1 l1
  refine ⟨?_, ?_, ?_⟩
  · rw [c5, c4, c3, c2, c1, c0, Nat.zero_add]
  · rw [l5, l4, l3, l2, l1, l0, Nat.zero_add]
  · have f5 := congrArg (fun w : World => { w with animals := [], vegetation := [] }) w5
    have f4 := congrArg (fun w : World => { w with animals := [], vegetation := [] }) w4
    have f3 := congrArg (fun w : World => { w with animals := [], vegetation := [] }) w3
    have f2 := congrArg (fun w : World => { w with animals := [], vegetation := [] }) w2
    have f1 := congrArg (fun w : World => { w with animals := [], vegetation := [] }) w1
    exact f5.trans (f4.trans (f3.trans (f2.trans (f1.trans w0))))

/-- The entries of the table `SPECIES` are pairwise different. -/
theorem SPECIES.distinct :
    SPECIES.RABBIT ≠ SPECIES.DEER ∧ SPECIES.RABBIT ≠ SPECIES.FOX ∧
    SPECIES.RABBIT ≠ SPECIES.WOLF ∧ SPECIES.RABBIT ≠ SPECIES.BEAR ∧
    SPECIES.DEER ≠ SPECIES.FOX ∧ SPECIES.DEER ≠ SPECIES.WOLF ∧
    SPECIES.DEER ≠ SPECIES.BEAR ∧ SPECIES.FOX ≠ SPECIES.WOLF ∧
    SPECIES.FOX ≠ SPECIES.BEAR ∧ SPECIES.WOLF ≠ SPECIES.BEAR := by
  have h : ∀ a b : Species, a.name ≠ b.name → a ≠ b := fun a b hn e => hn (congrArg Species.name e)
  refine ⟨h _ _ ?_, h _ _ ?_, h _ _ ?_, h _ _ ?_, h _ _ ?_, h _ _ ?_, h _ _ ?_, h _ _ ?_,
    h _ _ ?_, h _ _ ?_⟩ <;> decide

/-- Claim C21: after `reset` the clock is 0, the vegetation collection has exactly 150
entries, and the animal collection holds, of each species of the table, exactly the fixed
initial count (rabbit 20, deer 12, fox 8, wolf 6, bear 4) if the species is enabled and
none if it is disabled, and no other animal, whatever the collections held before;
`speed`, `paused`, the enable flags and the dimensions are unchanged. -/
theorem C21_reset (M : MathEnv) (s : Sim) :
    ( World.reset M s).world.time = 0 ∧
    ( World.reset M s).world.vegetation.length = 150 ∧
    ( World.reset M s).speciesCount SPECIES.RABBIT
      = (if s.world.enabledSpecies.rabbit = true then 20 else 0) ∧
    ( World.reset M s).speciesCount SPECIES.DEER
      = (if s.world.enabledSpecies.deer = true then 12 else 0) ∧
    ( World.reset M s).speciesCount SPECIES.FOX
      = (if s.world.enabledSpecies.fox = true then 8 else 0) ∧
    ( World.reset M s).speciesCount SPECIES.WOLF
      = (if s.world.enabledSpecies.wolf = true then 6 else 0) ∧
    ( World.reset M s).speciesCount SPECIES.BEAR
      = (if s.world.enabledSpecies.bear = true then 4 else 0) ∧
    ( World.reset M s).world.animals.length
      = ( World.reset M s).speciesCount SPECIES.RABBIT
        + ( World.reset M s).speciesCount SPECIES.DEER
        + ( World.reset M s).speciesCount SPECIES.FOX
        + ( World.reset M s).speciesCount SPECIES.WOLF
        + ( World.reset M s).speciesCount SPECIES.BEAR ∧
    ( World.reset M s).world.speed = s.world.speed ∧
    ( World.reset M s).world.paused = s.world.paused ∧
    ( World.reset M s).world.enabledSpecies = s.world.enabledSpecies ∧
    ( World.reset M s).world.width = s.world.width ∧
    ( World.reset M s).world.height = s.world.height := by
  obtain ⟨d1, d2, d3, d4, d5, d6, d7, d8, d9, d10⟩ := SPECIES.distinct
  have hc := fun x => (World.initialize_counts M
    { s with world := { s.world with animals := [], vegetation := [], time := 0 } } rfl x).1
  obtain ⟨_, hl, hw⟩ := World.initialize_counts M
    { s with world := { s.world with animals := [], vegetation := [], time := 0 } } rfl
    SPECIES.RABBIT
  have c1 : ( World.reset M s).speciesCount SPECIES.RABBIT
      = (if s.world.enabledSpecies.rabbit = true then 20 else 0) := by
    unfold World.reset
    rw [hc SPECIES.RABBIT]
    simp [d1.symm, d2.symm, d3.symm, d4.symm]
  have c2 : ( World.reset M s).speciesCount SPECIES.DEER
      = (if s.world.enabledSpecies.deer = true then 12 else 0) := by
    unfold World.reset
    rw [hc SPECIES.DEER]
    simp [d1, d5.symm, d6.symm, d7.symm]
  have c3 : ( World.reset M s).speciesCount SPECIES.FOX
      = (if s.world.enabledSpecies.fox = true then 8 else 0) := by
    unfold World.reset
    rw [hc SPECIES.FOX]
    simp [d2, d5, d8.symm, d9.symm]
  have c4 : ( World.reset M s).speciesCount SPECIES.WOLF
      = (if s.world.enabledSpecies.wolf = true then 6 else 0) := by
    unfold World.reset
    rw [hc SPECIES.WOLF]
    simp [d3, d6, d8, d10.symm]
  have c5 : ( World.reset M s).speciesCount SPECIES.BEAR
      = (if s.world.enabledSpecies.bear = true then 4 else 0) := by
    unfold World.reset
    rw [hc SPECIES.BEAR]
    simp [d4, d7, d9, d10]
  have ht := congrArg World.time hw
  have hs := congrArg World.speed hw
  have hp := congrArg World.paused hw
  have he := congrArg World.enabledSpecies hw
  have hwd := congrArg World.width hw
  have hh := congrArg World.height hw
  refine ⟨ht, World.reset_vegetation_length M s, c1, c2, c3, c4, c5, ?_, hs, hp, he, hwd, hh⟩
  rw [c1, c2, c3, c4, c5]
  exact hl

/-! ## C22: `getStatistics` -/

/-- The object `stats` has one property per species of the table, in the order of the
table. -/
theorem World.getStatistics_eq (s : Sim) :
    (World.getStatistics s).1
      = [("rabbit", World.statsEntry s SPECIES.RABBIT),
         ("deer", World.statsEntry s SPECIES.DEER),
         ("fox", World.statsEntry s SPECIES.FOX),
         ("wolf", World.statsEntry s SPECIES.WOLF),
         ("bear", World.statsEntry s SPECIES.BEAR)] := by
  unfold World.getStatistics
  simp [SPECIES.values, Stats.set, World.statsEntry, SPECIES.RABBIT, SPECIES.DEER,
    SPECIES.FOX, SPECIES.WOLF, SPECIES.BEAR]

/-- The names of the entries of the table `SPECIES` identify them. -/
theorem SPECIES.name_inj (a b : Species) (ha : a ∈ SPECIES.values) (hb : b ∈ SPECIES.values)
    (h : a.name = b.name) : a = b := by
  simp only [SPECIES.values, List.mem_cons, List.mem_singleton, List.not_mem_nil, or_false]
    at ha hb
  rcases ha with rfl | rfl | rfl | rfl | rfl <;>
    rcases hb with rfl | rfl | rfl | rfl | rfl <;>
      first
      | rfl
      | exact absurd h (by decide)

/-- Males and females make up a list of animals that are all male or female. -/
theorem length_filter_gender (s : Sim) (l : List Nat)
    (hg : ∀ a ∈ l, (s.animalAt a).gender = "male" ∨ (s.animalAt a).gender = "female") :
    (l.filter (fun a => decide ((s.animalAt a).gender = "male"))).length
      + (l.filter (fun a => decide ((s.animalAt a).gender = "female"))).length = l.length := by
  induction l with
  | nil => rfl
  | cons a l ih =>
    have ih := ih (fun b hb => hg b (List.mem_cons_of_mem a hb))
    rcases hg a (List.mem_cons_self a l) with h | h
    · have hne : ¬ (s.animalAt a).gender = "female" := by rw [h]; decide
      rw [List.filter_cons_of_pos (by simpa using h), List.filter_cons_of_neg (by simpa using hne),
        List.length_cons, List.length_cons]
      omega
    · have hne : ¬ (s.animalAt a).gender = "male" := by rw [h]; decide
      rw [List.filter_cons_of_neg (by simpa using hne), List.filter_cons_of_pos (by simpa using h),
        List.length_cons, List.length_cons]
      omega

/-- The five counts by species name add up to the length of a list of animals that all
have a species of the table. -/
theorem length_filter_species (s : Sim) (l : List Nat)
    (hs : ∀ a ∈ l, (s.animalAt a).species ∈ SPECIES.values) :
    (l.filter (fun a => decide ((s.animalAt a).species.name = SPECIES.RABBIT.name))).length
      + (l.filter (fun a => decide ((s.animalAt a).species.name = SPECIES.DEER.name))).length
      + (l.filter (fun a => decide ((s.animalAt a).species.name = SPECIES.FOX.name))).length
      + (l.filter (fun a => decide ((s.animalAt a).species.name = SPECIES.WOLF.name))).length
      + (l.filter (fun a => decide ((s.animalAt a).species.name = SPECIES.BEAR.name))).length
      = l.length := by
  induction l with
  | nil => rfl
  | cons a l ih =>
    have ih := ih (fun b hb => hs b (List.mem_cons_of_mem a hb))
    have ha := hs a (List.mem_cons_self a l)
    simp only [SPECIES.values, List.mem_cons, List.mem_singleton, List.not_mem_nil, or_false]
      at ha
    simp only [List.filter_cons, List.length_cons]
    rcases ha with h | h | h | h | h <;> rw [h] <;>
      simp [SPECIES.RABBIT, SPECIES.DEER, SPECIES.FOX, SPECIES.WOLF, SPECIES.BEAR] <;>
      simp [SPECIES.RABBIT, SPECIES.DEER, SPECIES.FOX, SPECIES.WOLF, SPECIES.BEAR] at ih <;>
      omega

/-- Counting by species name is counting by species, among animals that all have a
species of the table. -/
theorem World.statsEntry_total (s : Sim) (species : Species) (hx : species ∈ SPECIES.values)
    (hs : ∀ a ∈ s.world.animals, (s.animalAt a).species ∈ SPECIES.values) :
    (World.statsEntry s species).total = s.speciesCount species := by
  unfold World.statsEntry Sim.speciesCount
  show (List.filter _ _).length = _
  congr 1
  apply List.filter_congr
  intro a ha
  by_cases h : (s.animalAt a).species = species
  · simp [h]
  · have hn : ¬ (s.animalAt a).species.name = species.name :=
      fun e => h (SPECIES.name_inj _ _ (hs a ha) hx e)
    simp [h, hn]

/-- Claim C22: in a world whose animals all have a species of the table and gender
`male` or `female`, `getStatistics` returns for each of the five species an entry whose
`total` is the number of animals of that species, whose `males` and `females` are the
numbers of its male and female animals and add up to `total`; the five totals add up to
the length of the animal collection; and the call leaves the program state (the two
collections, the clock and every object) as it was. -/
theorem C22_getStatistics (s : Sim)
    (hs : ∀ a ∈ s.world.animals, (s.animalAt a).species ∈ SPECIES.values)
    (hg : ∀ a ∈ s.world.animals,
      (s.animalAt a).gender = "male" ∨ (s.animalAt a).gender = "female") :
    (∀ species ∈ SPECIES.values,
      ∃ e, Stats.get? (World.getStatistics s).1 species.name = some e ∧
        e.total = s.speciesCount species ∧
        e.males = (s.world.animals.filter (fun a =>
          decide ((s.animalAt a).species = species ∧ (s.animalAt a).gender = "male"))).length ∧
        e.females = (s.world.animals.filter (fun a =>
          decide ((s.animalAt a).species = species ∧ (s.animalAt a).gender = "female"))).length ∧
        e.males + e.females = e.total) ∧
    ((SPECIES.values.map (fun species =>
        ((Stats.get? (World.getStatistics s).1 species.name).map
          (fun e => e.total)).getD 0)).sum = s.world.animals.length) ∧
    (World.getStatistics s).1.length = 5 ∧
    (World.getStatistics s).2 = s := by
  have hget : ∀ species ∈ SPECIES.values,
      Stats.get? (World.getStatistics s).1 species.name
        = some (World.statsEntry s species) := by
    intro species hx
    rw [World.getStatistics_eq]
    simp only [SPECIES.values, List.mem_cons, List.mem_singleton, List.not_mem_nil, or_false]
      at hx
    rcases hx with rfl | rfl | rfl | rfl | rfl <;>
      simp [Stats.get?, SPECIES.RABBIT, SPECIES.DEER, SPECIES.FOX, SPECIES.WOLF, SPECIES.BEAR]
  have hfilter : ∀ (species : Species) (g : String), species ∈ SPECIES.values →
      ((s.world.animals.filter
        (fun a => decide ((s.animalAt a).species.name = species.name))).filter
          (fun a => decide ((s.animalAt a).gender = g))).length
        = (s.world.animals.filter (fun a =>
            decide ((s.animalAt a).species = species ∧ (s.animalAt a).gender = g))).length := by
    intro species g hx
    rw [List.filter_filter]
    congr 1
    apply List.filter_congr
    intro a ha
    by_cases h : (s.animalAt a).species = species
    · simp [h]
    · have hn : ¬ (s.animalAt a).species.name = species.name :=
        fun e => h (SPECIES.name_inj _ _ (hs a ha) hx e)
      simp [h, hn]
  refine ⟨?_, ?_, ?_, rfl⟩
  · intro species hx
    refine ⟨World.statsEntry s species, hget species hx,
      World.statsEntry_total s species hx hs,
      hfilter species "male" hx, hfilter species "female" hx, ?_⟩
    exact length_filter_gender s _ (fun a ha => hg a (List.mem_of_mem_filter ha))
  · have h1 := hget SPECIES.RABBIT (by simp [SPECIES.values])
    have h2 := hget SPECIES.DEER (by simp [SPECIES.values])
    have h3 := hget SPECIES.FOX (by simp [SPECIES.values])
    have h4 := hget SPECIES.WOLF (by simp [SPECIES.values])
    have h5 := hget SPECIES.BEAR (by simp [SPECIES.values])
    have hsum := length_filter_species s s.world.animals hs
    simp only [SPECIES.values, List.map_cons, List.map_nil, h1, h2, h3, h4, h5,
      Option.map_some', Option.getD_some, List.sum_cons, List.sum_nil]
    unfold World.statsEntry
    simp only
    omega
  · rw [World.getStatistics_eq]
    rfl

/-- Witness of C22: `meadowSim` holds a female and a male rabbit, and the entry of the
rabbit has `total` 2. -/
theorem C22_getStatistics_witness :
    (∀ a ∈ meadowSim.world.animals, (meadowSim.animalAt a).species ∈ SPECIES.values) ∧
    (∀ a ∈ meadowSim.world.animals,
      (meadowSim.animalAt a).gender = "male" ∨ (meadowSim.animalAt a).gender = "female") ∧
    meadowSim.speciesCount SPECIES.RABBIT = 2 ∧
    (SPECIES.values.map (fun species =>
        ((Stats.get? (World.getStatistics meadowSim).1 species.name).map
          (fun e => e.total)).getD 0)).sum = meadowSim.world.animals.length :=
  ⟨by decide!, by decide!, by decide!,
    (C22_getStatistics meadowSim (by decide!) (by decide!)).2.1⟩

/-! ## C23: `moveTowards` and `normalize` -/

/-- The normalized vector: zero when the magnitude is zero, else the vector divided by
a magnitude that is not zero. -/
theorem Vector2D.normalize_cases (M : MathEnv) (d : Vector2D) :
    (d = ⟨0, 0⟩ → M.sqrt 0 = 0 → d.normalize M = ⟨0, 0⟩) ∧
    (d ≠ ⟨0, 0⟩ → M.SqrtExactAt (d.x * d.x + d.y * d.y) →
      0 < M.sqrt (d.x * d.x + d.y * d.y) ∧
      d.normalize M = ⟨d.x / M.sqrt (d.x * d.x + d.y * d.y),
                       d.y / M.sqrt (d.x * d.x + d.y * d.y)⟩) := by
  constructor
  · intro hd h0
    unfold Vector2D.normalize Vector2D.magnitude
    rw [hd]
    simp only [mul_zero, add_zero, h0, if_true]
  · intro hd hq
    obtain ⟨h1, h2⟩ := hq
    have hpos : 0 < d.x * d.x + d.y * d.y := by
      rcases lt_or_eq_of_le (add_nonneg (mul_self_nonneg d.x) (mul_self_nonneg d.y)) with h | h
      · exact h
      · exfalso
        apply hd
        obtain ⟨hx, hy⟩ := (mul_self_add_mul_self_eq_zero.mp h.symm)
        cases d
        simp only at hx hy
        rw [hx, hy]
    have hne : M.sqrt (d.x * d.x + d.y * d.y) ≠ 0 := by
      intro h
      rw [h, mul_zero] at h2
      exact absurd h2.symm (ne_of_gt hpos)
    refine ⟨lt_of_le_of_ne h1 (Ne.symm hne), ?_⟩
    unfold Vector2D.normalize Vector2D.magnitude
    simp only [hne, if_false]

/-- The squared length of a vector that is normalized and then scaled by `k`. -/
theorem Vector2D.scaled_sq (d : Vector2D) (m k : ℚ) (hm : m * m = d.x * d.x + d.y * d.y)
    (hne : m ≠ 0) :
    d.x / m * k * (d.x / m * k) + d.y / m * k * (d.y / m * k) = k * k := by
  field_simp
  rw [hm]
  ring

/-- No rational number has the square 2. -/
theorem Rat.mul_self_ne_two (m : ℚ) : m * m ≠ 2 := by
  intro h
  have h2 : ((m : ℝ)) * (m : ℝ) = 2 := by exact_mod_cast h
  have h3 : |(m : ℝ)| = Real.sqrt 2 := by
    rw [← Real.sqrt_mul_self_eq_abs, h2]
  have hirr : Irrational (Real.sqrt 2) := irrational_sqrt_two
  rw [← h3] at hirr
  rcases abs_choice (m : ℝ) with e | e
  · rw [e] at hirr
    exact hirr ⟨m, rfl⟩
  · rw [e] at hirr
    exact hirr ⟨-m, by push_cast; rfl⟩

/-- The velocity that `moveTowards` stores, in coordinates. -/
theorem Animal.moveTowards_velocity (M : MathEnv) (s : Sim) (self : Nat) (target : Target) :
    ((Animal.moveTowards M s self target).animalAt self).velocity
      = (if M.sqrt (((s.targetPosition target).x - (s.animalAt self).position.x)
              * ((s.targetPosition target).x - (s.animalAt self).position.x)
            + ((s.targetPosition target).y - (s.animalAt self).position.y)
              * ((s.targetPosition target).y - (s.animalAt self).position.y)) = 0
          then ⟨0, 0⟩
          else
            ⟨((s.targetPosition target).x - (s.animalAt self).position.x)
                / M.sqrt (((s.targetPosition target).x - (s.animalAt self).position.x)
                    * ((s.targetPosition target).x - (s.animalAt self).position.x)
                  + ((s.targetPosition target).y - (s.animalAt self).position.y)
                    * ((s.targetPosition target).y - (s.animalAt self).position.y))
                * (s.animalAt self).traits.speed,
             ((s.targetPosition target).y - (s.animalAt self).position.y)
                / M.sqrt (((s.targetPosition target).x - (s.animalAt self).position.x)
                    * ((s.targetPosition target).x - (s.animalAt self).position.x)
                  + ((s.targetPosition target).y - (s.animalAt self).position.y)
                    * ((s.targetPosition target).y - (s.animalAt self).position.y))
                * (s.animalAt self).traits.speed⟩) := by
  unfold Animal.moveTowards
  show Animal.velocity (if self = self then _ else _) = _
  rw [if_pos rfl]
  show (Vector2D.normalize M _).multiply _ = _
  unfold Vector2D.normalize Vector2D.magnitude Vector2D.multiply Vector2D.subtract
  simp only
  split
  · simp only [zero_mul]
  · rfl

/-- Claim C23, evaluated on the code at an oblique target: in `obliqueSim` the target is
at the offset (1, 1) from a rabbit of speed 60.  Whatever rational `Math.sqrt` returns
for the squared distance 2, the squared length of the velocity after `moveTowards` is
not `speed * speed` (the square root of 2 is irrational); with `refMath` the magnitude
that the model computes is not `|speed|`.  (In the doubles of JavaScript the magnitude
at this input is 59.99999999999999.) -/
theorem C23_oblique_counterexample :
    obliqueSim.targetPosition (Target.vegetation 0) ≠ (obliqueSim.animalAt 0).position ∧
    (¬ ∃ M : MathEnv,
      ((Animal.moveTowards M obliqueSim 0 (Target.vegetation 0)).animalAt 0).velocity.x
          * ((Animal.moveTowards M obliqueSim 0 (Target.vegetation 0)).animalAt 0).velocity.x
        + ((Animal.moveTowards M obliqueSim 0 (Target.vegetation 0)).animalAt 0).velocity.y
          * ((Animal.moveTowards M obliqueSim 0 (Target.vegetation 0)).animalAt 0).velocity.y
        = (obliqueSim.animalAt 0).traits.speed * (obliqueSim.animalAt 0).traits.speed) ∧
    ((Animal.moveTowards refMath obliqueSim 0 (Target.vegetation 0)).animalAt 0).velocity.magnitude
        refMath ≠ |(obliqueSim.animalAt 0).traits.speed| := by
  refine ⟨by decide!, ?_, by decide!⟩
  rintro ⟨M, h⟩
  rw [Animal.moveTowards_velocity] at h
  have e1 : (obliqueSim.targetPosition (Target.vegetation 0)).x
      - (obliqueSim.animalAt 0).position.x = 1 := by decide!
  have e2 : (obliqueSim.targetPosition (Target.vegetation 0)).y
      - (obliqueSim.animalAt 0).position.y = 1 := by decide!
  have e3 : (obliqueSim.animalAt 0).traits.speed = 60 := by decide!
  rw [e1, e2, e3] at h
  generalize M.sqrt (1 * 1 + 1 * 1) = m at h
  by_cases hm : m = 0
  · rw [if_pos hm] at h
    norm_num at h
  · rw [if_neg hm] at h
    simp only at h
    apply Rat.mul_self_ne_two m
    field_simp at h
    nlinarith [h]

/-- Claim C23, amended.  Let `(dx, dy)` be the offset from the animal to the target and
`m` the value that `Math.sqrt` returns for `dx * dx + dy * dy`.  After `moveTowards` the
velocity is `(0, 0)` if `m = 0`, without any division (in particular when the positions
coincide and `sqrt 0 = 0`), and otherwise `(dx / m * speed, dy / m * speed)`: the offset
times `speed / m`, a positive factor when `m` and `traits.speed` are positive, with a
squared length that satisfies `|v|² * m² = speed² * (dx² + dy²)`; no other field is
written.  Where `Math.sqrt` is exact at the squared distance of two different positions,
`m` is positive and the squared length is exactly `speed²`, and the magnitude is
`|traits.speed|` if `Math.sqrt` is also exact at `speed²`. -/
theorem C23_moveTowards (M : MathEnv) (s : Sim) (self : Nat) (target : Target)
    (dx dy m : ℚ)
    (hx : dx = (s.targetPosition target).x - (s.animalAt self).position.x)
    (hy : dy = (s.targetPosition target).y - (s.animalAt self).position.y)
    (hm : m = M.sqrt (dx * dx + dy * dy)) :
    ((Animal.moveTowards M s self target).animalAt self).velocity
      = (if m = 0 then ⟨0, 0⟩
          else ⟨dx / m * (s.animalAt self).traits.speed,
                dy / m * (s.animalAt self).traits.speed⟩) ∧
    { (Animal.moveTowards M s self target).animalAt self with
        velocity := (s.animalAt self).velocity } = s.animalAt self ∧
    (m = 0 → ((Animal.moveTowards M s self target).animalAt self).velocity = ⟨0, 0⟩) ∧
    (dx = 0 → dy = 0 → M.sqrt 0 = 0 →
      ((Animal.moveTowards M s self target).animalAt self).velocity = ⟨0, 0⟩) ∧
    (m ≠ 0 →
      ((Animal.moveTowards M s self target).animalAt self).velocity
        = ⟨dx * ((s.animalAt self).traits.speed / m),
           dy * ((s.animalAt self).traits.speed / m)⟩ ∧
      (((Animal.moveTowards M s self target).animalAt self).velocity.x
          * ((Animal.moveTowards M s self target).animalAt self).velocity.x
        + ((Animal.moveTowards M s self target).animalAt self).velocity.y
          * ((Animal.moveTowards M s self target).animalAt self).velocity.y) * (m * m)
        = (s.animalAt self).traits.speed * (s.animalAt self).traits.speed
            * (dx * dx + dy * dy)) ∧
    (0 < m → 0 < (s.animalAt self).traits.speed →
      0 < (s.animalAt self).traits.speed / m) ∧
    ((dx ≠ 0 ∨ dy ≠ 0) → M.SqrtExactAt (dx * dx + dy * dy) →
      0 < m ∧
      ((Animal.moveTowards M s self target).animalAt self).velocity.x
          * ((Animal.moveTowards M s self target).animalAt self).velocity.x
        + ((Animal.moveTowards M s self target).animalAt self).velocity.y
          * ((Animal.moveTowards M s self target).animalAt self).velocity.y
        = (s.animalAt self).traits.speed * (s.animalAt self).traits.speed ∧
      (M.SqrtExactAt ((s.animalAt self).traits.speed * (s.animalAt self).traits.speed) →
        ((Animal.moveTowards M s self target).animalAt self).velocity.magnitude M
          = |(s.animalAt self).traits.speed|)) := by
  have hv : ((Animal.moveTowards M s self target).animalAt self).velocity
      = (if m = 0 then ⟨0, 0⟩
          else ⟨dx / m * (s.animalAt self).traits.speed,
                dy / m * (s.animalAt self).traits.speed⟩) := by
    rw [Animal.moveTowards_velocity, hm, hx, hy]
  have hbody : { (Animal.moveTowards M s self target).animalAt self with
        velocity := (s.animalAt self).velocity } = s.animalAt self := by
    unfold Animal.moveTowards
    show ({ (if self = self then _ else _ : Animal) with velocity := _ } : Animal) = _
    rw [if_pos rfl]
  generalize (s.animalAt self).traits.speed = speed at hv ⊢
  generalize ((Animal.moveTowards M s self target).animalAt self).velocity = v at hv ⊢
  have hne : m ≠ 0 → v = ⟨dx / m * speed, dy / m * speed⟩ := by
    intro h0
    rw [hv, if_neg h0]
  have hsq : m ≠ 0 → (v.x * v.x + v.y * v.y) * (m * m) = speed * speed * (dx * dx + dy * dy) := by
    intro h0
    rw [hne h0]
    simp only
    field_simp
    ring
  refine ⟨hv, hbody, ?_, ?_, ?_, ?_, ?_⟩
  · intro h0
    rw [hv, if_pos h0]
  · intro h1 h2 h0
    have : m = 0 := by rw [hm, h1, h2]; simpa using h0
    rw [hv, if_pos this]
  · intro h0
    refine ⟨?_, hsq h0⟩
    rw [hne h0]
    congr 1 <;> field_simp
  · intro h1 h2
    exact div_pos h2 h1
  · intro hd hq
    obtain ⟨q1, q2⟩ := hq
    rw [← hm] at q1 q2
    have hpos : 0 < dx * dx + dy * dy := by
      rcases lt_or_eq_of_le (add_nonneg (mul_self_nonneg dx) (mul_self_nonneg dy)) with h | h
      · exact h
      · exfalso
        obtain ⟨e1, e2⟩ := mul_self_add_mul_self_eq_zero.mp h.symm
        rcases hd with hd | hd
        · exact hd e1
        · exact hd e2
    have h0 : m ≠ 0 := by
      intro h
      rw [h, mul_zero] at q2
      exact absurd q2.symm (ne_of_gt hpos)
    have hsq2 : v.x * v.x + v.y * v.y = speed * speed := by
      have h := hsq h0
      rw [q2] at h
      exact mul_right_cancel₀ (ne_of_gt hpos) h
    refine ⟨lt_of_le_of_ne q1 (Ne.symm h0), hsq2, ?_⟩
    intro hs
    obtain ⟨s1, s2⟩ := hs
    unfold Vector2D.magnitude
    rw [hsq2, ← abs_of_nonneg s1]
    exact abs_eq_abs.mpr (mul_self_eq_mul_self_iff.mp s2)

/-- Witness of C23.  In `obliqueSim` the offset is (1, 1) and `refMath.sqrt 2 = 1`: the
velocity is (60, 60), with `|v|² * 1 = 60² * 2`.  In `meadowSim` the offset of
vegetation 0 from rabbit 0 is (3, 4), where `refMath.sqrt` is exact: the velocity is
(36, 48) and has magnitude 60, the speed.  In `overlapSim` the rabbit stands on the
vegetation and the velocity is the zero vector. -/
theorem C23_moveTowards_witness :
    (((Animal.moveTowards refMath obliqueSim 0 (Target.vegetation 0)).animalAt 0).velocity
        = ⟨60, 60⟩ ∧
      (((Animal.moveTowards refMath obliqueSim 0 (Target.vegetation 0)).animalAt 0).velocity.x
          * ((Animal.moveTowards refMath obliqueSim 0 (Target.vegetation 0)).animalAt 0).velocity.x
        + ((Animal.moveTowards refMath obliqueSim 0 (Target.vegetation 0)).animalAt 0).velocity.y
          * ((Animal.moveTowards refMath obliqueSim 0 (Target.vegetation 0)).animalAt 0).velocity.y)
          * ((1 : ℚ) * 1)
        = (obliqueSim.animalAt 0).traits.speed * (obliqueSim.animalAt 0).traits.speed
            * ((1 : ℚ) * 1 + 1 * 1)) ∧
    (refMath.SqrtExactAt ((3 : ℚ) * 3 + 4 * 4) ∧
      refMath.SqrtExactAt
        ((meadowSim.animalAt 0).traits.speed * (meadowSim.animalAt 0).traits.speed) ∧
      ((Animal.moveTowards refMath meadowSim 0 (Target.vegetation 0)).animalAt 0).velocity
        = ⟨36, 48⟩ ∧
      ((Animal.moveTowards refMath meadowSim 0 (Target.vegetation 0)).animalAt 0).velocity.magnitude
          refMath = |(meadowSim.animalAt 0).traits.speed|) ∧
    (overlapSim.targetPosition (Target.vegetation 0) = (overlapSim.animalAt 0).position ∧
      refMath.sqrt 0 = 0 ∧
      ((Animal.moveTowards refMath overlapSim 0 (Target.vegetation 0)).animalAt 0).velocity
        = ⟨0, 0⟩) :=
  ⟨⟨by decide!,
      ((C23_moveTowards refMath obliqueSim 0 (Target.vegetation 0) 1 1 1
        (by decide!) (by decide!) (by decide!)).2.2.2.2.1 (by decide!)).2⟩,
    ⟨by unfold MathEnv.SqrtExactAt; decide!, by unfold MathEnv.SqrtExactAt; decide!,
      by decide!,
      ((C23_moveTowards refMath meadowSim 0 (Target.vegetation 0) 3 4 5
        (by decide!) (by decide!) (by decide!)).2.2.2.2.2.2 (Or.inl (by decide!))
        (by unfold MathEnv.SqrtExactAt; decide!)).2.2
        (by unfold MathEnv.SqrtExactAt; decide!)⟩,
    ⟨by decide!, by decide!,
      (C23_moveTowards refMath overlapSim 0 (Target.vegetation 0) 0 0 0
        (by decide!) (by decide!) (by decide!)).2.2.2.1 rfl rfl (by decide!)⟩⟩

/-! ## C24: an animal that is eating -/

theorem Animal.updateMetabolism_course (a : Animal) (dt : ℚ) :
    (a.updateMetabolism dt).course = a.course := by
  unfold Animal.updateMetabolism Animal.course
  simp only
  split_ifs <;> rfl

/-- The step `update` of an animal that is eating keeps its behavior, target and
velocity. -/
theorem Animal.update_course_eating (M : MathEnv) (s : Sim) (self : Nat) (dt : ℚ)
    (h : (s.animalAt self).currentBehavior = Behavior.eating) :
    ((Animal.update M s self dt).animalAt self).course = (s.animalAt self).course := by
  obtain ⟨_, _, _, _, _, he⟩ := Animal.update_effect M s self dt
  have hset : (s.setAnimal self ((s.animalAt self).updateMetabolism dt)).animalAt self
      = (s.animalAt self).updateMetabolism dt := by
    show (if self = self then _ else _) = _
    rw [if_pos rfl]
  have hb := (Animal.updateMetabolism_behavior (s.animalAt self) dt).1
  have hd := Animal.updateDecision_eating M
    (s.setAnimal self ((s.animalAt self).updateMetabolism dt)) self
    (by rw [hset, hb]; exact h)
  have hbm : Animal.beforeMove M s self dt = (s.animalAt self).updateMetabolism dt := by
    unfold Animal.beforeMove
    rw [hd, hset]
  rw [he, hbm, ← Animal.updateMetabolism_course (s.animalAt self) dt]
  rfl

/-- A call of `tryEat` keeps the behavior, target and velocity of every other animal,
and those of the eater if it was eating from that target. -/
theorem Animal.tryEat_course (M : MathEnv) (s : Sim) (self : Nat) (t : Target) (j : Nat) :
    (Animal.tryEat M s self t).1.nextId = s.nextId ∧
    (j ≠ self → ((Animal.tryEat M s self t).1.animalAt j).course = (s.animalAt j).course) ∧
    ((s.animalAt self).currentBehavior = Behavior.eating →
      (s.animalAt self).currentTarget = some t →
      ((Animal.tryEat M s self t).1.animalAt self).course = (s.animalAt self).course) := by
  refine ⟨(Animal.tryEat_frame M s self t).2, ?_, ?_⟩
  · intro hj
    unfold Animal.tryEat
    simp only
    split
    · cases t with
      | vegetation veg => simp [Sim.setAnimal, Sim.setVeg, hj]
      | animal prey =>
        by_cases hp : j = prey
        · subst hp
          simp [Sim.setAnimal, hj, Animal.course]
        · simp [Sim.setAnimal, hj, hp]
    · rfl
  · intro hb ht
    unfold Animal.tryEat
    simp only
    split
    · cases t with
      | vegetation veg => simp [Sim.setAnimal, Sim.setVeg, Animal.course, hb, ht]
      | animal prey =>
        by_cases hp : self = prey
        · subst hp
          simp [Sim.setAnimal, Animal.course, hb, ht]
        · simp [Sim.setAnimal, hp, Animal.course, hb, ht]
    · rfl

theorem Sim.KeepsCourse.refl (s : Sim) (e : Nat) : s.KeepsCourse s e :=
  ⟨le_refl _, rfl⟩

theorem Sim.KeepsCourse.chain {s1 s2 s3 : Sim} {e : Nat} (h1 : s1.KeepsCourse s2 e)
    (h2 : s2.KeepsCourse s3 e) : s1.KeepsCourse s3 e :=
  ⟨le_trans h1.1 h2.1, h2.2.trans h1.2⟩

/-- The step `update` of `a` keeps the course of `e` if `e` is another animal or is
eating. -/
theorem Animal.update_keeps (M : MathEnv) (s : Sim) (a e : Nat) (dt : ℚ)
    (h : a ≠ e ∨ (s.animalAt e).currentBehavior = Behavior.eating) :
    s.KeepsCourse (Animal.update M s a dt) e := by
  obtain ⟨_, hn, _, hf, _, _⟩ := Animal.update_effect M s a dt
  refine ⟨le_of_eq hn.symm, ?_⟩
  by_cases hae : a = e
  · subst hae
    rcases h with h | h
    · exact absurd rfl h
    · exact Animal.update_course_eating M s a dt h
  · rw [hf e (Ne.symm hae)]

/-- The reset after a meal writes no animal but the eater. -/
theorem World.afterMeal_other (s : Sim) (animal j : Nat) (hj : j ≠ animal) :
    (World.afterMeal s animal).nextId = s.nextId ∧
    (World.afterMeal s animal).animalAt j = s.animalAt j := by
  unfold World.afterMeal
  simp only
  split <;> exact ⟨rfl, by show (if j = animal then _ else _) = _; rw [if_neg hj]⟩

/-- The feeding check of `a` keeps the course of `e` if `e` is another animal, or is
eating and the check makes no call of `tryEat` that returns true. -/
theorem World.checkFeeding_keeps (M : MathEnv) (s : Sim) (a e : Nat)
    (h : a ≠ e ∨ ((s.animalAt e).currentBehavior = Behavior.eating ∧ World.mealFails M s e)) :
    s.KeepsCourse (World.checkFeeding M s a) e := by
  apply World.checkFeeding_cases M s a (fun s2 => s.KeepsCourse s2 e)
  · intro _
    exact Sim.KeepsCourse.refl s e
  · intro t ht hfalse
    obtain ⟨hn, ho, hs⟩ := Animal.tryEat_course M s a t e
    refine ⟨le_of_eq hn.symm, ?_⟩
    by_cases hae : a = e
    · subst hae
      rcases h with h | h
      · exact absurd rfl h
      · apply hs h.1
        unfold World.feedingTarget at ht
        cases hc : (s.animalAt a).currentTarget with
        | none => rw [hc] at ht; exact Option.noConfusion ht
        | some target =>
          rw [hc] at ht
          simp only at ht
          split at ht
          · cases target with
            | vegetation veg => exact ht
            | animal prey =>
              simp only at ht
              split at ht
              · exact ht
              · exact Option.noConfusion ht
          · exact Option.noConfusion ht
    · exact ho (Ne.symm hae)
  · intro t ht htrue
    by_cases hae : a = e
    · subst hae
      rcases h with h | h
      · exact absurd rfl h
      · have := h.2 t ht
        rw [this] at htrue
        exact Bool.noConfusion htrue
    · obtain ⟨hn, ho, _⟩ := Animal.tryEat_course M s a t e
      obtain ⟨an, aj⟩ := World.afterMeal_other (Animal.tryEat M s a t).1 a e (Ne.symm hae)
      exact ⟨le_of_eq (an.trans hn).symm, by rw [aj]; exact ho (Ne.symm hae)⟩

/-- `reproduce` writes the cooldown of the two parents only: every animal keeps its
behavior, target and velocity. -/
theorem Animal.reproduce_course (M : MathEnv) (s : Sim) (self partner j : Nat) :
    ((Animal.reproduce M s self partner).2.animalAt j).course = (s.animalAt j).course := by
  unfold Animal.reproduce
  simp only
  split
  · split
    · by_cases h1 : j = partner
      · subst h1
        by_cases h2 : j = self
        · subst h2; simp [Sim.setAnimal, Animal.course]
        · simp [Sim.setAnimal, Animal.course, h2]
      · by_cases h2 : j = self
        · subst h2; simp [Sim.setAnimal, Animal.course, h1]
        · simp [Sim.setAnimal, h1, h2]
    · rfl
  · rfl

/-- The push of an offspring creates a new object and writes no other. -/
theorem World.addOffspring_keeps (s : Sim) (animal mate : Nat) (child : Animal) (e : Nat)
    (he : e < s.nextId) : s.KeepsCourse (World.addOffspring s animal mate child) e := by
  refine ⟨?_, ?_⟩
  · rw [(World.addOffspring_spec s animal mate child).2]
    exact Nat.le_succ _
  · unfold World.addOffspring
    show Animal.course (if e = s.nextId then _ else _) = _
    rw [if_neg (Nat.ne_of_lt he)]

theorem World.mateAndReproduce_keeps (M : MathEnv) (s : Sim) (animal e : Nat)
    (he : e < s.nextId) : s.KeepsCourse (World.mateAndReproduce M s animal) e := by
  unfold World.mateAndReproduce
  have hm := Animal.findMate_state M s animal
  generalize Animal.findMate M s animal = fm at hm ⊢
  obtain ⟨mate, s2⟩ := fm
  have k2 : s.KeepsCourse s2 e := by
    simp only at hm
    rw [hm]
    exact ⟨le_refl _, rfl⟩
  cases mate with
  | none => exact k2
  | some m =>
    show s.KeepsCourse (if _ then _ else _) e
    split
    · have hr := Animal.reproduce_frame M s2 animal m
      have hc := Animal.reproduce_course M s2 animal m e
      generalize Animal.reproduce M s2 animal m = rp at hr hc ⊢
      obtain ⟨offspring, s3⟩ := rp
      have k3 : s2.KeepsCourse s3 e := ⟨le_of_eq hr.2.symm, hc⟩
      cases offspring with
      | none => exact k2.chain k3
      | some child =>
        have he3 : e < s3.nextId := lt_of_lt_of_le he (k2.chain k3).1
        exact (k2.chain k3).chain (World.addOffspring_keeps s3 animal m child e he3)
    · exact k2

/-- The reproduction check of any animal keeps the course of an animal that exists. -/
theorem World.checkReproduction_keeps (M : MathEnv) (s : Sim) (animal e : Nat)
    (he : e < s.nextId) : s.KeepsCourse (World.checkReproduction M s animal) e := by
  unfold World.checkReproduction
  generalize (s.animalAt animal).canReproduce s.rng = cr
  obtain ⟨ok, r⟩ := cr
  show s.KeepsCourse (if _ then _ else _) e
  split
  · show s.KeepsCourse (if _ then _ else _) e
    split
    · refine Sim.KeepsCourse.chain ?_ (World.mateAndReproduce_keeps M _ animal e he)
      exact ⟨le_refl _, rfl⟩
    · exact ⟨le_refl _, rfl⟩
  · exact ⟨le_refl _, rfl⟩

theorem World.removeDead_keeps (s : Sim) (animal i e : Nat) :
    s.KeepsCourse (World.removeDead s animal i) e := by
  unfold World.removeDead
  split
  · exact ⟨le_refl _, rfl⟩
  · exact ⟨le_refl _, rfl⟩

/-- An animal that satisfies `cannotEat` makes no call of `tryEat` that returns true. -/
theorem Animal.cannotEat_mealFails (M : MathEnv) (s : Sim) (self : Nat)
    (h : Animal.cannotEat M s self) : World.mealFails M s self := by
  intro t ht
  have ht : World.feedingTarget s self = some t := ht
  unfold World.feedingTarget at ht
  cases hc : (s.animalAt self).currentTarget with
  | none => rw [hc] at ht; exact Option.noConfusion ht
  | some target =>
    rw [hc] at ht
    simp only at ht
    split at ht
    · rename_i hh
      have e : target = t := by
        cases target with
        | vegetation veg => exact Option.some.inj ht
        | animal prey =>
          simp only at ht
          split at ht
          · exact Option.some.inj ht
          · exact Option.noConfusion ht
      rcases h with h | h
      · exact absurd hh (not_lt.mpr h)
      · have hd := h t (by rw [hc, e]; rfl)
        unfold Animal.tryEat
        simp only
        rw [if_neg (not_lt.mpr hd)]
    · exact Option.noConfusion ht

theorem World.ownSteps_mono (M : MathEnv) (dt : ℚ) (e : Nat) (Q Q2 : Sim → Prop)
    (h : ∀ s, Q s → Q2 s) :
    ∀ (n : Nat) (s : Sim), World.ownSteps M dt e Q n s → World.ownSteps M dt e Q2 n s := by
  intro n
  induction n with
  | zero => intro _ _; trivial
  | succ i ih =>
    intro s hs
    exact ⟨fun ha => h _ (hs.1 ha), fun s1 h1 => ih s1 (hs.2 s1 h1)⟩

/-- One iteration of the loop keeps the course of an eating animal `e` if it steps
another animal, or if the feeding check of `e` makes no call of `tryEat` that returns
true. -/
theorem World.updateAnimal_keeps (M : MathEnv) (dt : ℚ) (i : Nat) (s s1 : Sim) (e : Nat)
    (he : e < s.nextId) (hb : (s.animalAt e).currentBehavior = Behavior.eating)
    (hq : s.world.animals[i]? = some e → World.mealFails M (Animal.update M s e dt) e)
    (h1 : World.updateAnimal M dt i s = some s1) : s.KeepsCourse s1 e := by
  unfold World.updateAnimal at h1
  cases ha : s.world.animals[i]? with
  | none => rw [ha] at h1; exact Option.noConfusion h1
  | some a =>
    rw [ha] at h1
    have h1 := Option.some.inj h1
    rw [← h1]
    have k1 := Animal.update_keeps M s a e dt (Or.inr hb)
    have hb1 : ((Animal.update M s a dt).animalAt e).currentBehavior = Behavior.eating := by
      have := congrArg (fun c : Behavior × Option Target × Vector2D => c.1) k1.2
      exact this.trans hb
    have k2 : (Animal.update M s a dt).KeepsCourse
        (World.checkFeeding M (Animal.update M s a dt) a) e := by
      apply World.checkFeeding_keeps
      by_cases hae : a = e
      · right
        refine ⟨hb1, ?_⟩
        rw [hae] at ha ⊢
        exact hq ha
      · exact Or.inl hae
    have k3 := World.checkReproduction_keeps M
      (World.checkFeeding M (Animal.update M s a dt) a) a e
      (lt_of_lt_of_le he (k1.chain k2).1)
    exact ((k1.chain k2).chain k3).chain (World.removeDead_keeps _ a i e)

/-- The loop keeps the course of an eating animal whose feeding checks make no call of
`tryEat` that returns true. -/
theorem World.updateAnimals_keeps (M : MathEnv) (dt : ℚ) (e : Nat) :
    ∀ (n : Nat) (s s2 : Sim), e < s.nextId →
      (s.animalAt e).currentBehavior = Behavior.eating →
      World.ownSteps M dt e (fun s1 => World.mealFails M s1 e) n s →
      World.updateAnimals M dt n s = some s2 → s.KeepsCourse s2 e := by
  intro n
  induction n with
  | zero =>
    intro s s2 _ _ _ h
    have h : some s = some s2 := h
    rw [← Option.some.inj h]
    exact Sim.KeepsCourse.refl s e
  | succ i ih =>
    intro s s2 he hb hq h
    have h : (World.updateAnimal M dt i s).bind (World.updateAnimals M dt i) = some s2 := h
    cases h1 : World.updateAnimal M dt i s with
    | none => rw [h1] at h; exact Option.noConfusion h
    | some s1 =>
      rw [h1] at h
      have h : World.updateAnimals M dt i s1 = some s2 := h
      have k1 := World.updateAnimal_keeps M dt i s s1 e he hb hq.1 h1
      have hb1 : (s1.animalAt e).currentBehavior = Behavior.eating := by
        have := congrArg (fun c : Behavior × Option Target × Vector2D => c.1) k1.2
        exact this.trans hb
      exact k1.chain (ih s1 s2 (lt_of_lt_of_le he k1.1) hb1 (hq.2 s1 h1) h)

/-- Growing and spawning vegetation write no animal. -/
theorem World.vegetation_steps_animalAt (s : Sim) :
    (World.spawnVegetation (World.growVegetation s)).animalAt = s.animalAt := by
  have hg : ∀ (l : List Nat) (s : Sim),
      (l.foldl (fun s veg => s.setVeg veg (s.vegAt veg).grow) s).animalAt = s.animalAt := by
    intro l
    induction l with
    | nil => intro s; rfl
    | cons v l ih =>
      intro s
      rw [List.foldl_cons, ih]
      rfl
  have hs : ∀ s : Sim, (World.spawnVegetation s).animalAt = s.animalAt := by
    intro s
    unfold World.spawnVegetation
    split
    · simp only
      split
      · rfl
      · rfl
    · rfl
  rw [hs]
  exact hg _ s

/-- Claim C24: an animal of a well-formed world that is `eating` at the start of an
unpaused tick, and that after each of its own `update` steps in the tick has hunger at
most 50 or a target that is not within eating range (distance at least `size + 5`), is
still `eating` at the end of the tick, with the same target and the same velocity.  More
generally the same holds whenever none of its feeding checks makes a call of `tryEat`
that returns true, which the first condition implies: the decision is skipped for an
eating animal and no other step of the tick writes the three fields. -/
theorem C24_eating_persists (M : MathEnv) (s : Sim) (deltaTime : ℚ) (e : Nat)
    (hwf : s.WF) (he : e ∈ s.world.animals) (hp : s.world.paused = false)
    (hb : (s.animalAt e).currentBehavior = Behavior.eating) :
    (World.ownSteps M (deltaTime * s.world.speed) e (fun s1 => Animal.cannotEat M s1 e)
        s.world.animals.length (World.tickStart s deltaTime) →
      ∃ s2, World.update M s deltaTime = some s2 ∧
        (s2.animalAt e).currentBehavior = Behavior.eating ∧
        (s2.animalAt e).currentTarget = (s.animalAt e).currentTarget ∧
        (s2.animalAt e).velocity = (s.animalAt e).velocity) ∧
    (World.ownSteps M (deltaTime * s.world.speed) e (fun s1 => World.mealFails M s1 e)
        s.world.animals.length (World.tickStart s deltaTime) →
      ∃ s2, World.update M s deltaTime = some s2 ∧
        (s2.animalAt e).currentBehavior = Behavior.eating ∧
        (s2.animalAt e).currentTarget = (s.animalAt e).currentTarget ∧
        (s2.animalAt e).velocity = (s.animalAt e).velocity) ∧
    (∀ s1, Animal.cannotEat M s1 e → World.mealFails M s1 e) ∧
    ((Animal.update M s e deltaTime).animalAt e).course = (s.animalAt e).course := by
  have main : World.ownSteps M (deltaTime * s.world.speed) e
      (fun s1 => World.mealFails M s1 e) s.world.animals.length
      (World.tickStart s deltaTime) →
      ∃ s2, World.update M s deltaTime = some s2 ∧
        (s2.animalAt e).currentBehavior = Behavior.eating ∧
        (s2.animalAt e).currentTarget = (s.animalAt e).currentTarget ∧
        (s2.animalAt e).velocity = (s.animalAt e).velocity := by
    intro hq
    obtain ⟨s1, e1, e2⟩ := World.update_parts M s deltaTime hwf hp
    have k := World.updateAnimals_keeps M (deltaTime * s.world.speed) e
      s.world.animals.length (World.tickStart s deltaTime) s1 (hwf.2 e he) hb hq e1
    have hc : ((World.spawnVegetation (World.growVegetation s1)).animalAt e).course
        = (s.animalAt e).course := by
      rw [World.vegetation_steps_animalAt]
      exact k.2
    refine ⟨_, e2, ?_, ?_, ?_⟩
    · have := congrArg (fun c : Behavior × Option Target × Vector2D => c.1) hc
      exact this.trans hb
    · have := congrArg (fun c : Behavior × Option Target × Vector2D => c.2.1) hc
      exact this
    · have := congrArg (fun c : Behavior × Option Target × Vector2D => c.2.2) hc
      exact this
  refine ⟨fun hq => main ?_, main, fun s1 => Animal.cannotEat_mealFails M s1 e,
    Animal.update_course_eating M s e deltaTime hb⟩
  exact World.ownSteps_mono M _ e _ _ (fun s1 => Animal.cannotEat_mealFails M s1 e) _ _ hq

theorem coastingSim_wf : coastingSim.WF := by
  unfold Sim.WF
  decide!

/-- Witness of C24: rabbit 0 of `coastingSim` is eating with hunger 30; after the tick
it is still eating from vegetation 0 and keeps its velocity `(60, 0)`. -/
theorem C24_eating_persists_witness :
    coastingSim.WF ∧ 0 ∈ coastingSim.world.animals ∧ coastingSim.world.paused = false ∧
    (coastingSim.animalAt 0).currentBehavior = Behavior.eating ∧
    World.ownSteps refMath (1 / 20 * coastingSim.world.speed) 0
      (fun s1 => Animal.cannotEat refMath s1 0) coastingSim.world.animals.length
      (World.tickStart coastingSim (1 / 20)) ∧
    ∃ s2, World.update refMath coastingSim (1 / 20) = some s2 ∧
      (s2.animalAt 0).currentBehavior = Behavior.eating ∧
      (s2.animalAt 0).currentTarget = (coastingSim.animalAt 0).currentTarget ∧
      (s2.animalAt 0).velocity = (coastingSim.animalAt 0).velocity :=
  ⟨coastingSim_wf, by decide!, by decide!, by decide!, by decide!,
    (C24_eating_persists refMath coastingSim (1 / 20) 0 coastingSim_wf (by decide!)
      (by decide!) (by decide!)).1 (by decide!)⟩

/-! ## C2: the removal of the dead -/

/-- The first part of `update` keeps `maxHealth`, and with a step that is not negative it
takes off the health at most the decay at the largest multiplier plus the loss of a
starving animal. -/
theorem Animal.updateMetabolism_health_bound (a : Animal) (dt : ℚ) (hdt : 0 ≤ dt)
    (hsize : 0 < a.traits.size) :
    (a.updateMetabolism dt).maxHealth = a.maxHealth ∧
    a.health - (dt * (0.3 / (a.traits.size / 10)) * 2 + dt * 2)
      ≤ (a.updateMetabolism dt).health := by
  constructor
  · unfold Animal.updateMetabolism
    simp only
    split_ifs <;> rfl
  · rw [(Animal.updateMetabolism_fields a dt).2.2.2.1]
    have hc : 0 ≤ dt * (0.3 / (a.traits.size / 10)) := by
      apply mul_nonneg hdt
      apply div_nonneg (by norm_num)
      exact le_of_lt (div_pos hsize (by norm_num))
    generalize dt * (0.3 / (a.traits.size / 10)) = c at hc ⊢
    have h1 : c * (if (a.age + dt) / a.maxAge < 0.3 then 0.5
        else (if (a.age + dt) / a.maxAge > 0.7 then 2.0 else 1.0)) ≤ c * 2 := by
      apply mul_le_mul_of_nonneg_left _ hc
      split_ifs <;> norm_num
    have h2 : (if (a.updateMetabolism dt).hunger > 80 then dt * 2 else 0) ≤ dt * 2 := by
      split_ifs
      · exact le_refl _
      · linarith
    linarith

/-- The target that `findTarget` returns is never the animal itself. -/
theorem Animal.findTarget_ne_self (M : MathEnv) (s : Sim) (self : Nat) :
    (Animal.findTarget M s self).1 ≠ some (Target.animal self) := by
  unfold Animal.findTarget
  simp only
  split
  · exact Animal.findFood_ne_self M s self
  · generalize (s.animalAt self).canReproduce s.rng = cr
    obtain ⟨ok, r⟩ := cr
    simp only
    split
    · split
      · have h := Animal.findMate_ne_self M { s with rng := r.next.2 } self
        generalize Animal.findMate M { s with rng := r.next.2 } self = fm at h ⊢
        obtain ⟨mate, s2⟩ := fm
        cases mate with
        | none => exact fun e => Option.noConfusion e
        | some m =>
          intro e
          apply h
          have e2 : Target.animal m = Target.animal self := Option.some.inj e
          rw [Target.animal.inj e2]
      · exact fun e => Option.noConfusion e
    · exact fun e => Option.noConfusion e

/-- What `Animal.update` does to the fields that decide about death: only the health of
`this` is written, by the first part; the target of `this` stays different from `this`. -/
theorem Animal.update_vitals (M : MathEnv) (s : Sim) (self : Nat) (dt : ℚ) :
    ((Animal.update M s self dt).animalAt self).health
      = ((s.animalAt self).updateMetabolism dt).health ∧
    ((Animal.update M s self dt).animalAt self).maxHealth
      = ((s.animalAt self).updateMetabolism dt).maxHealth ∧
    ((Animal.update M s self dt).animalAt self).traits = (s.animalAt self).traits ∧
    ((s.animalAt self).currentTarget ≠ some (Target.animal self) →
      ((Animal.update M s self dt).animalAt self).currentTarget
        ≠ some (Target.animal self)) := by
  obtain ⟨_, _, _, _, hb, he⟩ := Animal.update_effect M s self dt
  unfold Animal.SameBody at hb
  have e1 := congrArg Animal.health hb
  have e2 := congrArg Animal.maxHealth hb
  have e3 := congrArg Animal.traits hb
  have p1 := congrArg Animal.health
    (Animal.updatePosition_body M s.world.width s.world.height
      (Animal.beforeMove M s self dt) dt)
  have p2 := congrArg Animal.maxHealth
    (Animal.updatePosition_body M s.world.width s.world.height
      (Animal.beforeMove M s self dt) dt)
  have p3 := congrArg Animal.traits
    (Animal.updatePosition_body M s.world.width s.world.height
      (Animal.beforeMove M s self dt) dt)
  rw [← he] at p1 p2 p3
  refine ⟨p1.trans e1, p2.trans e2,
    (p3.trans e3).trans (Animal.updateMetabolism_fields (s.animalAt self) dt).2.2.2.2.2.2.1, ?_⟩
  intro ht
  by_cases hb : (s.animalAt self).currentBehavior = Behavior.eating
  · rw [((Animal.update_target M s self dt).2 hb).1]
    exact ht
  · rw [(Animal.update_target M s self dt).1 hb]
    exact Animal.findTarget_ne_self M _ self

/-- What `tryEat` does to the animal objects: the eater keeps `maxHealth` and `traits` and
its target becomes the eaten target or stays; a prey that is eaten has its health set to 0
and the eater is healed by 20 up to `maxHealth`; no other animal object is written, and
none at all when the call returns false on an animal or is made on a vegetation. -/
theorem Animal.tryEat_objects (M : MathEnv) (s : Sim) (self : Nat) (t : Target) :
    (∀ j, j ≠ self → t ≠ Target.animal j → (Animal.tryEat M s self t).1.animalAt j = s.animalAt j) ∧
    (∀ p, p ≠ self → t = Target.animal p → (Animal.tryEat M s self t).2 = true →
      (Animal.tryEat M s self t).1.animalAt p = { s.animalAt p with health := 0 } ∧
      ((Animal.tryEat M s self t).1.animalAt self).health
        = min (s.animalAt self).maxHealth ((s.animalAt self).health + 20)) ∧
    ((Animal.tryEat M s self t).2 = false →
      ∀ j, j ≠ self → (Animal.tryEat M s self t).1.animalAt j = s.animalAt j) ∧
    ((Animal.tryEat M s self t).1.animalAt self).maxHealth = (s.animalAt self).maxHealth ∧
    ((Animal.tryEat M s self t).1.animalAt self).traits = (s.animalAt self).traits ∧
    (((Animal.tryEat M s self t).1.animalAt self).currentTarget
        = (s.animalAt self).currentTarget ∨
      ((Animal.tryEat M s self t).1.animalAt self).currentTarget = some t) := by
  unfold Animal.tryEat
  simp only
  split
  · cases t with
    | vegetation veg =>
      refine ⟨?_, ?_, ?_, ?_, ?_, ?_⟩
      · intro j hj _
        simp [Sim.setAnimal, Sim.setVeg, hj]
      · intro p _ hp
        exact Target.noConfusion hp
      · intro _ j hj
        simp [Sim.setAnimal, Sim.setVeg, hj]
      · simp [Sim.setAnimal, Sim.setVeg]
      · simp [Sim.setAnimal, Sim.setVeg]
      · right
        simp [Sim.setAnimal, Sim.setVeg]
    | animal prey =>
      refine ⟨?_, ?_, ?_, ?_, ?_, ?_⟩
      · intro j hj ht
        have hjp : j ≠ prey := fun e => ht (by rw [e])
        simp [Sim.setAnimal, hj, hjp]
      · intro p hp ht _
        have e : prey = p := Target.animal.inj ht
        subst e
        have hne : self ≠ prey := Ne.symm hp
        constructor
        · simp [Sim.setAnimal, hp]
        · simp [Sim.setAnimal, hne]
      · intro h
        simp at h
      · by_cases hp : self = prey
        · subst hp
          simp [Sim.setAnimal]
        · simp [Sim.setAnimal, hp]
      · by_cases hp : self = prey
        · subst hp
          simp [Sim.setAnimal]
        · simp [Sim.setAnimal, hp]
      · right
        by_cases hp : self = prey
        · subst hp
          simp [Sim.setAnimal]
        · simp [Sim.setAnimal, hp]
  · exact ⟨fun _ _ _ => rfl, fun _ _ _ h => Bool.noConfusion h, fun _ _ _ => rfl, rfl, rfl,
      Or.inl rfl⟩

/-- The reset after a meal keeps every field of the eater but its behavior and target,
and the filter removes exactly the eaten animal from the collection. -/
theorem World.afterMeal_eater (s : Sim) (animal : Nat) :
    ((World.afterMeal s animal).animalAt animal).health = (s.animalAt animal).health ∧
    ((World.afterMeal s animal).animalAt animal).maxHealth = (s.animalAt animal).maxHealth ∧
    ((World.afterMeal s animal).animalAt animal).traits = (s.animalAt animal).traits ∧
    ((World.afterMeal s animal).animalAt animal).currentTarget = none ∧
    (∀ veg, (s.animalAt animal).currentTarget = some (Target.vegetation veg) →
      (World.afterMeal s animal).world.animals = s.world.animals) ∧
    (∀ prey, (s.animalAt animal).currentTarget = some (Target.animal prey) →
      (World.afterMeal s animal).world.animals
        = s.world.animals.filter (fun a => decide (a ≠ prey))) := by
  unfold World.afterMeal
  simp only
  refine ⟨?_, ?_, ?_, ?_, ?_, ?_⟩
  · split <;> simp [Sim.setAnimal]
  · split <;> simp [Sim.setAnimal]
  · split <;> simp [Sim.setAnimal]
  · split <;> simp [Sim.setAnimal]
  · intro veg h
    rw [h]
    rfl
  · intro prey h
    rw [h]
    rfl

/-- The feeding check on the fields that decide about death.  No `maxHealth`, `traits` or
target of another animal is written and the eater does not become its own target.  Either
the animal collection is kept and no health of another animal is written, or one other
animal `p` is eaten: it is filtered out, its health is 0, and the eater is healed by 20
up to `maxHealth`. -/
theorem World.checkFeeding_vitals (M : MathEnv) (s : Sim) (animal : Nat)
    (hself : (s.animalAt animal).currentTarget ≠ some (Target.animal animal)) :
    (World.checkFeeding M s animal).nextId = s.nextId ∧
    (∀ j, ((World.checkFeeding M s animal).animalAt j).maxHealth = (s.animalAt j).maxHealth ∧
      ((World.checkFeeding M s animal).animalAt j).traits = (s.animalAt j).traits) ∧
    (∀ j, j ≠ animal →
      ((World.checkFeeding M s animal).animalAt j).currentTarget
        = (s.animalAt j).currentTarget) ∧
    ((World.checkFeeding M s animal).animalAt animal).currentTarget
      ≠ some (Target.animal animal) ∧
    (((World.checkFeeding M s animal).world.animals = s.world.animals ∧
        ∀ j, j ≠ animal →
          ((World.checkFeeding M s animal).animalAt j).health = (s.animalAt j).health) ∨
      (∃ p, p ≠ animal ∧
        (World.checkFeeding M s animal).world.animals
          = s.world.animals.filter (fun a => decide (a ≠ p)) ∧
        ((World.checkFeeding M s animal).animalAt p).health = 0 ∧
        (∀ j, j ≠ animal → j ≠ p →
          ((World.checkFeeding M s animal).animalAt j).health = (s.animalAt j).health) ∧
        ((World.checkFeeding M s animal).animalAt animal).health
          = min (s.animalAt animal).maxHealth ((s.animalAt animal).health + 20))) := by
  refine ⟨(World.checkFeeding_spec M s animal).1, ?_⟩
  apply World.checkFeeding_cases M s animal (fun s2 =>
    (∀ j, (s2.animalAt j).maxHealth = (s.animalAt j).maxHealth ∧
      (s2.animalAt j).traits = (s.animalAt j).traits) ∧
    (∀ j, j ≠ animal → (s2.animalAt j).currentTarget = (s.animalAt j).currentTarget) ∧
    (s2.animalAt animal).currentTarget ≠ some (Target.animal animal) ∧
    ((s2.world.animals = s.world.animals ∧
        ∀ j, j ≠ animal → (s2.animalAt j).health = (s.animalAt j).health) ∨
      (∃ p, p ≠ animal ∧
        s2.world.animals = s.world.animals.filter (fun a => decide (a ≠ p)) ∧
        (s2.animalAt p).health = 0 ∧
        (∀ j, j ≠ animal → j ≠ p → (s2.animalAt j).health = (s.animalAt j).health) ∧
        (s2.animalAt animal).health
          = min (s.animalAt animal).maxHealth ((s.animalAt animal).health + 20))))
  · intro _
    exact ⟨fun _ => ⟨rfl, rfl⟩, fun _ _ => rfl, hself, Or.inl ⟨rfl, fun _ _ => rfl⟩⟩
  · intro t ht hfalse
    obtain ⟨_, _, o3, o4, o5, o6⟩ := Animal.tryEat_objects M s animal t
    have hct := ((World.feedingTarget_after_update M s animal 0).2.1 t ht).1
    refine ⟨?_, ?_, ?_, Or.inl ⟨(Animal.tryEat_frame M s animal t).1 ▸ rfl, ?_⟩⟩
    · intro j
      by_cases hj : j = animal
      · rw [hj]; exact ⟨o4, o5⟩
      · rw [o3 hfalse j hj]; exact ⟨rfl, rfl⟩
    · intro j hj
      rw [o3 hfalse j hj]
    · rcases o6 with e | e
      · rw [e]; exact hself
      · rw [e, ← hct]; exact hself
    · intro j hj
      rw [o3 hfalse j hj]
  · intro t ht htrue
    obtain ⟨o1, o2, _, o4, o5, _⟩ := Animal.tryEat_objects M s animal t
    have hct := ((World.feedingTarget_after_update M s animal 0).2.1 t ht).1
    have hw := (Animal.tryEat_frame M s animal t).1
    have hcur := (Animal.tryEat_effect M s animal t).2.2.2 htrue
    obtain ⟨a1, a2, a3, a4, a5, a6⟩ := World.afterMeal_eater (Animal.tryEat M s animal t).1 animal
    have hother : ∀ j, j ≠ animal →
        (World.afterMeal (Animal.tryEat M s animal t).1 animal).animalAt j
          = (Animal.tryEat M s animal t).1.animalAt j :=
      fun j hj => (World.afterMeal_other _ animal j hj).2
    cases t with
    | vegetation veg =>
      have hne : ∀ j, Target.vegetation veg ≠ Target.animal j := fun j e => Target.noConfusion e
      refine ⟨?_, ?_, ?_, Or.inl ⟨?_, ?_⟩⟩
      · intro j
        by_cases hj : j = animal
        · rw [hj, a2, a3]; exact ⟨o4, o5⟩
        · rw [hother j hj, o1 j hj (hne j)]; exact ⟨rfl, rfl⟩
      · intro j hj
        rw [hother j hj, o1 j hj (hne j)]
      · rw [a4]; exact fun e => Option.noConfusion e
      · rw [a5 veg hcur, hw]
      · intro j hj
        rw [hother j hj, o1 j hj (hne j)]
    | animal prey =>
      have hp : prey ≠ animal := by
        intro e
        apply hself
        rw [hct, e]
      obtain ⟨p1, p2⟩ := o2 prey hp rfl htrue
      have hne : ∀ j, j ≠ prey → Target.animal prey ≠ Target.animal j :=
        fun j hj e => hj (Target.animal.inj e).symm
      refine ⟨?_, ?_, ?_, Or.inr ⟨prey, hp, ?_, ?_, ?_, ?_⟩⟩
      · intro j
        by_cases hj : j = animal
        · rw [hj, a2, a3]; exact ⟨o4, o5⟩
        · rw [hother j hj]
          by_cases hjp : j = prey
          · rw [hjp, p1]; exact ⟨rfl, rfl⟩
          · rw [o1 j hj (hne j hjp)]; exact ⟨rfl, rfl⟩
      · intro j hj
        rw [hother j hj]
        by_cases hjp : j = prey
        · rw [hjp, p1]
        · rw [o1 j hj (hne j hjp)]
      · rw [a4]; exact fun e => Option.noConfusion e
      · rw [a6 prey hcur, hw]
      · rw [hother prey hp, p1]
      · intro j hj hjp
        rw [hother j hj, o1 j hj (hne j hjp)]
      · rw [a1, p2]

theorem Sim.KeepsVitals.rfl_vitals (s : Sim) : s.KeepsVitals s :=
  ⟨le_refl _, fun _ _ => rfl⟩

theorem Sim.KeepsVitals.chain_vitals {s1 s2 s3 : Sim} (h1 : s1.KeepsVitals s2)
    (h2 : s2.KeepsVitals s3) : s1.KeepsVitals s3 :=
  ⟨le_trans h1.1 h2.1, fun j hj => (h2.2 j (lt_of_lt_of_le hj h1.1)).trans (h1.2 j hj)⟩

/-- `reproduce` writes the cooldown of the two parents only, and a new animal has
health 100. -/
theorem Animal.reproduce_vitals (M : MathEnv) (s : Sim) (self partner : Nat) :
    (∀ j, ((Animal.reproduce M s self partner).2.animalAt j).vitals = (s.animalAt j).vitals) ∧
    (∀ child, (Animal.reproduce M s self partner).1 = some child → child.health = 100) := by
  unfold Animal.reproduce
  simp only
  split
  · split
    · constructor
      · intro j
        by_cases h1 : j = partner
        · subst h1
          by_cases h2 : j = self
          · subst h2; simp [Sim.setAnimal, Animal.vitals]
          · simp [Sim.setAnimal, Animal.vitals, h2]
        · by_cases h2 : j = self
          · subst h2; simp [Sim.setAnimal, Animal.vitals, h1]
          · simp [Sim.setAnimal, h1, h2]
      · intro child hc
        have e := Option.some.inj hc
        rw [← e]
        rfl
    · exact ⟨fun _ => rfl, fun _ h => Option.noConfusion h⟩
  · exact ⟨fun _ => rfl, fun _ h => Option.noConfusion h⟩

/-- The offspring keeps the health it was built with. -/
theorem Animal.inheritTraits_health (self p1 p2 : Animal) (r : Rng) :
    (self.inheritTraits p1 p2 r).1.health = self.health :=
  rfl

/-- The push of an offspring creates a new object with the health of the child and writes
no other object. -/
theorem World.addOffspring_vitals (s : Sim) (animal mate : Nat) (child : Animal) :
    s.KeepsVitals (World.addOffspring s animal mate child) ∧
    (World.addOffspring s animal mate child).world.animals = s.world.animals ++ [s.nextId] ∧
    ((World.addOffspring s animal mate child).animalAt s.nextId).health = child.health := by
  refine ⟨⟨?_, ?_⟩, (World.addOffspring_spec s animal mate child).1, ?_⟩
  · rw [(World.addOffspring_spec s animal mate child).2]
    exact Nat.le_succ _
  · intro j hj
    unfold World.addOffspring
    show Animal.vitals (if j = s.nextId then _ else _) = _
    rw [if_neg (Nat.ne_of_lt hj)]
  · unfold World.addOffspring
    show Animal.health (if s.nextId = s.nextId then _ else _) = _
    rw [if_pos rfl]
    exact Animal.inheritTraits_health child _ _ _

/-- The reproduction check keeps the vitals of every existing animal; it keeps the
collection or pushes one new animal, which has positive health. -/
theorem World.checkReproduction_vitals (M : MathEnv) (s : Sim) (animal : Nat) :
    s.KeepsVitals (World.checkReproduction M s animal) ∧
    ((World.checkReproduction M s animal).world.animals = s.world.animals ∨
      ((World.checkReproduction M s animal).world.animals = s.world.animals ++ [s.nextId] ∧
        0 < ((World.checkReproduction M s animal).animalAt s.nextId).health)) := by
  have key : ∀ s0 : Sim, s0.world = s.world → s0.nextId = s.nextId →
      s0.animalAt = s.animalAt →
      s.KeepsVitals (World.mateAndReproduce M s0 animal) ∧
      ((World.mateAndReproduce M s0 animal).world.animals = s.world.animals ∨
        ((World.mateAndReproduce M s0 animal).world.animals = s.world.animals ++ [s.nextId] ∧
          0 < ((World.mateAndReproduce M s0 animal).animalAt s.nextId).health)) := by
    intro s0 hw hn ha
    have k0 : s.KeepsVitals s0 := ⟨le_of_eq hn.symm, fun j _ => by rw [ha]⟩
    unfold World.mateAndReproduce
    have hm := Animal.findMate_state M s0 animal
    generalize Animal.findMate M s0 animal = fm at hm ⊢
    obtain ⟨mate, s2⟩ := fm
    simp only at hm
    have k2 : s.KeepsVitals s2 := by
      rw [hm]
      exact k0
    have w2 : s2.world = s.world := by rw [hm]; exact hw
    have n2 : s2.nextId = s.nextId := by rw [hm]; exact hn
    cases mate with
    | none => exact ⟨k2, Or.inl (by rw [w2])⟩
    | some m =>
      show (fun s3 : Sim => s.KeepsVitals s3 ∧
        (s3.world.animals = s.world.animals ∨
          (s3.world.animals = s.world.animals ++ [s.nextId] ∧
            0 < (s3.animalAt s.nextId).health))) (if _ then _ else _)
      split
      · have hr := Animal.reproduce_frame M s2 animal m
        obtain ⟨hv, hc⟩ := Animal.reproduce_vitals M s2 animal m
        generalize Animal.reproduce M s2 animal m = rp at hr hv hc ⊢
        obtain ⟨offspring, s3⟩ := rp
        simp only at hr hv hc
        have k3 : s.KeepsVitals s3 :=
          k2.chain_vitals ⟨le_of_eq hr.2.symm, fun j _ => hv j⟩
        cases offspring with
        | none => exact ⟨k3, Or.inl (by rw [hr.1, w2])⟩
        | some child =>
          obtain ⟨b1, b2, b3⟩ := World.addOffspring_vitals s3 animal m child
          refine ⟨k3.chain_vitals b1, Or.inr ⟨?_, ?_⟩⟩
          · show (World.addOffspring s3 animal m child).world.animals = _
            rw [b2, hr.1, w2, hr.2, n2]
          · show 0 < ((World.addOffspring s3 animal m child).animalAt s.nextId).health
            rw [← n2, ← hr.2, b3, hc child rfl]
            norm_num
      · exact ⟨k2, Or.inl (by rw [w2])⟩
  unfold World.checkReproduction
  generalize (s.animalAt animal).canReproduce s.rng = cr
  obtain ⟨ok, r⟩ := cr
  show (fun s3 : Sim => s.KeepsVitals s3 ∧
    (s3.world.animals = s.world.animals ∨
      (s3.world.animals = s.world.animals ++ [s.nextId] ∧
        0 < (s3.animalAt s.nextId).health))) (if _ then _ else _)
  split
  · show (fun s3 : Sim => s.KeepsVitals s3 ∧
      (s3.world.animals = s.world.animals ∨
        (s3.world.animals = s.world.animals ++ [s.nextId] ∧
          0 < (s3.animalAt s.nextId).health))) (if _ then _ else _)
    split
    · exact key _ rfl rfl rfl
    · exact ⟨⟨le_refl _, fun _ _ => rfl⟩, Or.inl rfl⟩
  · exact ⟨⟨le_refl _, fun _ _ => rfl⟩, Or.inl rfl⟩

/-- An entry of a duplicate-free list after one value was filtered out comes from the
same index or from the next. -/
theorem getElem?_filter_ne (l : List Nat) (p : Nat) (h : l.Nodup) :
    ∀ (k a : Nat), (l.filter (fun x => decide (x ≠ p)))[k]? = some a →
      l[k]? = some a ∨ l[k + 1]? = some a := by
  induction l with
  | nil =>
    intro k a e
    simp at e
  | cons x l ih =>
    intro k a e
    have hl : l.Nodup := (List.nodup_cons.mp h).2
    by_cases hx : x = p
    · have hp : p ∉ l := by rw [← hx]; exact (List.nodup_cons.mp h).1
      have hf : (x :: l).filter (fun x => decide (x ≠ p)) = l := by
        rw [List.filter_cons_of_neg (by simpa using hx)]
        apply List.filter_eq_self.mpr
        intro b hb
        have : b ≠ p := fun e => hp (e ▸ hb)
        simpa using this
      rw [hf] at e
      right
      rw [List.getElem?_cons_succ]
      exact e
    · rw [List.filter_cons_of_pos (by simpa using hx)] at e
      cases k with
      | zero =>
        left
        rw [List.getElem?_cons_zero] at e ⊢
        exact e
      | succ k =>
        rw [List.getElem?_cons_succ] at e
        rcases ih hl k a e with h1 | h1
        · left
          rw [List.getElem?_cons_succ]
          exact h1
        · right
          rw [List.getElem?_cons_succ]
          exact h1

/-- The members of a duplicate-free list after the entry at index `i` was erased. -/
theorem mem_eraseIdx_of_nodup (l : List Nat) (i x a : Nat) (h : l.Nodup)
    (hx : l[i]? = some x) : a ∈ l.eraseIdx i ↔ a ∈ l ∧ a ≠ x := by
  rw [List.mem_eraseIdx_iff_getElem?]
  constructor
  · rintro ⟨j, hj, e⟩
    refine ⟨List.getElem?_mem e, ?_⟩
    intro hax
    apply hj
    have hjl : j < l.length := (List.getElem?_eq_some.mp e).1
    exact List.getElem?_inj hjl h (by rw [e, hx, hax])
  · rintro ⟨hm, hne⟩
    obtain ⟨j, e⟩ := List.mem_iff_getElem?.mp hm
    refine ⟨j, ?_, e⟩
    intro hji
    rw [hji, hx] at e
    exact hne (Option.some.inj e).symm

/-- The body of the loop before the removal of the dead, on the fields that decide about
death, for an animal `x` of the collection that is alive, is not its own target, and
cannot lose 20 of health in one step. -/
theorem World.body_vitals (M : MathEnv) (dt : ℚ) (st : Sim) (x : Nat)
    (hdt : 0 ≤ dt) (hx : x < st.nextId)
    (hh : 0 < (st.animalAt x).health) (hm : 0 < (st.animalAt x).maxHealth)
    (hs : 0 < (st.animalAt x).traits.size)
    (hd : dt * (0.3 / ((st.animalAt x).traits.size / 10)) * 2 + dt * 2 < 20)
    (ht : (st.animalAt x).currentTarget ≠ some (Target.animal x)) :
    ∃ (l2 off : List Nat),
      (World.checkReproduction M (World.checkFeeding M (Animal.update M st x dt) x) x).world.animals
        = l2 ++ off ∧
      st.nextId ≤
        (World.checkReproduction M (World.checkFeeding M (Animal.update M st x dt) x) x).nextId ∧
      (∀ a ∈ off, a = st.nextId ∧
        0 < ((World.checkReproduction M
          (World.checkFeeding M (Animal.update M st x dt) x) x).animalAt a).health) ∧
      (∀ a, a < st.nextId →
        ((World.checkReproduction M
          (World.checkFeeding M (Animal.update M st x dt) x) x).animalAt a).maxHealth
            = (st.animalAt a).maxHealth ∧
        ((World.checkReproduction M
          (World.checkFeeding M (Animal.update M st x dt) x) x).animalAt a).traits
            = (st.animalAt a).traits) ∧
      (∀ a, a < st.nextId → a ≠ x →
        ((World.checkReproduction M
          (World.checkFeeding M (Animal.update M st x dt) x) x).animalAt a).currentTarget
            = (st.animalAt a).currentTarget) ∧
      ((World.checkReproduction M
          (World.checkFeeding M (Animal.update M st x dt) x) x).animalAt x).currentTarget
        ≠ some (Target.animal x) ∧
      ((l2 = st.world.animals ∧
          ∀ a, a < st.nextId → a ≠ x →
            ((World.checkReproduction M
              (World.checkFeeding M (Animal.update M st x dt) x) x).animalAt a).health
              = (st.animalAt a).health) ∨
        (∃ p, p ≠ x ∧ l2 = st.world.animals.filter (fun a => decide (a ≠ p)) ∧
          (p < st.nextId →
            ((World.checkReproduction M
              (World.checkFeeding M (Animal.update M st x dt) x) x).animalAt p).health = 0) ∧
          (∀ a, a < st.nextId → a ≠ x → a ≠ p →
            ((World.checkReproduction M
              (World.checkFeeding M (Animal.update M st x dt) x) x).animalAt a).health
              = (st.animalAt a).health) ∧
          0 < ((World.checkReproduction M
              (World.checkFeeding M (Animal.update M st x dt) x) x).animalAt x).health)) := by
  obtain ⟨uw, un, _, uo, _, _⟩ := Animal.update_effect M st x dt
  obtain ⟨vh, vm, vt, vtar⟩ := Animal.update_vitals M st x dt
  obtain ⟨bm, bh⟩ := Animal.updateMetabolism_health_bound (st.animalAt x) dt hdt hs
  have h1 : -20 < ((Animal.update M st x dt).animalAt x).health := by
    rw [vh]; linarith
  have m1 : ((Animal.update M st x dt).animalAt x).maxHealth = (st.animalAt x).maxHealth := by
    rw [vm, bm]
  have tar1 := vtar ht
  generalize Animal.update M st x dt = s1 at uw un uo vt h1 m1 tar1 ⊢
  obtain ⟨fn, fb, ft, ftx, fcase⟩ := World.checkFeeding_vitals M s1 x tar1
  generalize World.checkFeeding M s1 x = s2 at fn fb ft ftx fcase ⊢
  obtain ⟨⟨rn, rv⟩, rcase⟩ := World.checkReproduction_vitals M s2 x
  have n2 : s2.nextId = st.nextId := fn.trans un
  generalize World.checkReproduction M s2 x = s3 at rn rv rcase ⊢
  have rh : ∀ a, a < st.nextId → (s3.animalAt a).health = (s2.animalAt a).health :=
    fun a ha => congrArg (fun v : ℚ × ℚ × Traits × Option Target => v.1)
      (rv a (by rw [n2]; exact ha))
  have rm : ∀ a, a < st.nextId → (s3.animalAt a).maxHealth = (s2.animalAt a).maxHealth :=
    fun a ha => congrArg (fun v : ℚ × ℚ × Traits × Option Target => v.2.1)
      (rv a (by rw [n2]; exact ha))
  have rt : ∀ a, a < st.nextId → (s3.animalAt a).traits = (s2.animalAt a).traits :=
    fun a ha => congrArg (fun v : ℚ × ℚ × Traits × Option Target => v.2.2.1)
      (rv a (by rw [n2]; exact ha))
  have rc : ∀ a, a < st.nextId →
      (s3.animalAt a).currentTarget = (s2.animalAt a).currentTarget :=
    fun a ha => congrArg (fun v : ℚ × ℚ × Traits × Option Target => v.2.2.2)
      (rv a (by rw [n2]; exact ha))
  have hoff : ∃ off : List Nat, s3.world.animals = s2.world.animals ++ off ∧
      ∀ a ∈ off, a = st.nextId ∧ 0 < (s3.animalAt a).health := by
    rcases rcase with e | ⟨e, hpos⟩
    · exact ⟨[], by rw [e, List.append_nil], fun a ha => absurd ha (List.not_mem_nil a)⟩
    · refine ⟨[s2.nextId], e, ?_⟩
      intro a ha
      rw [List.mem_singleton.mp ha]
      exact ⟨n2, hpos⟩
  obtain ⟨off, eoff, hoffp⟩ := hoff
  refine ⟨s2.world.animals, off, eoff, by rw [← n2]; exact rn, hoffp, ?_, ?_, ?_, ?_⟩
  · intro a ha
    rw [rm a ha, rt a ha, (fb a).1, (fb a).2]
    by_cases hax : a = x
    · rw [hax]; exact ⟨m1, vt⟩
    · rw [uo a hax]; exact ⟨rfl, rfl⟩
  · intro a ha hax
    rw [rc a ha, ft a hax, uo a hax]
  · rw [rc x hx]
    exact ftx
  · rcases fcase with ⟨el, eh⟩ | ⟨p, hp, el, ehp, eh, ehx⟩
    · left
      refine ⟨by rw [el, uw], ?_⟩
      intro a ha hax
      rw [rh a ha, eh a hax, uo a hax]
    · right
      refine ⟨p, hp, by rw [el, uw], ?_, ?_, ?_⟩
      · intro hpl
        rw [rh p hpl, ehp]
      · intro a ha hax hap
        rw [rh a ha, eh a hax hap, uo a hax]
      · rw [rh x hx, ehx, m1]
        exact lt_min hm (by linarith)

/-- One iteration of the loop keeps the invariant of the removal of the dead, when no
animal of the start can lose 20 of health in one step. -/
theorem World.updateAnimal_sweep (M : MathEnv) (dt : ℚ) (i : Nat) (s0 st st2 : Sim)
    (hdt : 0 ≤ dt)
    (h0 : ∀ a ∈ s0.world.animals, a < s0.nextId ∧ 0 < (s0.animalAt a).maxHealth ∧
      0 < (s0.animalAt a).traits.size ∧
      dt * (0.3 / ((s0.animalAt a).traits.size / 10)) * 2 + dt * 2 < 20)
    (hinv : World.SweepInv s0 (i + 1) st)
    (h : World.updateAnimal M dt i st = some st2) : World.SweepInv s0 i st2 := by
  obtain ⟨hwf, hlen, hnid, halive, hgone, hidx, hstat⟩ := hinv
  have hi : i < st.world.animals.length := hlen
  obtain ⟨st3, e3, hwf2, hlen2⟩ := World.updateAnimal_spec M dt i st hwf hi
  rw [h] at e3
  have e3 := Option.some.inj e3
  rw [← e3] at hwf2 hlen2
  unfold World.updateAnimal at h
  have hxi : st.world.animals[i]? = some st.world.animals[i] := List.getElem?_eq_getElem hi
  rw [hxi] at h
  have h := Option.some.inj h
  generalize st.world.animals[i] = x at hxi h
  have hxm : x ∈ st.world.animals := List.getElem?_mem hxi
  have hx0 : x ∈ s0.world.animals := hidx i x (Nat.lt_succ_self i) hxi
  have hxlt : x < st.nextId := hwf.2 x hxm
  obtain ⟨sm, st_, stt⟩ := hstat x hx0
  obtain ⟨_, p2, p3, p4⟩ := h0 x hx0
  obtain ⟨l2, off, el, hn3, hoff, bb, bt, btx, bcase⟩ :=
    World.body_vitals M dt st x hdt hxlt (halive x hxm) (by rw [sm]; exact p2)
      (by rw [st_]; exact p3) (by rw [st_]; exact p4) stt
  generalize World.checkReproduction M (World.checkFeeding M (Animal.update M st x dt) x) x
    = s3 at h el hn3 hoff bb bt btx bcase
  have hlt0 : ∀ a ∈ s0.world.animals, a < st.nextId :=
    fun a ha => lt_of_lt_of_le (h0 a ha).1 hnid
  have hobj : st2.animalAt = s3.animalAt := by
    rw [← h]; unfold World.removeDead; split <;> rfl
  have hnext : st2.nextId = s3.nextId := by
    rw [← h]; unfold World.removeDead; split <;> rfl
  have hoffne : ∀ a ∈ off, 0 < (st2.animalAt a).health := by
    intro a ha; rw [hobj]; exact (hoff a ha).2
  -- the components that do not depend on the collection
  have kstat : ∀ a ∈ s0.world.animals,
      (st2.animalAt a).maxHealth = (s0.animalAt a).maxHealth ∧
      (st2.animalAt a).traits = (s0.animalAt a).traits ∧
      (st2.animalAt a).currentTarget ≠ some (Target.animal a) := by
    intro a ha
    obtain ⟨q1, q2, q3⟩ := hstat a ha
    rw [hobj]
    refine ⟨((bb a (hlt0 a ha)).1).trans q1, ((bb a (hlt0 a ha)).2).trans q2, ?_⟩
    by_cases hax : a = x
    · rw [hax]; exact btx
    · rw [bt a (hlt0 a ha) hax]; exact q3
  refine ⟨hwf2, hlen2, le_trans hnid (by rw [hnext]; exact hn3), ?_, ?_, ?_, kstat⟩
    <;> rcases bcase with ⟨e2, eh⟩ | ⟨p, hp, e2, ehp, eh, ehx⟩
  -- every animal of the collection is alive
  · intro a ha
    by_cases hdead : (s3.animalAt x).isDead = true
    · have el2 : st2.world.animals = st.world.animals.eraseIdx i ++ off := by
        rw [← h]; unfold World.removeDead; rw [if_pos hdead]
        show (s3.world.animals).eraseIdx i = _
        rw [el, e2, List.eraseIdx_append_of_lt_length hi]
      rw [el2] at ha
      rcases List.mem_append.mp ha with ha | ha
      · obtain ⟨ham, hax⟩ := (mem_eraseIdx_of_nodup _ i x a hwf.1 hxi).mp ha
        rw [hobj, eh a (hwf.2 a ham) hax]
        exact halive a ham
      · exact hoffne a ha
    · have el2 : st2.world.animals = st.world.animals ++ off := by
        rw [← h]; unfold World.removeDead; rw [if_neg hdead, el, e2]
      rw [el2] at ha
      rcases List.mem_append.mp ha with ha | ha
      · by_cases hax : a = x
        · rw [hax, hobj]
          unfold Animal.isDead at hdead
          simpa using hdead
        · rw [hobj, eh a (hwf.2 a ha) hax]
          exact halive a ha
      · exact hoffne a ha
  · intro a ha
    have hdead : ¬ (s3.animalAt x).isDead = true := by
      unfold Animal.isDead
      simpa using ehx
    have el2 : st2.world.animals
        = st.world.animals.filter (fun a => decide (a ≠ p)) ++ off := by
      rw [← h]; unfold World.removeDead; rw [if_neg hdead, el, e2]
    rw [el2] at ha
    rcases List.mem_append.mp ha with ha | ha
    · obtain ⟨ham, hap⟩ := List.mem_filter.mp ha
      have hap : a ≠ p := by simpa using hap
      by_cases hax : a = x
      · rw [hax, hobj]; exact ehx
      · rw [hobj, eh a (hwf.2 a ham) hax hap]
        exact halive a ham
    · exact hoffne a ha
  -- every animal of the start that has left the collection is dead
  · intro a ha hna
    rw [hobj]
    by_cases hdead : (s3.animalAt x).isDead = true
    · have el2 : st2.world.animals = st.world.animals.eraseIdx i ++ off := by
        rw [← h]; unfold World.removeDead; rw [if_pos hdead]
        show (s3.world.animals).eraseIdx i = _
        rw [el, e2, List.eraseIdx_append_of_lt_length hi]
      by_cases hax : a = x
      · rw [hax]
        unfold Animal.isDead at hdead
        simpa using hdead
      · rw [eh a (hlt0 a ha) hax]
        apply hgone a ha
        intro ham
        apply hna
        rw [el2]
        exact List.mem_append_left _
          ((mem_eraseIdx_of_nodup _ i x a hwf.1 hxi).mpr ⟨ham, hax⟩)
    · have el2 : st2.world.animals = st.world.animals ++ off := by
        rw [← h]; unfold World.removeDead; rw [if_neg hdead, el, e2]
      have ham : a ∉ st.world.animals := fun hm => hna (by rw [el2]; exact List.mem_append_left _ hm)
      have hax : a ≠ x := fun e => ham (e ▸ hxm)
      rw [eh a (hlt0 a ha) hax]
      exact hgone a ha ham
  · intro a ha hna
    rw [hobj]
    have hdead : ¬ (s3.animalAt x).isDead = true := by
      unfold Animal.isDead
      simpa using ehx
    have el2 : st2.world.animals
        = st.world.animals.filter (fun a => decide (a ≠ p)) ++ off := by
      rw [← h]; unfold World.removeDead; rw [if_neg hdead, el, e2]
    by_cases hap : a = p
    · rw [hap]
      rw [ehp (by rw [← hap]; exact hlt0 a ha)]
    · have ham : a ∉ st.world.animals := by
        intro hm
        apply hna
        rw [el2]
        exact List.mem_append_left _ (List.mem_filter.mpr ⟨hm, by simpa using hap⟩)
      have hax : a ≠ x := fun e => ham (e ▸ hxm)
      rw [eh a (hlt0 a ha) hax hap]
      exact hgone a ha ham
  -- the animals still to be visited were there at the start
  · intro k a hk hka
    by_cases hdead : (s3.animalAt x).isDead = true
    · have el2 : st2.world.animals = st.world.animals.eraseIdx i ++ off := by
        rw [← h]; unfold World.removeDead; rw [if_pos hdead]
        show (s3.world.animals).eraseIdx i = _
        rw [el, e2, List.eraseIdx_append_of_lt_length hi]
      rw [el2, List.getElem?_append_left
        (by rw [List.length_eraseIdx_of_lt hi]; omega),
        List.getElem?_eraseIdx_of_lt _ _ _ hk] at hka
      exact hidx k a (Nat.lt_succ_of_lt hk) hka
    · have el2 : st2.world.animals = st.world.animals ++ off := by
        rw [← h]; unfold World.removeDead; rw [if_neg hdead, el, e2]
      rw [el2, List.getElem?_append_left (by omega)] at hka
      exact hidx k a (Nat.lt_succ_of_lt hk) hka
  · intro k a hk hka
    have hdead : ¬ (s3.animalAt x).isDead = true := by
      unfold Animal.isDead
      simpa using ehx
    have el2 : st2.world.animals
        = st.world.animals.filter (fun a => decide (a ≠ p)) ++ off := by
      rw [← h]; unfold World.removeDead; rw [if_neg hdead, el, e2]
    have hfl := length_filter_ne_of_nodup st.world.animals p hwf.1
    rw [el2, List.getElem?_append_left (by omega)] at hka
    rcases getElem?_filter_ne st.world.animals p hwf.1 k a hka with e | e
    · exact hidx k a (Nat.lt_succ_of_lt hk) e
    · exact hidx (k + 1) a (Nat.succ_lt_succ hk) e

/-- The loop keeps the invariant of the removal of the dead. -/
theorem World.updateAnimals_sweep (M : MathEnv) (dt : ℚ) (s0 : Sim) (hdt : 0 ≤ dt)
    (h0 : ∀ a ∈ s0.world.animals, a < s0.nextId ∧ 0 < (s0.animalAt a).maxHealth ∧
      0 < (s0.animalAt a).traits.size ∧
      dt * (0.3 / ((s0.animalAt a).traits.size / 10)) * 2 + dt * 2 < 20) :
    ∀ (n : Nat) (st st2 : Sim), World.SweepInv s0 n st →
      World.updateAnimals M dt n st = some st2 → World.SweepInv s0 0 st2 := by
  intro n
  induction n with
  | zero =>
    intro st st2 hinv h
    have h : some st = some st2 := h
    rw [← Option.some.inj h]
    exact hinv
  | succ i ih =>
    intro st st2 hinv h
    have h : (World.updateAnimal M dt i st).bind (World.updateAnimals M dt i) = some st2 := h
    cases h1 : World.updateAnimal M dt i st with
    | none => rw [h1] at h; exact Option.noConfusion h
    | some s1 =>
      rw [h1] at h
      exact ih s1 st2 (World.updateAnimal_sweep M dt i s0 st s1 hdt h0 hinv h1) h

theorem foxRabbitSim_wf : foxRabbitSim.WF := by
  unfold Sim.WF
  decide!

/-- Claim C2: in an unpaused tick on a well-formed state in which every animal of the
population is alive, is not its own target and cannot lose 20 of health in one step (the
step `deltaTime * speed` is not negative and `step * (0.3 / (size / 10)) * 2 + step * 2`
is below 20, as for every step below 0.5 and size above 0.2), the tick returns, an animal
of the population before the tick is absent afterwards if and only if its health is
`≤ 0`, and every animal of the population afterwards has health `> 0`. -/
theorem C2_removed_iff_dead (M : MathEnv) (s : Sim) (deltaTime : ℚ)
    (hwf : s.WF) (hp : s.world.paused = false) (hdt : 0 ≤ deltaTime * s.world.speed)
    (hstart : ∀ a ∈ s.world.animals,
      0 < (s.animalAt a).health ∧ 0 < (s.animalAt a).maxHealth ∧
      0 < (s.animalAt a).traits.size ∧
      deltaTime * s.world.speed * (0.3 / ((s.animalAt a).traits.size / 10)) * 2
        + deltaTime * s.world.speed * 2 < 20 ∧
      (s.animalAt a).currentTarget ≠ some (Target.animal a)) :
    ∃ s2, World.update M s deltaTime = some s2 ∧
      (∀ a ∈ s.world.animals, a ∉ s2.world.animals ↔ (s2.animalAt a).health ≤ 0) ∧
      (∀ a ∈ s.world.animals, 0 < (s2.animalAt a).health → a ∈ s2.world.animals) ∧
      (∀ a ∈ s2.world.animals, 0 < (s2.animalAt a).health) := by
  obtain ⟨s1, e1, e2⟩ := World.update_parts M s deltaTime hwf hp
  have hinv0 : World.SweepInv (World.tickStart s deltaTime) s.world.animals.length
      (World.tickStart s deltaTime) :=
    ⟨hwf, le_refl _, le_refl _, fun a ha => (hstart a ha).1,
      fun a ha hna => absurd ha hna,
      fun k a _ hka => List.getElem?_mem hka,
      fun a ha => ⟨rfl, rfl, (hstart a ha).2.2.2.2⟩⟩
  have h0 : ∀ a ∈ (World.tickStart s deltaTime).world.animals,
      a < (World.tickStart s deltaTime).nextId ∧
      0 < ((World.tickStart s deltaTime).animalAt a).maxHealth ∧
      0 < ((World.tickStart s deltaTime).animalAt a).traits.size ∧
      deltaTime * s.world.speed
          * (0.3 / (((World.tickStart s deltaTime).animalAt a).traits.size / 10)) * 2
        + deltaTime * s.world.speed * 2 < 20 :=
    fun a ha => ⟨hwf.2 a ha, (hstart a ha).2.1, (hstart a ha).2.2.1, (hstart a ha).2.2.2.1⟩
  obtain ⟨_, _, _, kalive, kgone, _, _⟩ :=
    World.updateAnimals_sweep M (deltaTime * s.world.speed) (World.tickStart s deltaTime) hdt h0
      s.world.animals.length (World.tickStart s deltaTime) s1 hinv0 e1
  have hobj : (World.spawnVegetation (World.growVegetation s1)).animalAt = s1.animalAt :=
    World.vegetation_steps_animalAt s1
  have hlist : (World.spawnVegetation (World.growVegetation s1)).world.animals
      = s1.world.animals := by
    rw [(World.spawnVegetation_animals _).1, (World.growVegetation_frame s1).1]
  have halive : ∀ a ∈ (World.spawnVegetation (World.growVegetation s1)).world.animals,
      0 < ((World.spawnVegetation (World.growVegetation s1)).animalAt a).health := by
    intro a ha
    rw [hobj]
    rw [hlist] at ha
    exact kalive a ha
  have hiff : ∀ a ∈ s.world.animals,
      a ∉ (World.spawnVegetation (World.growVegetation s1)).world.animals ↔
        ((World.spawnVegetation (World.growVegetation s1)).animalAt a).health ≤ 0 := by
    intro a ha
    constructor
    · intro hna
      rw [hobj]
      rw [hlist] at hna
      exact kgone a ha hna
    · intro hle hm
      exact absurd (halive a hm) (not_lt.mpr hle)
  refine ⟨_, e2, hiff, ?_, halive⟩
  intro a ha hpos
  by_contra hna
  exact absurd hpos (not_lt.mpr ((hiff a ha).mp hna))

/-- Witness of C2: in `foxRabbitSim` with `deltaTime = 0.05` the fox eats the rabbit; after
the tick the rabbit has health 0 and is absent, and the fox is alive and present. -/
theorem C2_removed_iff_dead_witness :
    foxRabbitSim.WF ∧ foxRabbitSim.world.paused = false ∧
    0 ≤ (1 / 20 : ℚ) * foxRabbitSim.world.speed ∧
    (∀ a ∈ foxRabbitSim.world.animals,
      0 < (foxRabbitSim.animalAt a).health ∧ 0 < (foxRabbitSim.animalAt a).maxHealth ∧
      0 < (foxRabbitSim.animalAt a).traits.size ∧
      1 / 20 * foxRabbitSim.world.speed
          * (0.3 / ((foxRabbitSim.animalAt a).traits.size / 10)) * 2
        + 1 / 20 * foxRabbitSim.world.speed * 2 < 20 ∧
      (foxRabbitSim.animalAt a).currentTarget ≠ some (Target.animal a)) ∧
    (World.update refMath foxRabbitSim (1 / 20)).map
        (fun s => (s.world.animals, (s.animalAt 0).health))
      = some ([1], 0) ∧
    ∃ s2, World.update refMath foxRabbitSim (1 / 20) = some s2 ∧
      (∀ a ∈ foxRabbitSim.world.animals,
        a ∉ s2.world.animals ↔ (s2.animalAt a).health ≤ 0) ∧
      (∀ a ∈ foxRabbitSim.world.animals, 0 < (s2.animalAt a).health → a ∈ s2.world.animals) ∧
      (∀ a ∈ s2.world.animals, 0 < (s2.animalAt a).health) :=
  ⟨foxRabbitSim_wf, by decide!, by decide!, by decide!, by decide!,
    C2_removed_iff_dead refMath foxRabbitSim (1 / 20) foxRabbitSim_wf (by decide!)
      (by decide!) (by decide!)⟩

end Ecosystem
